import Mathlib

/-!
Zilliqa: DS-block, final-block and view-change block post-processing.

A shallow embedding of the post-consensus code of

* `src/libDirectoryService/DSBlockPostProcessing.cpp`
* `src/libDirectoryService/FinalBlockPostProcessing.cpp`
* `src/libNode/ViewChangeBlockProcessing.cpp`

Stateful member functions become functions on explicit state records, code
that can abort or throw returns `Except Fault _`, and fixed-width unsigned
integers are natural numbers reduced modulo `2 ^ width` where the source
truncates them. A member function with effects on its collaborators is a
`Run`: the state it leaves, the effects in their order, and the value
returned or the fault that ended it; what depends on the environment at the
time of a call is read from an `Oracle`.
-/

namespace Zilliqa

/-! ## Data model -/

/-- A public key (`PubKey`); only equality of keys is used by the code. -/
abbrev PubKey := Nat

/-- A private key (`PrivKey`); never inspected by the code embedded here. -/
abbrev PrivKey := Nat

/-- A network peer (`Peer`): IP address and listening port. `Peer()` is the
all-zero peer, and `operator==` compares both fields. -/
structure Peer where
  m_ipAddress : Nat := 0
  m_listenPortHost : Nat := 0
deriving DecidableEq, Repr

/-- The DS committee, `std::deque<std::pair<PubKey, Peer>>`: index 0 is the
front of the deque. -/
abbrev DSCommittee := List (PubKey × Peer)

/-- The mode of a directory-service node (`DirectoryService::Mode`). -/
inductive Mode where
  | IDLE
  | PRIMARY_DS
  | BACKUP_DS
deriving DecidableEq, Repr

/-- The ways in which the embedded code stops without returning. -/
inductive Fault where
  /-- A `LOG_GENERAL(FATAL, ...)` statement was reached. -/
  | fatal
  /-- A checked accessor `at(...)` was called with an absent index or key. -/
  | outOfRange
  /-- An integer remainder with divisor zero was evaluated. -/
  | divByZero
  /-- An invalid iterator or reference was used (an iterator past the end,
  `front()` of an empty container). -/
  | undefined
deriving DecidableEq, Repr

/-- The externally configured constants read by the embedded code. -/
structure Constants where
  LOOKUP_NODE_MODE : Bool := false
  GUARD_MODE : Bool := false
  TEST_NET_MODE : Bool := false
  BROADCAST_GOSSIP_MODE : Bool := false
  BROADCAST_TREEBASED_CLUSTER_MODE : Bool := false
  DS_MULTICAST_CLUSTER_SIZE : Nat := 3
  COMM_SIZE : Nat := 4
  TX_SHARING_CLUSTER_SIZE : Nat := 2
  CONSENSUS_OBJECT_TIMEOUT : Nat := 10
  VIEWCHANGE_TIME : Nat := 10
  VIEWCHANGE_PRECHECK_TIME : Nat := 5
  VIEWCHANGE_EXTRA_TIME : Nat := 5
  NUM_FORWARDED_BLOCK_RECEIVERS_PER_SHARD : Nat := 4
  NUM_DS_ELECTION : Nat := 1
  NUM_OF_TREEBASED_CHILD_CLUSTERS : Nat := 2
deriving DecidableEq, Repr

/-- A DS block, reduced to the header fields the embedded code reads. -/
structure DSBlock where
  m_blockNum : Nat := 0
  m_minerPubKey : PubKey := 0
deriving DecidableEq, Repr

/-- A TX (final) block, reduced to its number and its serialisation. -/
structure TxBlock where
  m_blockNum : Nat := 0
  m_serialized : List Nat := []
  m_rewards : Nat := 0
deriving DecidableEq, Repr

/-- Modelled from the spec: the chain container (`BlockChain`, not among the
sources) is an in-memory append-only chain with a tail accessor; on a chain
without blocks the accessor yields a default-constructed block. -/
def GetLastBlock {β : Type} [Inhabited β] (chain : List β) : β :=
  chain.getLastD default

instance : Inhabited DSBlock := ⟨{}⟩

instance : Inhabited TxBlock := ⟨{}⟩

/-- The state of a directory-service node (`DirectoryService::DirState`). -/
inductive DirState where
  | POW_SUBMISSION
  | DSBLOCK_CONSENSUS_PREP
  | DSBLOCK_CONSENSUS
  | MICROBLOCK_SUBMISSION
  | FINALBLOCK_CONSENSUS_PREP
  | FINALBLOCK_CONSENSUS
  | VIEWCHANGE_CONSENSUS_PREP
  | VIEWCHANGE_CONSENSUS
  | ERROR
deriving DecidableEq, Repr

/-- The actions checked against the state (`DirectoryService::Action`). -/
inductive Action where
  | PROCESS_POWSUBMISSION
  | VERIFYPOW
  | PROCESS_DSBLOCKCONSENSUS
  | PROCESS_MICROBLOCKSUBMISSION
  | PROCESS_FINALBLOCKCONSENSUS
  | PROCESS_VIEWCHANGECONSENSUS
deriving DecidableEq, Repr

/-- The state of the consensus object after a message
(`ConsensusCommon::State`), as far as the dispatchers distinguish it. -/
inductive ConsensusState where
  | DONE
  | ERROR
  | OTHER
deriving DecidableEq, Repr

/-- The error code of the consensus object
(`ConsensusCommon::ConsensusErrorCode`), as far as the dispatchers
distinguish it. -/
inductive ConsensusErrorCode where
  | FINALBLOCK_MISSING_MICROBLOCKS
  | MISSING_TXN
  | OTHER
deriving DecidableEq, Repr

/-- A byte string (`std::vector<unsigned char>`). -/
abbrev Message := List Nat

/-- A shard: its members `(pub_key, peer, reputation)`, the leader first. -/
abbrev Shard := List (PubKey × Peer × Nat)

/-- An entry of the block-link chain: index, DS epoch, block type, hash. -/
structure BlockLink where
  m_index : Nat := 0
  m_dsEpochNo : Nat := 0
  m_isVC : Bool := false
  m_blockHash : Nat := 0
deriving DecidableEq, Repr

/-- The keys of `PutMetadata` used by the embedded code (`MetaType`). -/
inductive MetaType where
  | LATESTACTIVEDSBLOCKNUM
  | DSINCOMPLETED
deriving DecidableEq, Repr

/-- The condition variables notified by the embedded code. -/
inductive CondVar where
  | cv_DSBlockConsensus
  | cv_viewChangeDSBlock
  | cv_viewChangeFinalBlock
  | cv_processConsensusMessage
  | cv_scheduleDSMicroBlockConsensus
  | cv_scheduleFinalBlockConsensus
deriving DecidableEq, Repr

/-- A function handed to `DetachedFunction`, to run on a thread of its own. -/
inductive Task where
  /-- `ProcessFinalBlockConsensusCore(message, offset, sender)`. -/
  | ProcessFinalBlockConsensusCore (message : Message) (offset : Nat) (sender : Peer)
  /-- `PrepareRunConsensusOnFinalBlockNormal()` and then
  `ProcessFinalBlockConsensusCore(message, offset, sender)`. -/
  | RerunFinalBlockConsensus (message : Message) (offset : Nat) (sender : Peer)
  /-- The timer of `StartFirstTxEpoch` on `MICROBLOCK_TIMEOUT`. -/
  | MicroBlockTimer
  /-- The next-phase function of `ProcessFinalBlockConsensusWhenDone`. -/
  | NextEpoch (isVacuousEpoch : Bool)
  /-- `UpgradeManager::ReplaceNode`. -/
  | ReplaceNode
deriving DecidableEq, Repr

/-- The effects of the embedded code on its collaborators, which are not
among the sources: writes to the block store with their result, messages
handed to the transport, notifications, detached functions, and calls of
functions whose bodies are not embedded. -/
inductive Event where
  | PutDSBlock (blockNum : Nat) (ok : Bool)
  | PutTxBlock (blockNum : Nat) (ok : Bool)
  | PutVCBlock (blockHash : Nat) (ok : Bool)
  | PutStateDelta (blockNum : Nat) (ok : Bool)
  | PutMetadata (key : MetaType) (ok : Bool)
  | IncreaseEpochNum
  | SendMessageToLookupNodes (message : Message)
  | SendMessage (peer : Peer) (message : Message)
  | SendBroadcastMessage (peers : List Peer) (message : Message)
  | SendBlockToOtherShardNodes (message : Message) (cluster_size : Nat) (children : Nat)
  | SendDataToOthers
  | Notify (cv : CondVar)
  | Detached (task : Task)
  | SetCoSignatures
  | UpdateDSBlockRand
  | UpdateTxBlockRand
  | ProcessTxnBodySharingAssignment
  | SaveCoinbase
  | MoveUpdatesToDisk
  | UpdateProcessedTransactions
  | CallActOnFinalblock
  | InitTemp
  | InitReversibles
  | CommitTxnPacketBuffer
  | UpdateShardWhitelist
  | InitializeRumorManager (peers : List Peer)
  | LoadTxnSharingInfo
  | NodeStartFirstTxEpoch
  | RunConsensusOnFinalBlock
  | RecoveryAndProcessFromANewState
deriving DecidableEq, Repr

/-- The deque that the shared pointer `Node::m_myShardMembers` points to: the
deque of the DS committee, which `m_mediator.m_DSCommittee` points to too
(after the assignment `m_myShardMembers = m_mediator.m_DSCommittee` of
`StartFirstTxEpoch`, which copies the pointer, not the deque), or a deque of
the node's own. -/
inductive ShardMembers where
  | sharedWithDSCommittee
  | own (members : DSCommittee)
deriving DecidableEq, Repr

/-- The fields of `Node` (`m_mediator.m_node`) written by the embedded code. -/
structure NodeFields where
  m_myShardMembers : ShardMembers := ShardMembers.own []
  m_consensusMyID : Nat := 0
  m_consensusLeaderID : Nat := 0
  m_isPrimary : Bool := false
  m_myShardID : Nat := 0
  m_justDidFallback : Bool := false
  m_hasMicroblock : Bool := false
deriving DecidableEq, Repr

/-- The part of `Mediator` that the embedded code reads and writes. -/
structure Mediator where
  m_currentEpochNum : Nat := 0
  m_dsBlockChain : List DSBlock := []
  m_txBlockChain : List TxBlock := []
  m_DSCommittee : DSCommittee := []
  m_selfKey : PrivKey × PubKey := (0, 0)
  m_consensusID : Nat := 0
  m_blocklinkchain : List BlockLink := []
  m_node : NodeFields := {}
deriving DecidableEq, Repr

/-- The deque read through the pointer, `*m_mediator.m_node->m_myShardMembers`:
the committee as it is at the time of the read when the pointer is shared
with `m_mediator.m_DSCommittee`. -/
def Mediator.myShardMembers (mediator : Mediator) : DSCommittee :=
  match mediator.m_node.m_myShardMembers with
  | ShardMembers.sharedWithDSCommittee => mediator.m_DSCommittee
  | ShardMembers.own members => members

/-- The part of `DirectoryService` that the embedded code reads and writes.
`m_allPoWConns` is the `std::map<PubKey, Peer>` of PoW submitters, kept as an
association list with at most one entry per key; the maps keyed by public key
or consensus id are association lists too. Containers whose elements the
embedded code never inspects hold numbers. -/
structure DirectoryService where
  m_mediator : Mediator := {}
  m_mode : Mode := Mode.IDLE
  m_consensusMyID : Nat := 0
  m_consensusLeaderID : Nat := 0
  m_allPoWConns : List (PubKey × Peer) := []
  m_state : DirState := DirState.POW_SUBMISSION
  m_shards : List Shard := []
  m_publicKeyToShardIdMap : List (PubKey × Nat) := []
  m_DSReceivers : List Nat := []
  m_shardReceivers : List Nat := []
  m_shardSenders : List Nat := []
  m_mapNodeReputation : List Nat := []
  m_tempShards : List Shard := []
  m_tempPublicKeyToShardIdMap : List (PubKey × Nat) := []
  m_tempDSReceivers : List Nat := []
  m_tempShardReceivers : List Nat := []
  m_tempShardSenders : List Nat := []
  m_tempMapNodeReputation : List Nat := []
  m_pendingDSBlock : Option DSBlock := none
  m_finalBlock : TxBlock := {}
  m_latestActiveDSBlockNum : Nat := 0
  m_coinbaseRewardees : List Nat := []
  m_totalTxnFees : Nat := 0
  m_allPoWs : List Nat := []
  m_allDSPoWs : List Nat := []
  m_AllPoWCounter : List Nat := []
  m_microBlocks : List Nat := []
  m_stateDeltaFromShards : List Nat := []
  m_viewChangeCounter : Nat := 0
  m_dsStartedMicroblockConsensus : Bool := false
  m_stopRecvNewMBSubmission : Bool := false
  m_finalBlockConsensusBuffer : List (Nat × List (Peer × Message)) := []
deriving DecidableEq, Repr

/-- A Schnorr (multi-)signature; only passed on to the verifier. -/
abbrev Signature := Nat

/-- The header of a VC block (`VCBlockHeader`). -/
structure VCBlockHeader where
  m_VieWChangeDSEpochNo : Nat := 0
  m_VieWChangeEpochNo : Nat := 0
  m_ViewChangeState : Nat := 0
  m_FaultyLeaders : List (PubKey × Peer) := []
  m_committeeHash : Nat := 0
deriving DecidableEq, Repr

/-- A VC block: header, block hash, timestamp and the two co-signatures with
their bitmaps. -/
structure VCBlock where
  m_header : VCBlockHeader := {}
  m_blockHash : Nat := 0
  m_timestamp : Nat := 0
  m_cs1 : Signature := 0
  m_b1 : List Bool := []
  m_cs2 : Signature := 0
  m_b2 : List Bool := []
deriving DecidableEq, Repr

/-- The external collaborators called by the embedded code, as functions. -/
structure Externals where
  /-- `HashUtils::SerializableToHash16Bits`, before truncation to 16 bits. -/
  SerializableToHash16Bits : TxBlock → Nat := fun _ => 0
  /-- `ConsensusCommon::NumForConsensus`, from `unsigned int` to `unsigned int`. -/
  NumForConsensus : Nat → Nat := fun n => n - (n - 1) / 3
  /-- `MultiSig::AggregatePubKeys`; `none` is the null pointer. -/
  AggregatePubKeys : List PubKey → Option PubKey := fun keys =>
    if keys = [] then none else some keys.sum
  /-- `VCBlockHeader::Serialize` into an empty buffer; `none` is failure. -/
  SerializeHeader : VCBlockHeader → Option (List Nat) := fun _ => some []
  /-- `Signature::Serialize`: the bytes appended to the buffer. -/
  SerializeSignature : Signature → List Nat := fun sig => [sig]
  /-- `BitVector::SetBitVector`: the bytes appended to the buffer. -/
  SetBitVector : List Bool → List Nat := fun bits => bits.map (fun b => if b then 1 else 0)
  /-- `Schnorr::Verify` of a whole message under a key. -/
  SchnorrVerify : List Nat → Signature → PubKey → Bool := fun _ _ _ => true
  /-- `DirectoryService::CheckState`, whose body is not among the sources: does
  the state of the node (with its mode) permit the action? -/
  CheckState : Mode → DirState → Action → Bool := fun mode state action =>
    decide (mode ≠ Mode.IDLE) &&
      (decide (state = DirState.DSBLOCK_CONSENSUS ∧ action = Action.PROCESS_DSBLOCKCONSENSUS) ||
        decide (state = DirState.FINALBLOCK_CONSENSUS
          ∧ action = Action.PROCESS_FINALBLOCKCONSENSUS))
  /-- `ConsensusCommon::GetConsensusID(message, offset, consensus_id)`; `none`
  is failure. -/
  GetConsensusID : Message → Nat → Option Nat := fun message offset => message[offset]?
  /-- `Mediator::GetIsVacuousEpoch`, as a function of the current epoch number. -/
  GetIsVacuousEpoch : Nat → Bool := fun epoch => decide (epoch % 5 = 4)
  /-- `m_mediator.m_curSWInfo.GetUpgradeDS()`. -/
  GetUpgradeDS : Nat := 0
  /-- `Messenger::SetNodeDSBlock` for a shard id, the pending DS block and the
  winner peer (the sharding structure it also encodes is left out); `none` is
  failure. -/
  SetNodeDSBlock : Nat → DSBlock → Peer → Option Message := fun shardID blk _ =>
    some [1, 6, shardID, blk.m_blockNum]
  /-- `Mediator::CheckWhetherBlockIsLatest(dsEpochNo, epochNo)`, on the two
  chains of the mediator. -/
  CheckWhetherBlockIsLatest : List DSBlock → List TxBlock → Nat → Nat → Bool :=
    fun _ _ _ _ => true
  /-- `VCBlockHeader::GetMyHash`. -/
  GetMyHash : VCBlockHeader → Nat := fun _ => 0
  /-- `VerifyTimestamp(timestamp, timeout)`. -/
  VerifyTimestamp : Nat → Nat → Bool := fun _ _ => true
  /-- `Messenger::GetDSCommitteeHash`; `none` is failure. -/
  GetDSCommitteeHash : DSCommittee → Option Nat := fun _ => some 0
  /-- `Messenger::GetNodeVCBlock(message, offset, vcblock)`; `none` is failure. -/
  GetNodeVCBlock : Message → Nat → Option VCBlock := fun _ _ => none
  /-- `DirectoryService::IsDSBlockVCState` of a view-change state. -/
  IsDSBlockVCState : Nat → Bool := fun vcState => decide (vcState = 2)

/-- Modelled from the spec: the member functions of `Node` that set an idle
node up as a shard node (`Node` is not among the sources; the spec has "Load
sharding structure and txn-sharing info as a shard node" and "Delegate to the
shard-node start_first_tx_epoch (external)"). Nothing is known of what they
do to the fields of the node, so each is given by the fields it leaves, as a
function of the fields it finds; `LoadShardingStructure` gives the value it
returns too. -/
structure ShardNodeSetup where
  LoadShardingStructure : NodeFields → Bool × NodeFields := fun node => (true, node)
  LoadTxnSharingInfo : NodeFields → NodeFields := fun node => node
  StartFirstTxEpoch : NodeFields → NodeFields := fun node => node

/-- The results of the calls and waits whose outcome depends on the
environment at the time of one invocation: the results of the writes to the
block store, of the waits on condition variables, of the consensus object,
and of the member functions of `Node` that are not among the sources. -/
structure Oracle where
  PutDSBlock : Bool := true
  PutTxBlock : Bool := true
  PutVCBlock : Bool := true
  PutStateDelta : Bool := true
  PutMetadata : Bool := true
  /-- The value of `m_state` after the wait on `cv_DSBlockConsensusObject`,
  when another thread has changed it meanwhile. -/
  stateAfterWait : Option DirState := none
  /-- The wait on `cv_processConsensusMessage` ended with its predicate true. -/
  orderPreserved : Bool := true
  /-- The result of `m_consensusObject->ProcessMessage`. -/
  ProcessMessage : Bool := true
  /-- The value of `m_consensusObject->GetState()` after the message. -/
  consensusState : ConsensusState := ConsensusState.OTHER
  /-- The value of `m_consensusObject->GetConsensusErrorCode()`. -/
  consensusErrorCode : ConsensusErrorCode := ConsensusErrorCode.OTHER
  /-- The wait on the missing-data condition variable ended by a
  notification, not by the timeout. -/
  missingDataFetched : Bool := false
  /-- What `Node::LoadShardingStructure` and the member functions of `Node`
  called after it (`LoadTxnSharingInfo`, `Node::StartFirstTxEpoch`) do. -/
  LoadShardingStructure : ShardNodeSetup := {}

/-- A run of a member function: the state it leaves, the effects on the
collaborators in the order in which they happen, and the value returned or
the fault that ended the run. -/
structure Run (α : Type) where
  state : DirectoryService
  events : List Event
  result : Except Fault α

/-- A run that returns from a `void` function. -/
def ret (ds : DirectoryService) (events : List Event) : Run Unit :=
  { state := ds, events := events, result := .ok () }

/-- A run that returns a value. -/
def retVal {α : Type} (ds : DirectoryService) (events : List Event) (v : α) : Run α :=
  { state := ds, events := events, result := .ok v }

/-- A run ended by a fault. -/
def fail {α : Type} (ds : DirectoryService) (events : List Event) (e : Fault) : Run α :=
  { state := ds, events := events, result := .error e }

/-- Sequencing: the next steps run on the state left by the first ones,
their effects follow, unless a fault has ended the run. -/
def Run.andThen {α : Type} (r : Run Unit) (next : DirectoryService → Run α) : Run α :=
  match r.result with
  | .ok _ =>
    { state := (next r.state).state, events := r.events ++ (next r.state).events,
      result := (next r.state).result }
  | .error e => { state := r.state, events := r.events, result := .error e }

/-! ## `DSBlockPostProcessing.cpp` -/

/-- `std::map::erase(key)` on the association list. -/
def mapErase (m : List (PubKey × Peer)) (key : PubKey) : List (PubKey × Peer) :=
  m.filter (fun kv => kv.1 ≠ key)

/-- `DirectoryService::UpdateMyDSModeAndConsensusId`.

`w` is the bit width of the field `m_consensusMyID`, whose declaration is not
among the sources; the comparison with the committee size is made on the
value cast to `uint32_t`, the increment wraps at the width of the field.
`lastBlockHash` and `dsIndex` are `uint16_t`. -/
def UpdateMyDSModeAndConsensusId (cst : Constants) (ext : Externals) (w : Nat)
    (ds : DirectoryService) : Except Fault DirectoryService :=
  if cst.LOOKUP_NODE_MODE then
    pure ds
  else
    let lastBlockHash : Nat :=
      if ds.m_mediator.m_currentEpochNum > 1 then
        ext.SerializableToHash16Bits (GetLastBlock ds.m_mediator.m_txBlockChain) % 2 ^ 16
      else 0
    let size := ds.m_mediator.m_DSCommittee.length
    if (ds.m_consensusMyID + 1) % 2 ^ 32 = size then
      pure { ds with m_mode := Mode.IDLE }
    else if size = 0 then
      throw Fault.divByZero
    else
      let dsIndex : Nat := (lastBlockHash % size) % 2 ^ 16
      let myID : Nat := (ds.m_consensusMyID + 1) % 2 ^ w
      if dsIndex > 0 then
        match ds.m_mediator.m_DSCommittee[dsIndex - 1]? with
        | none => throw Fault.outOfRange
        | some entry =>
          if entry.1 = ds.m_mediator.m_selfKey.2 then
            pure { ds with m_consensusLeaderID := dsIndex, m_mode := Mode.PRIMARY_DS,
                           m_consensusMyID := myID }
          else
            pure { ds with m_consensusLeaderID := dsIndex, m_mode := Mode.BACKUP_DS,
                           m_consensusMyID := myID }
      else
        pure { ds with m_consensusLeaderID := dsIndex, m_mode := Mode.BACKUP_DS,
                       m_consensusMyID := myID }

/-- `DirectoryService::UpdateDSCommiteeComposition`: `emplace_front` of the
winner, `pop_back`, and removal of the winner from `m_allPoWConns`. -/
def UpdateDSCommiteeComposition (cst : Constants) (winnerpeer : Peer)
    (ds : DirectoryService) : DirectoryService :=
  if cst.LOOKUP_NODE_MODE then
    ds
  else
    let minerPubKey := (GetLastBlock ds.m_mediator.m_dsBlockChain).m_minerPubKey
    let pushed : DSCommittee := (minerPubKey, winnerpeer) :: ds.m_mediator.m_DSCommittee
    { ds with
      m_mediator := { ds.m_mediator with m_DSCommittee := pushed.dropLast }
      m_allPoWConns := mapErase ds.m_allPoWConns minerPubKey }

/-- The committee-rotation steps of
`DirectoryService::ProcessDSBlockConsensusWhenDone` (the calls of
`UpdateMyDSModeAndConsensusId` and `UpdateDSCommiteeComposition` and the
checked read `m_DSCommittee->at(m_consensusLeaderID)` that follows them). -/
def rotateOnDSBlockDone (cst : Constants) (ext : Externals) (w : Nat) (winnerpeer : Peer)
    (ds : DirectoryService) : Except Fault DirectoryService :=
  if cst.LOOKUP_NODE_MODE then
    pure ds
  else
    match UpdateMyDSModeAndConsensusId cst ext w ds with
    | .error e => .error e
    | .ok ds1 =>
      let ds2 := UpdateDSCommiteeComposition cst winnerpeer ds1
      match ds2.m_mediator.m_DSCommittee[ds2.m_consensusLeaderID]? with
      | none => throw Fault.outOfRange
      | some _ => pure ds2

/-- A sequence of DS-block rotations, one per winner peer; the DS chain tail
that names the winner is replaced before each rotation. -/
def rotations (cst : Constants) : List (DSBlock × Peer) → DirectoryService → DirectoryService
  | [], ds => ds
  | (blk, winnerpeer) :: rest, ds =>
    rotations cst rest
      (UpdateDSCommiteeComposition cst winnerpeer
        { ds with m_mediator :=
            { ds.m_mediator with m_dsBlockChain := ds.m_mediator.m_dsBlockChain ++ [blk] } })

/-- `std::map::at(key)` on an association list; `none` stands for the
`std::out_of_range` it throws. -/
def mapAt {β : Type} (m : List (PubKey × β)) (key : PubKey) : Option β :=
  (m.find? (fun kv => decide (kv.1 = key))).map (fun kv => kv.2)

/-- Modelled from the spec: `BlockChain::AddBlock` (not among the sources)
appends the block and returns 1, or fails with -1, leaving the chain as it
is, if the number of the block is not the number of the tail plus 1. -/
def AddBlock {β : Type} [Inhabited β] (num : β → Nat) (chain : List β) (block : β) :
    List β × Int :=
  if num block = num (GetLastBlock chain) + 1 then (chain ++ [block], 1) else (chain, -1)

/-- `DirectoryService::StoreDSBlockToStorage`. The result of `AddBlock` only
decides on a warning; the results of the two writes are not read. -/
def StoreDSBlockToStorage (cst : Constants) (orc : Oracle) (ds : DirectoryService) :
    Run Unit :=
  if cst.LOOKUP_NODE_MODE then
    ret ds []
  else
    match ds.m_pendingDSBlock with
    | none => fail ds [] Fault.undefined
    | some pending =>
      let added := AddBlock DSBlock.m_blockNum ds.m_mediator.m_dsBlockChain pending
      ret { ds with
            m_mediator := { ds.m_mediator with m_dsBlockChain := added.1 }
            m_latestActiveDSBlockNum := pending.m_blockNum }
        [Event.PutDSBlock pending.m_blockNum orc.PutDSBlock,
         Event.PutMetadata MetaType.LATESTACTIVEDSBLOCKNUM orc.PutMetadata]

/-- `DirectoryService::SendDSBlockToLookupNodes`. -/
def SendDSBlockToLookupNodes (cst : Constants) (ext : Externals) (winnerpeer : Peer)
    (ds : DirectoryService) : Run Unit :=
  if cst.LOOKUP_NODE_MODE then
    ret ds []
  else
    match ds.m_pendingDSBlock with
    | none => fail ds [] Fault.undefined
    | some pending =>
      match ext.SetNodeDSBlock 0 pending winnerpeer with
      | none => ret ds []
      | some dsblock_message => ret ds [Event.SendMessageToLookupNodes dsblock_message]

/-- `DirectoryService::SendDSBlockToNewDSLeader`. -/
def SendDSBlockToNewDSLeader (cst : Constants) (ext : Externals) (winnerpeer : Peer)
    (ds : DirectoryService) : Run Unit :=
  if cst.LOOKUP_NODE_MODE then
    ret ds []
  else
    match ds.m_pendingDSBlock with
    | none => fail ds [] Fault.undefined
    | some pending =>
      match ext.SetNodeDSBlock 0 pending winnerpeer with
      | none => ret ds []
      | some dsblock_message => ret ds [Event.SendMessage winnerpeer dsblock_message]

/-- `DirectoryService::SetupMulticastConfigForDSBlock`. The three results are
passed by reference and are `unsigned int`, as are `num_DS_clusters` and
`shard_groups_count`; `outs` holds the values of the references at the call,
which a lookup node leaves as they are. -/
def SetupMulticastConfigForDSBlock (cst : Constants) (ds : DirectoryService)
    (outs : Nat × Nat × Nat) : Except Fault (Nat × Nat × Nat) :=
  if cst.LOOKUP_NODE_MODE then
    pure outs
  else if cst.DS_MULTICAST_CLUSTER_SIZE = 0 then
    throw Fault.divByZero
  else
    let clusters0 : Nat :=
      (ds.m_mediator.m_DSCommittee.length / cst.DS_MULTICAST_CLUSTER_SIZE) % 2 ^ 32
    let num_DS_clusters : Nat :=
      if ds.m_mediator.m_DSCommittee.length % cst.DS_MULTICAST_CLUSTER_SIZE > 0 then
        (clusters0 + 1) % 2 ^ 32
      else clusters0
    if num_DS_clusters = 0 then
      throw Fault.divByZero
    else
      let groups0 : Nat := (ds.m_shards.length / num_DS_clusters) % 2 ^ 32
      let shard_groups_count : Nat :=
        if ds.m_shards.length % num_DS_clusters > 0 then (groups0 + 1) % 2 ^ 32 else groups0
      let my_DS_cluster_num : Nat :=
        (ds.m_consensusMyID / cst.DS_MULTICAST_CLUSTER_SIZE) % 2 ^ 32
      let my_shards_lo : Nat := (my_DS_cluster_num * shard_groups_count) % 2 ^ 32
      let hi0 : Nat := (my_shards_lo + shard_groups_count + (2 ^ 32 - 1)) % 2 ^ 32
      let my_shards_hi : Nat :=
        if hi0 ≥ ds.m_shards.length then
          ((ds.m_shards.length + (2 ^ 64 - 1)) % 2 ^ 64) % 2 ^ 32
        else hi0
      pure (my_DS_cluster_num, my_shards_lo, my_shards_hi)

/-- The loop of `DirectoryService::SendDSBlockToShardNodes` over the shard
indices `i`; the iterator `p` points at shard `i`. A failure of
`Messenger::SetNodeDSBlock` returns from the function. The result is the
messages broadcast and the fault that ended the loop, if any. -/
def sendDSBlockToShards (ext : Externals) (ds : DirectoryService) (pending : DSBlock)
    (winnerpeer : Peer) : List Nat → List Event × Option Fault
  | [] => ([], none)
  | i :: rest =>
    match ds.m_shards[i]? with
    | none => ([], some Fault.undefined)
    | some shard =>
      match shard.head? with
      | none => ([], some Fault.undefined)
      | some leader =>
        match mapAt ds.m_publicKeyToShardIdMap leader.1 with
        | none => ([], some Fault.outOfRange)
        | some shardID =>
          match ext.SetNodeDSBlock shardID pending winnerpeer with
          | none => ([], none)
          | some dsblock_message =>
            (Event.SendBroadcastMessage (shard.map (fun kv => kv.2.1)) dsblock_message
                :: (sendDSBlockToShards ext ds pending winnerpeer rest).1,
              (sendDSBlockToShards ext ds pending winnerpeer rest).2)

/-- `DirectoryService::SendDSBlockToShardNodes`: `advance(p, my_shards_lo)`
and the loop `for (i = my_shards_lo; i <= my_shards_hi; i++)`. -/
def SendDSBlockToShardNodes (cst : Constants) (ext : Externals) (winnerpeer : Peer)
    (my_shards_lo my_shards_hi : Nat) (ds : DirectoryService) : Run Unit :=
  if cst.LOOKUP_NODE_MODE then
    ret ds []
  else if my_shards_lo > ds.m_shards.length then
    fail ds [] Fault.undefined
  else
    match ds.m_pendingDSBlock with
    | none => if my_shards_lo ≤ my_shards_hi then fail ds [] Fault.undefined else ret ds []
    | some pending =>
      match sendDSBlockToShards ext ds pending winnerpeer
          (List.range' my_shards_lo (my_shards_hi + 1 - my_shards_lo)) with
      | (sent, none) => ret ds sent
      | (sent, some e) => fail ds sent e

/-- Modelled from the spec: `DirectoryService::ClearDSPoWSolns` (not among the
sources) clears the PoW solutions. -/
def ClearDSPoWSolns (ds : DirectoryService) : DirectoryService :=
  { ds with m_allDSPoWs := [] }

/-- Modelled from the spec: `DirectoryService::ResetPoWSubmissionCounter` (not
among the sources) clears the PoW submission counters. -/
def ResetPoWSubmissionCounter (ds : DirectoryService) : DirectoryService :=
  { ds with m_AllPoWCounter := [] }

/-- Modelled from the spec: `DirectoryService::SetState` (not among the
sources) is the transition of the node to the given state. -/
def SetState (state : DirState) (ds : DirectoryService) : DirectoryService :=
  { ds with m_state := state }

/-- The index loop of `StartFirstTxEpoch` over the shard members: the node id
becomes every index whose peer is the zero peer, the last one winning. -/
def findSelfIndex (members : DSCommittee) (index : Nat) (current : Nat) : Nat :=
  match members with
  | [] => current
  | entry :: rest =>
    findSelfIndex rest ((index + 1) % 2 ^ 32)
      (if entry.2 = ({} : Peer) then index else current)

/-- The peers with a non-zero listening port, for the rumor manager. -/
def rumorPeers (members : DSCommittee) : List Peer :=
  (members.filter (fun entry => decide (entry.2.m_listenPortHost ≠ 0))).map (fun entry => entry.2)

/-- Modelled from the spec: `Node::SetMyShardID` (not among the sources) sets
the shard id of the node. -/
def SetMyShardID (shardID : Nat) (node : NodeFields) : NodeFields :=
  { node with m_myShardID := shardID }

/-- `DirectoryService::StartFirstTxEpoch`. In a mode other than IDLE the
pointer to the shard members of the node becomes the pointer to the
committee: the two share one deque from then on, and the loop and `front()`
read the committee through it. In mode IDLE the fields of the node are left
as the member functions of `Node` leave them. -/
def StartFirstTxEpoch (cst : Constants) (orc : Oracle) (ds : DirectoryService) : Run Unit :=
  if cst.LOOKUP_NODE_MODE then
    ret ds []
  else
    let ds1 := { ds with m_allPoWs := [] }
    let ds2 := ClearDSPoWSolns ds1
    let ds3 := ResetPoWSubmissionCounter ds2
    let ds4 := { ds3 with m_viewChangeCounter := 0 }
    let ds5 := { ds4 with m_microBlocks := [] }
    if ds5.m_mode ≠ Mode.IDLE then
      let members := ds5.m_mediator.m_DSCommittee
      let myID := findSelfIndex members 0 ds5.m_mediator.m_node.m_consensusMyID
      match members.head? with
      | none =>
        let node : NodeFields :=
          { ds5.m_mediator.m_node with
            m_myShardMembers := ShardMembers.sharedWithDSCommittee
            m_consensusMyID := myID }
        fail { ds5 with m_mediator := { ds5.m_mediator with m_node := node } } []
          Fault.undefined
      | some front =>
        let node : NodeFields :=
          { ds5.m_mediator.m_node with
            m_myShardMembers := ShardMembers.sharedWithDSCommittee
            m_consensusMyID := myID
            m_isPrimary := decide (ds5.m_mediator.m_selfKey.2 = front.1)
            m_consensusLeaderID := 0
            m_myShardID := ds5.m_shards.length % 2 ^ 32
            m_justDidFallback := false }
        let ds6 := { ds5 with m_mediator := { ds5.m_mediator with m_node := node } }
        let ds7 := { ds6 with m_stateDeltaFromShards := [] }
        let ds8 := SetState DirState.MICROBLOCK_SUBMISSION ds7
        let ds9 := { ds8 with m_dsStartedMicroblockConsensus := false }
        ret ds9
          ([Event.CommitTxnPacketBuffer]
            ++ (if cst.TEST_NET_MODE then [Event.UpdateShardWhitelist] else [])
            ++ (if cst.BROADCAST_GOSSIP_MODE then
                  [Event.InitializeRumorManager (rumorPeers members)] else [])
            ++ [Event.Detached Task.MicroBlockTimer])
    else
      match ds5.m_shards.findIdx? (fun shard =>
          shard.any (fun shardNode => decide (shardNode.1 = ds5.m_mediator.m_selfKey.2))) with
      | none => ret ds5 []
      | some i =>
        let node1 : NodeFields := SetMyShardID i ds5.m_mediator.m_node
        let loaded := orc.LoadShardingStructure.LoadShardingStructure node1
        let ds6 := { ds5 with m_mediator := { ds5.m_mediator with m_node := loaded.2 } }
        if loaded.1 = false then
          ret ds6 []
        else
          let node2 : NodeFields := orc.LoadShardingStructure.LoadTxnSharingInfo loaded.2
          let ds7 := { ds6 with m_mediator := { ds6.m_mediator with m_node := node2 } }
          let node3 : NodeFields := orc.LoadShardingStructure.StartFirstTxEpoch node2
          let ds8 := { ds7 with m_mediator := { ds7.m_mediator with m_node := node3 } }
          ret ds8
            ([Event.LoadTxnSharingInfo]
              ++ (if cst.BROADCAST_GOSSIP_MODE then
                    [Event.InitializeRumorManager (rumorPeers ds7.m_mediator.myShardMembers)]
                  else [])
              ++ [Event.NodeStartFirstTxEpoch])

/-- The steps of `ProcessDSBlockConsensusWhenDone` that follow the lookup of
the winner peer: the swap of the sharding fields on a backup (the temporary
fields are moved from, which leaves them empty), the dissemination, the
rotation and `StartFirstTxEpoch`. -/
def afterWinnerLookup (cst : Constants) (ext : Externals) (w : Nat) (orc : Oracle)
    (winnerpeer : Peer) (ds4 : DirectoryService) : Run Unit :=
  let nodeToSendToLookUpLo : Nat := cst.COMM_SIZE / 4
  let nodeToSendToLookUpHi : Nat :=
    (nodeToSendToLookUpLo + cst.TX_SHARING_CLUSTER_SIZE) % 2 ^ 32
  (if ds4.m_mode = Mode.BACKUP_DS then
    ret { ds4 with
          m_DSReceivers := ds4.m_tempDSReceivers
          m_tempDSReceivers := []
          m_shardReceivers := ds4.m_tempShardReceivers
          m_tempShardReceivers := []
          m_shardSenders := ds4.m_tempShardSenders
          m_tempShardSenders := []
          m_shards := ds4.m_tempShards
          m_tempShards := []
          m_publicKeyToShardIdMap := ds4.m_tempPublicKeyToShardIdMap
          m_tempPublicKeyToShardIdMap := []
          m_mapNodeReputation := ds4.m_tempMapNodeReputation
          m_tempMapNodeReputation := [] } [Event.ProcessTxnBodySharingAssignment]
  else ret ds4 []).andThen fun ds5 =>
  (if ds5.m_consensusMyID > nodeToSendToLookUpLo
      ∧ ds5.m_consensusMyID < nodeToSendToLookUpHi then
    SendDSBlockToLookupNodes cst ext winnerpeer ds5
  else ret ds5 []).andThen fun ds6 =>
  (if ds6.m_consensusMyID > nodeToSendToLookUpLo
      ∧ ds6.m_consensusMyID < nodeToSendToLookUpHi then
    SendDSBlockToNewDSLeader cst ext winnerpeer ds6
  else ret ds6 []).andThen fun ds7 =>
  match SetupMulticastConfigForDSBlock cst ds7 (0, 0, 0) with
  | .error e => fail ds7 [] e
  | .ok (my_DS_cluster_num, my_shards_lo, my_shards_hi) =>
    (if (my_DS_cluster_num + 1) % 2 ^ 32 ≤ ds7.m_shards.length then
      SendDSBlockToShardNodes cst ext winnerpeer my_shards_lo my_shards_hi ds7
    else ret ds7 []).andThen fun ds8 =>
    match UpdateMyDSModeAndConsensusId cst ext w ds8 with
    | .error e => fail ds8 [] e
    | .ok ds9 =>
      let ds10 := UpdateDSCommiteeComposition cst winnerpeer ds9
      match ds10.m_mediator.m_DSCommittee[ds10.m_consensusLeaderID]? with
      | none => fail ds10 [] Fault.outOfRange
      | some _ => StartFirstTxEpoch cst orc ds10

/-- `DirectoryService::ProcessDSBlockConsensusWhenDone`. -/
def ProcessDSBlockConsensusWhenDone (cst : Constants) (ext : Externals) (w : Nat)
    (orc : Oracle) (ds : DirectoryService) : Run Unit :=
  if cst.LOOKUP_NODE_MODE then
    ret ds []
  else
    match ds.m_pendingDSBlock with
    | none => fail ds [] Fault.fatal
    | some _ =>
      (ret { ds with m_coinbaseRewardees := [] } [Event.SetCoSignatures]).andThen fun ds2 =>
      (StoreDSBlockToStorage cst orc ds2).andThen fun ds3 =>
      (ret ds3 [Event.UpdateDSBlockRand]).andThen fun ds4 =>
      match mapAt ds4.m_allPoWConns
          (GetLastBlock ds4.m_mediator.m_dsBlockChain).m_minerPubKey with
      | none => fail ds4 [] Fault.outOfRange
      | some winnerpeer => afterWinnerLookup cst ext w orc winnerpeer ds4

/-- `DirectoryService::ProcessDSBlockConsensus`. During the wait on
`cv_DSBlockConsensusObject` another thread may move the node to another
state; the oracle gives the state the function goes on with. -/
def ProcessDSBlockConsensus (cst : Constants) (ext : Externals) (w : Nat) (orc : Oracle)
    (_message : Message) (_offset : Nat) (_sender : Peer) (ds : DirectoryService) :
    Run Bool :=
  if cst.LOOKUP_NODE_MODE then
    retVal ds [] true
  else
    let waits : Bool :=
      decide (ds.m_state = DirState.POW_SUBMISSION ∨ ds.m_state = DirState.DSBLOCK_CONSENSUS_PREP
        ∨ ds.m_state = DirState.VIEWCHANGE_CONSENSUS)
    let ds1 := if waits then { ds with m_state := orc.stateAfterWait.getD ds.m_state } else ds
    let notified : List Event :=
      if waits then [Event.Notify CondVar.cv_DSBlockConsensus] else []
    if !ext.CheckState ds1.m_mode ds1.m_state Action.PROCESS_DSBLOCKCONSENSUS then
      retVal ds1 notified false
    else if !orc.orderPreserved then
      retVal ds1 notified false
    else if !orc.ProcessMessage then
      retVal ds1 notified false
    else
      match orc.consensusState with
      | ConsensusState.DONE =>
        let done := ProcessDSBlockConsensusWhenDone cst ext w orc
          { ds1 with m_viewChangeCounter := 0 }
        { state := done.state
          events := notified ++ [Event.Notify CondVar.cv_viewChangeDSBlock] ++ done.events
          result := done.result.map (fun _ => true) }
      | ConsensusState.ERROR => retVal ds1 notified true
      | ConsensusState.OTHER =>
        retVal ds1 (notified ++ [Event.Notify CondVar.cv_processConsensusMessage]) true

/-! ## `FinalBlockPostProcessing.cpp` -/

/-- Modelled from the spec: the offset of the message body
(`MessageOffset::BODY`, not among the sources); the first two bytes of a
message identify the channel. -/
def MessageOffset.BODY : Nat := 2

/-- Modelled from the spec: `Mediator::IncreaseEpochNum` (not among the
sources) increments `current_epoch_num` by exactly 1. -/
def IncreaseEpochNum (ds : DirectoryService) : DirectoryService :=
  { ds with m_mediator :=
    { ds.m_mediator with m_currentEpochNum := ds.m_mediator.m_currentEpochNum + 1 } }

/-- `DirectoryService::StoreFinalBlockToDisk`. `Node::AddBlock` (not among the
sources) appends the final block to the TX chain. The results of the two
writes are not read. -/
def StoreFinalBlockToDisk (cst : Constants) (orc : Oracle) (ds : DirectoryService) :
    Run Unit :=
  if cst.LOOKUP_NODE_MODE then
    ret ds []
  else
    let added := AddBlock TxBlock.m_blockNum ds.m_mediator.m_txBlockChain ds.m_finalBlock
    let ds1 := { ds with m_mediator := { ds.m_mediator with m_txBlockChain := added.1 } }
    let ds2 := IncreaseEpochNum ds1
    ret ds2
      [Event.IncreaseEpochNum,
       Event.PutTxBlock ds2.m_finalBlock.m_blockNum orc.PutTxBlock,
       Event.PutStateDelta (GetLastBlock ds2.m_mediator.m_txBlockChain).m_blockNum
         orc.PutStateDelta]

/-- `DirectoryService::ProcessFinalBlockConsensusWhenDone`. The dissemination
through the data sender, the account store and the coinbase are collaborators
and appear among the effects only. -/
def ProcessFinalBlockConsensusWhenDone (cst : Constants) (ext : Externals) (orc : Oracle)
    (ds : DirectoryService) : Run Unit :=
  if cst.LOOKUP_NODE_MODE then
    ret ds []
  else
    let isVacuousEpoch := ext.GetIsVacuousEpoch ds.m_mediator.m_currentEpochNum
    (ret ds [Event.SetCoSignatures]).andThen fun ds1 =>
    (StoreFinalBlockToDisk cst orc ds1).andThen fun ds2 =>
    (if isVacuousEpoch then
      ret ds2 [Event.MoveUpdatesToDisk,
        Event.PutMetadata MetaType.DSINCOMPLETED orc.PutMetadata]
    else
      ret { ds2 with m_totalTxnFees := ds2.m_totalTxnFees + ds2.m_finalBlock.m_rewards }
        [Event.SaveCoinbase]).andThen fun ds3 =>
    (ret ds3 [Event.UpdateDSBlockRand, Event.UpdateTxBlockRand]).andThen fun ds4 =>
    (if ds4.m_mediator.m_node.m_hasMicroblock ∧ ¬ isVacuousEpoch then
      ret ds4 [Event.UpdateProcessedTransactions, Event.CallActOnFinalblock]
    else ret ds4 []).andThen fun ds5 =>
    (ret ds5 [Event.SendDataToOthers]).andThen fun ds6 =>
    (if isVacuousEpoch ∧ (ext.GetUpgradeDS + (2 ^ 64 - 1)) % 2 ^ 64
        = (GetLastBlock ds6.m_mediator.m_dsBlockChain).m_blockNum then
      ret ds6 [Event.Detached Task.ReplaceNode]
    else ret ds6 []).andThen fun ds7 =>
    let ds8 := { ds7 with m_stateDeltaFromShards := [] }
    let ds9 := { ds8 with m_allPoWConns := [] }
    let ds10 := ResetPoWSubmissionCounter (ClearDSPoWSolns ds9)
    ret ds10 [Event.InitTemp, Event.InitReversibles,
      Event.Detached (Task.NextEpoch isVacuousEpoch)]

/-- `m_finalBlockConsensusBuffer[consensus_id].push_back(entry)`: the entry
is appended to the vector stored under the id, which is created when there
is none. -/
def bufferPush (buffer : List (Nat × List (Peer × Message))) (consensus_id : Nat)
    (entry : Peer × Message) : List (Nat × List (Peer × Message)) :=
  match buffer with
  | [] => [(consensus_id, [entry])]
  | (id, entries) :: rest =>
    if id = consensus_id then (id, entries ++ [entry]) :: rest
    else (id, entries) :: bufferPush rest consensus_id entry

/-- The vector stored in the buffer under an id, empty when there is none. -/
def bufferGet (buffer : List (Nat × List (Peer × Message))) (consensus_id : Nat) :
    List (Peer × Message) :=
  match buffer with
  | [] => []
  | (id, entries) :: rest => if id = consensus_id then entries else bufferGet rest consensus_id

/-- `m_finalBlockConsensusBuffer[consensus_id]` as a statement of its own:
an empty vector is stored under the id when there is none. -/
def bufferTouch (buffer : List (Nat × List (Peer × Message))) (consensus_id : Nat) :
    List (Nat × List (Peer × Message)) :=
  match buffer with
  | [] => [(consensus_id, [])]
  | (id, entries) :: rest =>
    if id = consensus_id then (id, entries) :: rest
    else (id, entries) :: bufferTouch rest consensus_id

/-- `DirectoryService::ProcessFinalBlockConsensusCore`. -/
def ProcessFinalBlockConsensusCore (cst : Constants) (ext : Externals) (orc : Oracle)
    (message : Message) (offset : Nat) (sender : Peer) (ds : DirectoryService) :
    Run Bool :=
  if !ext.CheckState ds.m_mode ds.m_state Action.PROCESS_FINALBLOCKCONSENSUS then
    retVal ds [] false
  else if !orc.orderPreserved then
    retVal ds [] false
  else if !orc.ProcessMessage then
    retVal ds [] false
  else
    match orc.consensusState with
    | ConsensusState.DONE =>
      let done := ProcessFinalBlockConsensusWhenDone cst ext orc
        { ds with m_viewChangeCounter := 0 }
      { state := done.state
        events := [Event.Notify CondVar.cv_viewChangeFinalBlock] ++ done.events
        result := done.result.map (fun _ => true) }
    | ConsensusState.ERROR =>
      match orc.consensusErrorCode with
      | ConsensusErrorCode.FINALBLOCK_MISSING_MICROBLOCKS =>
        if orc.missingDataFetched then
          retVal ds [Event.RecoveryAndProcessFromANewState,
            Event.Detached (Task.RerunFinalBlockConsensus message offset sender)] true
        else retVal ds [] false
      | ConsensusErrorCode.MISSING_TXN =>
        if orc.missingDataFetched then
          retVal ds [Event.RecoveryAndProcessFromANewState,
            Event.Detached (Task.ProcessFinalBlockConsensusCore message offset sender)] true
        else retVal ds [] false
      | ConsensusErrorCode.OTHER => retVal ds [] false
    | ConsensusState.OTHER =>
      retVal ds [Event.Notify CondVar.cv_processConsensusMessage] true

/-- `DirectoryService::ProcessFinalBlockConsensus`. `RunConsensusOnFinalBlock`
(not among the sources) appears among the effects only. -/
def ProcessFinalBlockConsensus (cst : Constants) (ext : Externals) (orc : Oracle)
    (message : Message) (offset : Nat) (sender : Peer) (ds : DirectoryService) :
    Run Bool :=
  if cst.LOOKUP_NODE_MODE then
    retVal ds [] true
  else
    match ext.GetConsensusID message offset with
    | none => retVal ds [] false
    | some consensus_id =>
      if !ext.CheckState ds.m_mode ds.m_state Action.PROCESS_FINALBLOCKCONSENSUS then
        if ds.m_mode = Mode.IDLE then
          retVal ds [] false
        else if ¬ (ds.m_state = DirState.MICROBLOCK_SUBMISSION
            ∨ ds.m_state = DirState.FINALBLOCK_CONSENSUS_PREP
            ∨ ds.m_state = DirState.VIEWCHANGE_CONSENSUS) then
          retVal ds [] false
        else
          let buffered :=
            bufferPush ds.m_finalBlockConsensusBuffer consensus_id (sender, message)
          let ds1 := { ds with m_finalBlockConsensusBuffer := buffered }
          if consensus_id = ds1.m_mediator.m_consensusID then
            retVal { ds1 with m_stopRecvNewMBSubmission := true }
              [Event.Notify CondVar.cv_scheduleDSMicroBlockConsensus,
               Event.Notify CondVar.cv_scheduleFinalBlockConsensus,
               Event.RunConsensusOnFinalBlock] true
          else retVal ds1 [] true
      else
        if consensus_id < ds.m_mediator.m_consensusID then
          retVal ds [] false
        else if consensus_id > ds.m_mediator.m_consensusID then
          let buffered :=
            bufferPush ds.m_finalBlockConsensusBuffer consensus_id (sender, message)
          retVal { ds with m_finalBlockConsensusBuffer := buffered } [] true
        else
          ProcessFinalBlockConsensusCore cst ext orc message offset sender ds

/-- `DirectoryService::CommitFinalBlockConsensusBuffer`: one detached
`ProcessFinalBlockConsensusCore` per entry stored under the current id. -/
def CommitFinalBlockConsensusBuffer (ds : DirectoryService) : Run Unit :=
  let touched := bufferTouch ds.m_finalBlockConsensusBuffer ds.m_mediator.m_consensusID
  ret { ds with m_finalBlockConsensusBuffer := touched }
    ((bufferGet touched ds.m_mediator.m_consensusID).map (fun i =>
      Event.Detached (Task.ProcessFinalBlockConsensusCore i.2 MessageOffset.BODY i.1)))

/-- `DirectoryService::CleanFinalblockConsensusBuffer`. -/
def CleanFinalblockConsensusBuffer (ds : DirectoryService) : DirectoryService :=
  { ds with m_finalBlockConsensusBuffer := [] }

/-! ## `ViewChangeBlockProcessing.cpp` -/

/-- The loop of `Node::VerifyVCBlockCoSignature` over the committee, on the
state `(index, count, keys)`; `index` and `count` are `unsigned int`, and
`B2.at(index)` is a checked read. -/
def collectCoSigKeys (B2 : List Bool) :
    DSCommittee → Nat × Nat × List PubKey → Except Fault (Nat × Nat × List PubKey)
  | [], st => pure st
  | kv :: rest, (index, count, keys) =>
    match B2[index]? with
    | none => throw Fault.outOfRange
    | some bit =>
      if bit then
        collectCoSigKeys B2 rest ((index + 1) % 2 ^ 32, (count + 1) % 2 ^ 32, keys ++ [kv.1])
      else
        collectCoSigKeys B2 rest ((index + 1) % 2 ^ 32, count, keys)

/-- `Node::VerifyVCBlockCoSignature`, on the committee `*m_mediator.m_DSCommittee`. -/
def VerifyVCBlockCoSignature (ext : Externals) (dsComm : DSCommittee) (vcblock : VCBlock) :
    Except Fault Bool :=
  if dsComm.length ≠ vcblock.m_b2.length then
    pure false
  else
    match collectCoSigKeys vcblock.m_b2 dsComm (0, 0, []) with
    | .error e => .error e
    | .ok (_, count, keys) =>
      if count ≠ ext.NumForConsensus (vcblock.m_b2.length % 2 ^ 32) then
        pure false
      else
        match ext.AggregatePubKeys keys with
        | none => pure false
        | some aggregatedKey =>
          match ext.SerializeHeader vcblock.m_header with
          | none => pure false
          | some header =>
            let message := header ++ ext.SerializeSignature vcblock.m_cs1
              ++ ext.SetBitVector vcblock.m_b1
            if !ext.SchnorrVerify message vcblock.m_cs2 aggregatedKey then
              pure false
            else
              pure true

/-- Modelled from the spec: a fatal log (`LOG_GENERAL(FATAL, ...)`, whose
definition is not among the sources) aborts the node, so that no statement
after it is executed. -/
def logFatal {β : Type} : Except Fault β :=
  throw Fault.fatal

/-- `std::find(dsComm.begin(), dsComm.end(), target)`: the position of the
first entry equal to `target`, as an index; `dsComm.end()` is the length. -/
def stdFind (target : PubKey × Peer) : DSCommittee → Nat
  | [] => 0
  | entry :: rest => if entry = target then 0 else stdFind target rest + 1

/-- One iteration of the loop of `Node::UpdateDSCommiteeCompositionAfterVC`:
`std::find` of the faulty leader (of the pair with the zero peer when the
faulty leader is this node with the zero peer), `erase` at the position found
or a fatal log when there is none, then `emplace_back`. -/
def ejectFaultyLeader (selfKey : PrivKey × PubKey) (faultyLeader : PubKey × Peer)
    (dsComm : DSCommittee) : Except Fault DSCommittee :=
  let it : Nat :=
    if faultyLeader.1 = selfKey.2 ∧ faultyLeader.2 = ({} : Peer) then
      stdFind (faultyLeader.1, ({} : Peer)) dsComm
    else
      stdFind faultyLeader dsComm
  if it ≠ dsComm.length then
    pure (dsComm.eraseIdx it ++ [faultyLeader])
  else
    logFatal

/-- The loop of `Node::UpdateDSCommiteeCompositionAfterVC` over the faulty
leaders, in the order of the VC block header. -/
def ejectFaultyLeaders (selfKey : PrivKey × PubKey) :
    List (PubKey × Peer) → DSCommittee → Except Fault DSCommittee
  | [], dsComm => pure dsComm
  | faultyLeader :: rest, dsComm =>
    match ejectFaultyLeader selfKey faultyLeader dsComm with
    | .error e => .error e
    | .ok dsComm1 => ejectFaultyLeaders selfKey rest dsComm1

/-- `Node::UpdateDSCommiteeCompositionAfterVC`, on the committee `dsComm`
passed by reference; the result is the committee it leaves there. -/
def UpdateDSCommiteeCompositionAfterVC (cst : Constants) (selfKey : PrivKey × PubKey)
    (vcblock : VCBlock) (dsComm : DSCommittee) : Except Fault DSCommittee :=
  if cst.GUARD_MODE then
    pure dsComm
  else
    ejectFaultyLeaders selfKey vcblock.m_header.m_FaultyLeaders dsComm

/-- Modelled from the spec: `BlockLinkChain::GetLatestIndex` (not among the
sources) is the index of the last block link, 0 on a chain without links. -/
def GetLatestIndex (chain : List BlockLink) : Nat :=
  match chain.getLast? with
  | none => 0
  | some link => link.m_index

/-- Modelled from the spec: `BlockLinkChain::AddBlockLink` (not among the
sources) appends the block link. -/
def AddBlockLink (chain : List BlockLink) (link : BlockLink) : List BlockLink :=
  chain ++ [link]

/-- `Node::ProcessVCBlockCore`, on the mediator held by the state. -/
def ProcessVCBlockCore (cst : Constants) (ext : Externals) (orc : Oracle) (vcblock : VCBlock)
    (ds : DirectoryService) : Run Bool :=
  if vcblock.m_header.m_VieWChangeEpochNo ≠ ds.m_mediator.m_currentEpochNum then
    retVal ds [] false
  else if !ext.CheckWhetherBlockIsLatest ds.m_mediator.m_dsBlockChain ds.m_mediator.m_txBlockChain
      vcblock.m_header.m_VieWChangeDSEpochNo vcblock.m_header.m_VieWChangeEpochNo then
    retVal ds [] false
  else if ext.GetMyHash vcblock.m_header ≠ vcblock.m_blockHash then
    retVal ds [] false
  else if !ext.VerifyTimestamp vcblock.m_timestamp
      ((cst.CONSENSUS_OBJECT_TIMEOUT + cst.VIEWCHANGE_TIME + cst.VIEWCHANGE_PRECHECK_TIME
        + cst.VIEWCHANGE_EXTRA_TIME) % 2 ^ 32) then
    retVal ds [] false
  else
    match ext.GetDSCommitteeHash ds.m_mediator.m_DSCommittee with
    | none => retVal ds [] false
    | some committeeHash =>
      if committeeHash ≠ vcblock.m_header.m_committeeHash then
        retVal ds [] false
      else
        match VerifyVCBlockCoSignature ext ds.m_mediator.m_DSCommittee vcblock with
        | .error e => fail ds [] e
        | .ok false => retVal ds [] false
        | .ok true =>
          let latestInd : Nat := (GetLatestIndex ds.m_mediator.m_blocklinkchain + 1) % 2 ^ 64
          let link : BlockLink :=
            { m_index := latestInd, m_dsEpochNo := vcblock.m_header.m_VieWChangeDSEpochNo,
              m_isVC := true, m_blockHash := vcblock.m_blockHash }
          let links := AddBlockLink ds.m_mediator.m_blocklinkchain link
          let ds1 := { ds with m_mediator := { ds.m_mediator with m_blocklinkchain := links } }
          if !orc.PutVCBlock then
            retVal ds1 [Event.PutVCBlock vcblock.m_blockHash orc.PutVCBlock] false
          else
            match UpdateDSCommiteeCompositionAfterVC cst ds1.m_mediator.m_selfKey vcblock
                ds1.m_mediator.m_DSCommittee with
            | .error e => fail ds1 [Event.PutVCBlock vcblock.m_blockHash orc.PutVCBlock] e
            | .ok dsComm =>
              retVal { ds1 with m_mediator := { ds1.m_mediator with m_DSCommittee := dsComm } }
                [Event.PutVCBlock vcblock.m_blockHash orc.PutVCBlock] true

/-- `Node::SendVCBlockToOtherShardNodes`. -/
def SendVCBlockToOtherShardNodes (cst : Constants) (vcblock_message : Message) : Event :=
  let cluster_size : Nat :=
    if cst.NUM_FORWARDED_BLOCK_RECEIVERS_PER_SHARD ≤ cst.NUM_DS_ELECTION then
      (cst.NUM_DS_ELECTION + 1) % 2 ^ 32
    else cst.NUM_FORWARDED_BLOCK_RECEIVERS_PER_SHARD
  Event.SendBlockToOtherShardNodes vcblock_message cluster_size
    cst.NUM_OF_TREEBASED_CHILD_CLUSTERS

/-- `Node::ProcessVCBlock`. -/
def ProcessVCBlock (cst : Constants) (ext : Externals) (orc : Oracle) (message : Message)
    (cur_offset : Nat) (_sender : Peer) (ds : DirectoryService) : Run Bool :=
  match ext.GetNodeVCBlock message cur_offset with
  | none => retVal ds [] false
  | some vcblock =>
    if ext.IsDSBlockVCState vcblock.m_header.m_ViewChangeState then
      retVal ds [] false
    else
      let core := ProcessVCBlockCore cst ext orc vcblock ds
      match core.result with
      | .error e => fail core.state core.events e
      | .ok false => retVal core.state core.events false
      | .ok true =>
        if !cst.LOOKUP_NODE_MODE ∧ cst.BROADCAST_TREEBASED_CLUSTER_MODE then
          retVal core.state (core.events ++ [SendVCBlockToOtherShardNodes cst message]) true
        else retVal core.state core.events true

/-- `std::find_if(dsComm.begin(), dsComm.end(), pred)` for the predicate
`p.first == key` of `Node::UpdateRetrieveDSCommiteeCompositionAfterVC`: the
position of the first entry with the key, as an index; `dsComm.end()` is the
length. -/
def stdFindIfKey (key : PubKey) : DSCommittee → Nat
  | [] => 0
  | entry :: rest => if entry.1 = key then 0 else stdFindIfKey key rest + 1

/-- One iteration of the loop of
`Node::UpdateRetrieveDSCommiteeCompositionAfterVC`: `std::find_if` of an entry
with the public key of the faulty leader, `erase` at the position found or a
fatal log when there is none, then `emplace_back` of the faulty leader. -/
def retrieveEjectFaultyLeader (faultyLeader : PubKey × Peer) (dsComm : DSCommittee) :
    Except Fault DSCommittee :=
  let it : Nat := stdFindIfKey faultyLeader.1 dsComm
  if it ≠ dsComm.length then
    pure (dsComm.eraseIdx it ++ [faultyLeader])
  else
    logFatal

/-- The loop of `Node::UpdateRetrieveDSCommiteeCompositionAfterVC` over the
faulty leaders, in the order of the VC block header. -/
def retrieveEjectFaultyLeaders :
    List (PubKey × Peer) → DSCommittee → Except Fault DSCommittee
  | [], dsComm => pure dsComm
  | faultyLeader :: rest, dsComm =>
    match retrieveEjectFaultyLeader faultyLeader dsComm with
    | .error e => .error e
    | .ok dsComm1 => retrieveEjectFaultyLeaders rest dsComm1

/-- `Node::UpdateRetrieveDSCommiteeCompositionAfterVC`, on the committee
`dsComm` passed by reference; the result is the committee it leaves there. -/
def UpdateRetrieveDSCommiteeCompositionAfterVC (cst : Constants) (vcblock : VCBlock)
    (dsComm : DSCommittee) : Except Fault DSCommittee :=
  if cst.GUARD_MODE then
    pure dsComm
  else
    retrieveEjectFaultyLeaders vcblock.m_header.m_FaultyLeaders dsComm

/-! ## Reference variants -/

/-- The variant of one iteration of the loop of
`Node::UpdateDSCommiteeCompositionAfterVC` without the special case for the
entry of the node itself: the search is always for the pair of the faulty
leader. -/
def ejectFaultyLeaderByPair (faultyLeader : PubKey × Peer) (dsComm : DSCommittee) :
    Except Fault DSCommittee :=
  let it : Nat := stdFind faultyLeader dsComm
  if it ≠ dsComm.length then
    pure (dsComm.eraseIdx it ++ [faultyLeader])
  else
    logFatal

/-- The loop over the faulty leaders of the variant without the special case. -/
def ejectFaultyLeadersByPair :
    List (PubKey × Peer) → DSCommittee → Except Fault DSCommittee
  | [], dsComm => pure dsComm
  | faultyLeader :: rest, dsComm =>
    match ejectFaultyLeaderByPair faultyLeader dsComm with
    | .error e => .error e
    | .ok dsComm1 => ejectFaultyLeadersByPair rest dsComm1

/-- The variant of `Node::UpdateDSCommiteeCompositionAfterVC` that always
searches for the pair of the faulty leader; it does not read the key of the
node. -/
def UpdateDSCommiteeCompositionAfterVCByPair (cst : Constants) (vcblock : VCBlock)
    (dsComm : DSCommittee) : Except Fault DSCommittee :=
  if cst.GUARD_MODE then
    pure dsComm
  else
    ejectFaultyLeadersByPair vcblock.m_header.m_FaultyLeaders dsComm

/-! ## Observations on effects -/

/-- Is the effect a message broadcast to the members of a shard? -/
def isShardMsg : Event → Bool
  | Event.SendBroadcastMessage _ _ => true
  | _ => false

/-- The effect without the result of the write to the block store: the
result is replaced by `true`. -/
def Event.withoutResult : Event → Event
  | Event.PutDSBlock blockNum _ => Event.PutDSBlock blockNum true
  | Event.PutTxBlock blockNum _ => Event.PutTxBlock blockNum true
  | Event.PutVCBlock blockHash _ => Event.PutVCBlock blockHash true
  | Event.PutStateDelta blockNum _ => Event.PutStateDelta blockNum true
  | Event.PutMetadata key _ => Event.PutMetadata key true
  | e => e

/-- Two runs leave the same state, end with the same result and have the same
effects but for the results of the writes to the block store. -/
def Run.sameButResults {α : Type} (r1 r2 : Run α) : Prop :=
  r1.state = r2.state ∧ r1.result = r2.result
    ∧ r1.events.map Event.withoutResult = r2.events.map Event.withoutResult

/-- The epoch number, the DS chain and the pending DS block of a state. -/
def kept (ds : DirectoryService) : Nat × List DSBlock × Option DSBlock :=
  (ds.m_mediator.m_currentEpochNum, ds.m_mediator.m_dsBlockChain, ds.m_pendingDSBlock)

/-- The operations of DS-block, final-block and VC-block processing, each
with the arguments of its call. -/
inductive Op where
  | StoreDSBlockToStorage
  | StartFirstTxEpoch
  | ProcessDSBlockConsensusWhenDone
  | ProcessDSBlockConsensus (message : Message) (offset : Nat) (sender : Peer)
  | StoreFinalBlockToDisk
  | ProcessFinalBlockConsensusWhenDone
  | ProcessFinalBlockConsensusCore (message : Message) (offset : Nat) (sender : Peer)
  | ProcessFinalBlockConsensus (message : Message) (offset : Nat) (sender : Peer)
  | CommitFinalBlockConsensusBuffer
  | CleanFinalblockConsensusBuffer
  | ProcessVCBlockCore (vcblock : VCBlock)
  | ProcessVCBlock (message : Message) (cur_offset : Nat) (sender : Peer)
deriving DecidableEq, Repr

/-- The state left by one operation, run with the oracle of its invocation. -/
def applyOp (cst : Constants) (ext : Externals) (w : Nat) (orc : Oracle) (op : Op)
    (ds : DirectoryService) : DirectoryService :=
  match op with
  | Op.StoreDSBlockToStorage => (StoreDSBlockToStorage cst orc ds).state
  | Op.StartFirstTxEpoch => (StartFirstTxEpoch cst orc ds).state
  | Op.ProcessDSBlockConsensusWhenDone => (ProcessDSBlockConsensusWhenDone cst ext w orc ds).state
  | Op.ProcessDSBlockConsensus message offset sender =>
    (ProcessDSBlockConsensus cst ext w orc message offset sender ds).state
  | Op.StoreFinalBlockToDisk => (StoreFinalBlockToDisk cst orc ds).state
  | Op.ProcessFinalBlockConsensusWhenDone =>
    (ProcessFinalBlockConsensusWhenDone cst ext orc ds).state
  | Op.ProcessFinalBlockConsensusCore message offset sender =>
    (ProcessFinalBlockConsensusCore cst ext orc message offset sender ds).state
  | Op.ProcessFinalBlockConsensus message offset sender =>
    (ProcessFinalBlockConsensus cst ext orc message offset sender ds).state
  | Op.CommitFinalBlockConsensusBuffer => (CommitFinalBlockConsensusBuffer ds).state
  | Op.CleanFinalblockConsensusBuffer => CleanFinalblockConsensusBuffer ds
  | Op.ProcessVCBlockCore vcblock => (ProcessVCBlockCore cst ext orc vcblock ds).state
  | Op.ProcessVCBlock message cur_offset sender =>
    (ProcessVCBlock cst ext orc message cur_offset sender ds).state

/-- The state left by a sequence of operations, each run with the oracle of
its invocation. -/
def runOps (cst : Constants) (ext : Externals) (w : Nat) :
    List (Op × Oracle) → DirectoryService → DirectoryService
  | [], ds => ds
  | (op, orc) :: rest, ds => runOps cst ext w rest (applyOp cst ext w orc op ds)

/-- Is the effect a message handed to the transport for the lookup nodes? -/
def isLookupMsg : Event → Bool
  | Event.SendMessageToLookupNodes _ => true
  | _ => false

/-- Is the effect a message handed to the transport for one peer? -/
def isUnicast : Event → Bool
  | Event.SendMessage _ _ => true
  | _ => false

/-! ## Concrete states used as witnesses -/

/-- The committee `[(A,pA),(B,pB),(C,pC),(D,pD)]` with keys 1..4. -/
def committee4 : DSCommittee :=
  [(1, ⟨101, 1⟩), (2, ⟨102, 2⟩), (3, ⟨103, 3⟩), (4, ⟨104, 4⟩)]

/-- The winner peer `pW`; the winner key `W` is 9. -/
def peerW : Peer := ⟨109, 9⟩

/-- A DS node at index 2 (key `C`) of `committee4`; the last DS block names
the winner `W`, the last TX block hashes to `7`. -/
def dsNode2 : DirectoryService :=
  { m_mediator :=
      { m_currentEpochNum := 5
        m_dsBlockChain := [{ m_blockNum := 1, m_minerPubKey := 9 }]
        m_txBlockChain := [{ m_blockNum := 4, m_serialized := [7] }]
        m_DSCommittee := committee4
        m_selfKey := (33, 3) }
    m_mode := Mode.BACKUP_DS
    m_consensusMyID := 2
    m_consensusLeaderID := 0
    m_allPoWConns := [(9, peerW)] }

/-- A hash function for the witnesses: the first byte of the serialisation. -/
def extHead : Externals :=
  { SerializableToHash16Bits := fun b => b.m_serialized.headD 0 }

/-- The oldest backup of `committee4` (index 3, key `D`), whose stored leader
index is 0; the last TX block hashes to `7`. -/
def dsNode3 : DirectoryService :=
  { dsNode2 with
    m_mediator := { dsNode2.m_mediator with m_selfKey := (44, 4) }
    m_consensusMyID := 3 }

/-- The node `dsNode2` in epoch 1, where no TX block hash is taken. -/
def dsNode2Epoch1 : DirectoryService :=
  { dsNode2 with m_mediator := { dsNode2.m_mediator with m_currentEpochNum := 1 } }

/-- A committee member at index 0 whose key `W` is also the key of the PoW
winner named by the last DS block; the last TX block hashes to `8`. -/
def dsNodeWinner : DirectoryService :=
  { m_mediator :=
      { m_currentEpochNum := 5
        m_dsBlockChain := [{ m_blockNum := 1, m_minerPubKey := 9 }]
        m_txBlockChain := [{ m_blockNum := 4, m_serialized := [8] }]
        m_DSCommittee := [(9, ⟨100, 9⟩), (2, ⟨102, 2⟩), (3, ⟨103, 3⟩), (4, ⟨104, 4⟩)]
        m_selfKey := (99, 9) }
    m_mode := Mode.PRIMARY_DS
    m_consensusMyID := 0
    m_consensusLeaderID := 0
    m_allPoWConns := [(9, peerW)] }

/-- A VC block naming `(B,pB)` of `committee4` as the faulty leader, with a
co-signature bitmap of three set bits out of four. -/
def vcBlockB : VCBlock :=
  { m_header := { m_FaultyLeaders := [(2, ⟨102, 2⟩)] }
    m_b2 := [true, false, true, true] }

/-- A VC block naming a faulty leader that is not in `committee4`. -/
def vcBlockMissing : VCBlock :=
  { m_header := { m_FaultyLeaders := [(7, ⟨107, 7⟩)] } }

/-- A DS node with consensus id `myID` in a committee of ten members and a
shard table of seven shards, for the cluster size 3 of the default
constants. -/
def dsMulticast (myID : Nat) : DirectoryService :=
  { m_mediator := { m_DSCommittee := List.replicate 10 (0, {}) }
    m_shards := List.replicate 7 []
    m_consensusMyID := myID }

/-- The backup with id 9 of a committee of ten, with a pending DS block, its
winner among the PoW connections, and two shards only, in the table in force
and in the temporary table that the commit swaps in. -/
def dsFewShards : DirectoryService :=
  { m_mediator := { m_DSCommittee := List.replicate 10 (0, {}) }
    m_mode := Mode.BACKUP_DS
    m_shards := [[(21, ⟨121, 1⟩, 0)], [(22, ⟨122, 2⟩, 0)]]
    m_tempShards := [[(21, ⟨121, 1⟩, 0)], [(22, ⟨122, 2⟩, 0)]]
    m_publicKeyToShardIdMap := [(21, 0), (22, 1)]
    m_tempPublicKeyToShardIdMap := [(21, 0), (22, 1)]
    m_consensusMyID := 9
    m_allPoWConns := [(9, peerW)]
    m_pendingDSBlock := some { m_blockNum := 1, m_minerPubKey := 9 } }

/-- A backup in state MICROBLOCK_SUBMISSION whose current consensus id is 5;
one message with id 5 is in the buffer. -/
def dsMicro : DirectoryService :=
  { m_mediator := { m_consensusID := 5, m_DSCommittee := committee4, m_selfKey := (33, 3) }
    m_mode := Mode.BACKUP_DS
    m_state := DirState.MICROBLOCK_SUBMISSION
    m_consensusMyID := 2
    m_finalBlockConsensusBuffer := [(5, [(peerW, [5, 0])])] }

/-- The same backup in state FINALBLOCK_CONSENSUS, which permits the
processing of final-block consensus messages. -/
def dsFinalConsensus : DirectoryService :=
  { dsMicro with m_state := DirState.FINALBLOCK_CONSENSUS }

/-- The same backup in state POW_SUBMISSION. -/
def dsPow : DirectoryService :=
  { dsMicro with m_state := DirState.POW_SUBMISSION }

/-- The same backup in state DSBLOCK_CONSENSUS, which permits the processing
of DS-block consensus messages. -/
def dsDSConsensus : DirectoryService :=
  { dsMicro with m_state := DirState.DSBLOCK_CONSENSUS }

/-- An oracle whose consensus object ends in state ERROR, with an error code
that is neither of the two missing-data codes. -/
def orcError : Oracle :=
  { consensusState := ConsensusState.ERROR, consensusErrorCode := ConsensusErrorCode.OTHER }

/-- A node in epoch 0 with `committee4`, on which the VC block `vcBlockB`
passes the validation with the default collaborators. -/
def dsVC : DirectoryService :=
  { m_mediator := { m_DSCommittee := committee4, m_selfKey := (33, 3) }
    m_mode := Mode.BACKUP_DS
    m_consensusMyID := 2 }

/-- The VC block `vcBlockB` for epoch 1. -/
def vcBlockEpoch1 : VCBlock :=
  { vcBlockB with m_header := { vcBlockB.m_header with m_VieWChangeEpochNo := 1 } }

/-- A VC block whose view-change state is a view change of the DS-block phase
for the default collaborators. -/
def vcBlockDSPhase : VCBlock :=
  { vcBlockB with m_header := { vcBlockB.m_header with m_ViewChangeState := 2 } }

/-- A decoder for the witnesses: the message `[2]` holds `vcBlockDSPhase`, the
message `[1]` holds `vcBlockEpoch1`, every other message holds `vcBlockB`. -/
def extDecode : Externals :=
  { GetNodeVCBlock := fun message _ =>
      if message = [2] then some vcBlockDSPhase
      else if message = [1] then some vcBlockEpoch1
      else some vcBlockB }

/-- The backup `dsNode2` with a pending DS block of number 2, the successor
of the DS chain tail, mined by the winner `W`. -/
def dsCommit : DirectoryService :=
  { dsNode2 with m_pendingDSBlock := some { m_blockNum := 2, m_minerPubKey := 9 } }

/-- The backup `dsCommit` without PoW connections: the miner of the pending
DS block is not among them. -/
def dsNoWinner : DirectoryService :=
  { dsCommit with m_allPoWConns := [] }

/-- The backup `dsNode2` in state FINALBLOCK_CONSENSUS with the final block of
number 5, the successor of the TX chain tail. -/
def dsFinal : DirectoryService :=
  { dsNode2 with
    m_state := DirState.FINALBLOCK_CONSENSUS
    m_finalBlock := { m_blockNum := 5, m_serialized := [9] } }

/-- An idle node (the oldest member, which left the committee) whose key `C`
is the key of a member of the shard of index 1; one state delta of a shard is
in the buffer. -/
def dsIdle : DirectoryService :=
  { m_mediator := { m_DSCommittee := committee4, m_selfKey := (33, 3) }
    m_mode := Mode.IDLE
    m_shards := [[(21, ⟨121, 1⟩, 0)], [(22, ⟨122, 2⟩, 0), (3, ⟨103, 3⟩, 0)]]
    m_stateDeltaFromShards := [1] }

/-- The primary with consensus id 9 of a committee of ten, with five shards,
a pending DS block and its winner among the PoW connections. -/
def dsFiveShards : DirectoryService :=
  { m_mediator := { m_DSCommittee := List.replicate 10 (0, {}) }
    m_mode := Mode.PRIMARY_DS
    m_shards := List.replicate 5 []
    m_consensusMyID := 9
    m_allPoWConns := [(9, peerW)]
    m_pendingDSBlock := some { m_blockNum := 1, m_minerPubKey := 9 } }

/-- The oldest backup (consensus id 3) of `committee4`, with three shards of
one member each, in the table in force and in the temporary table that the
commit swaps in, a pending DS block of number 2 and its winner among the PoW
connections. -/
def dsThreeShards : DirectoryService :=
  { m_mediator :=
      { m_dsBlockChain := [{ m_blockNum := 1, m_minerPubKey := 9 }]
        m_DSCommittee := committee4
        m_selfKey := (44, 4) }
    m_mode := Mode.BACKUP_DS
    m_consensusMyID := 3
    m_shards := [[(21, ⟨121, 1⟩, 0)], [(22, ⟨122, 2⟩, 0)], [(23, ⟨123, 3⟩, 0)]]
    m_tempShards := [[(21, ⟨121, 1⟩, 0)], [(22, ⟨122, 2⟩, 0)], [(23, ⟨123, 3⟩, 0)]]
    m_publicKeyToShardIdMap := [(21, 0), (22, 1), (23, 2)]
    m_tempPublicKeyToShardIdMap := [(21, 0), (22, 1), (23, 2)]
    m_allPoWConns := [(9, peerW)]
    m_pendingDSBlock := some { m_blockNum := 2, m_minerPubKey := 9 } }

/-! ## Theorems -/

/-- C1: on a DS node (not a lookup node) with a non-empty committee,
`UpdateDSCommiteeComposition` leaves the committee equal to the winner
`(W, pW)` followed by the old committee without its last element, where `W`
is the miner public key of the last DS block; the front entry then carries
that key, and the DS chain is untouched. -/
theorem UpdateDSCommiteeComposition_committee (cst : Constants) (winnerpeer : Peer)
    (ds : DirectoryService) (hL : cst.LOOKUP_NODE_MODE = false)
    (hne : ds.m_mediator.m_DSCommittee ≠ []) :
    (UpdateDSCommiteeComposition cst winnerpeer ds).m_mediator.m_DSCommittee
        = ((GetLastBlock ds.m_mediator.m_dsBlockChain).m_minerPubKey, winnerpeer)
            :: ds.m_mediator.m_DSCommittee.dropLast
      ∧ (UpdateDSCommiteeComposition cst winnerpeer ds).m_mediator.m_DSCommittee[0]?.map Prod.fst
        = some (GetLastBlock
            (UpdateDSCommiteeComposition cst winnerpeer ds).m_mediator.m_dsBlockChain).m_minerPubKey := by
  obtain ⟨x, xs, hc⟩ := List.exists_cons_of_ne_nil hne
  simp [UpdateDSCommiteeComposition, hL, hc, List.dropLast]

/-- C1, at the committee of size four: `[(A,pA),(B,pB),(C,pC),(D,pD)]` with
winner `(W,pW)` becomes `[(W,pW),(A,pA),(B,pB),(C,pC)]`. -/
theorem UpdateDSCommiteeComposition_committee_witness :
    (UpdateDSCommiteeComposition {} peerW dsNode2).m_mediator.m_DSCommittee
      = [(9, peerW), (1, ⟨101, 1⟩), (2, ⟨102, 2⟩), (3, ⟨103, 3⟩)] := by
  have h := (UpdateDSCommiteeComposition_committee {} peerW dsNode2 rfl (by decide)).1
  rw [h]
  decide

/-- C2: for every committee and every finite sequence of DS-block rotations
with arbitrary winners, the committee has the same length afterwards. -/
theorem rotations_length (cst : Constants) (winners : List (DSBlock × Peer))
    (ds : DirectoryService) :
    (rotations cst winners ds).m_mediator.m_DSCommittee.length
      = ds.m_mediator.m_DSCommittee.length := by
  induction winners generalizing ds with
  | nil => rfl
  | cons p rest ih =>
    obtain ⟨blk, winnerpeer⟩ := p
    rw [rotations, ih]
    unfold UpdateDSCommiteeComposition
    split <;> simp

/-! ### Leader index and self mode -/

/-- The cast comparison `(uint32_t)(m_consensusMyID + 1) == size` agrees with
the comparison of the unbounded numbers when both fit in 32 bits and the
committee is not empty. -/
theorem cast_succ_eq_iff (k size : Nat) (hk : k < 2 ^ 32) (hsz : size < 2 ^ 32)
    (hpos : size ≠ 0) : (k + 1) % 2 ^ 32 = size ↔ k + 1 = size := by
  omega

/-- The truncation of `lastBlockHash % size` to `uint16_t` loses nothing. -/
theorem dsIndex_eq (h size : Nat) :
    ((h % 2 ^ 16) % size) % 2 ^ 16 = (h % 2 ^ 16) % size := by
  apply Nat.mod_eq_of_lt
  have h1 : (h % 2 ^ 16) % size ≤ h % 2 ^ 16 := Nat.mod_le _ _
  have h2 : h % 2 ^ 16 < 2 ^ 16 := Nat.mod_lt _ (by norm_num)
  omega

/-- The result of `UpdateMyDSModeAndConsensusId` on a node that is not the
oldest backup, in closed form. -/
theorem UpdateMyDSModeAndConsensusId_not_oldest (cst : Constants) (ext : Externals) (w : Nat)
    (ds : DirectoryService) (hL : cst.LOOKUP_NODE_MODE = false)
    (hne : ds.m_mediator.m_DSCommittee ≠ [])
    (hk : (ds.m_consensusMyID + 1) % 2 ^ 32 ≠ ds.m_mediator.m_DSCommittee.length) :
    ∃ m, (m = Mode.PRIMARY_DS ∨ m = Mode.BACKUP_DS) ∧
      (m = Mode.PRIMARY_DS ↔
        0 < (if ds.m_mediator.m_currentEpochNum > 1 then
              ext.SerializableToHash16Bits (GetLastBlock ds.m_mediator.m_txBlockChain) % 2 ^ 16
            else 0) % ds.m_mediator.m_DSCommittee.length ∧
        (ds.m_mediator.m_DSCommittee[(if ds.m_mediator.m_currentEpochNum > 1 then
              ext.SerializableToHash16Bits (GetLastBlock ds.m_mediator.m_txBlockChain) % 2 ^ 16
            else 0) % ds.m_mediator.m_DSCommittee.length - 1]?).map Prod.fst
          = some ds.m_mediator.m_selfKey.2) ∧
      UpdateMyDSModeAndConsensusId cst ext w ds = .ok
        { ds with
          m_consensusLeaderID :=
            (if ds.m_mediator.m_currentEpochNum > 1 then
              ext.SerializableToHash16Bits (GetLastBlock ds.m_mediator.m_txBlockChain) % 2 ^ 16
            else 0) % ds.m_mediator.m_DSCommittee.length
          m_mode := m
          m_consensusMyID := (ds.m_consensusMyID + 1) % 2 ^ w } := by
  have hpos : ds.m_mediator.m_DSCommittee.length ≠ 0 := by
    simpa [List.length_eq_zero] using hne
  generalize hh : (if ds.m_mediator.m_currentEpochNum > 1 then
      ext.SerializableToHash16Bits (GetLastBlock ds.m_mediator.m_txBlockChain) % 2 ^ 16
    else 0) = h
  have hh16 : h % 2 ^ 16 = h := by
    rw [← hh]; split
    · exact Nat.mod_mod _ _
    · rfl
  have hidx : (h % ds.m_mediator.m_DSCommittee.length) % 2 ^ 16
      = h % ds.m_mediator.m_DSCommittee.length := by
    have := dsIndex_eq h ds.m_mediator.m_DSCommittee.length
    rwa [hh16] at this
  have hlt : h % ds.m_mediator.m_DSCommittee.length < ds.m_mediator.m_DSCommittee.length :=
    Nat.mod_lt _ (Nat.pos_of_ne_zero hpos)
  unfold UpdateMyDSModeAndConsensusId
  simp only [hL, hh, hidx, hk, hpos, if_false, Bool.false_eq_true]
  by_cases hz : h % ds.m_mediator.m_DSCommittee.length > 0
  · have hin : h % ds.m_mediator.m_DSCommittee.length - 1 < ds.m_mediator.m_DSCommittee.length := by
      omega
    simp only [hz, if_true, List.getElem?_eq_getElem hin]
    by_cases hself : (ds.m_mediator.m_DSCommittee[h % ds.m_mediator.m_DSCommittee.length - 1]).1
        = ds.m_mediator.m_selfKey.2
    · exact ⟨Mode.PRIMARY_DS, Or.inl rfl, by simp [hself], by simp [hself]; rfl⟩
    · exact ⟨Mode.BACKUP_DS, Or.inr rfl, by simp [hself], by simp [hself]; rfl⟩
  · exact ⟨Mode.BACKUP_DS, Or.inr rfl, by simp [hz], by simp [hz]; rfl⟩


/-- After `emplace_front` and `pop_back`, the entry at index `j + 1` is the
entry that was at index `j`, for every `j` but the last. -/
theorem rotated_getElem?_succ (x : PubKey × Peer) (comm : DSCommittee) (j : Nat)
    (hj : j + 1 < comm.length) : (x :: comm).dropLast[j + 1]? = comm[j]? := by
  rw [List.dropLast_eq_take, List.getElem?_take_of_lt (by simpa using hj)]
  simp

/-- The oldest backup: `UpdateMyDSModeAndConsensusId` only sets the mode. -/
theorem UpdateMyDSModeAndConsensusId_oldest (cst : Constants) (ext : Externals) (w : Nat)
    (ds : DirectoryService) (hL : cst.LOOKUP_NODE_MODE = false)
    (hk : (ds.m_consensusMyID + 1) % 2 ^ 32 = ds.m_mediator.m_DSCommittee.length) :
    UpdateMyDSModeAndConsensusId cst ext w ds = .ok { ds with m_mode := Mode.IDLE } := by
  unfold UpdateMyDSModeAndConsensusId
  simp only [hL, hk, if_true, if_false, Bool.false_eq_true]
  rfl

/-- `UpdateDSCommiteeComposition` changes neither the mode nor the two
consensus indices, and keeps the committee length. -/
theorem UpdateDSCommiteeComposition_frame (cst : Constants) (winnerpeer : Peer)
    (ds : DirectoryService) :
    (UpdateDSCommiteeComposition cst winnerpeer ds).m_mode = ds.m_mode
      ∧ (UpdateDSCommiteeComposition cst winnerpeer ds).m_consensusMyID = ds.m_consensusMyID
      ∧ (UpdateDSCommiteeComposition cst winnerpeer ds).m_consensusLeaderID
          = ds.m_consensusLeaderID
      ∧ (UpdateDSCommiteeComposition cst winnerpeer ds).m_mediator.m_selfKey
          = ds.m_mediator.m_selfKey
      ∧ (UpdateDSCommiteeComposition cst winnerpeer ds).m_mediator.m_DSCommittee.length
          = ds.m_mediator.m_DSCommittee.length := by
  unfold UpdateDSCommiteeComposition
  split <;> simp

/-- C3, as stated, fails on the code. On the oldest backup of `committee4`
(stored leader index 0, last TX block hashing to 7) the two rotation calls
leave `m_consensusLeaderID = 0`, not `7 mod 4 = 3`; and in epoch 1 the node at
index 2 gets leader index `0`, not `7 mod 4 = 3`, because no hash is taken
unless `m_currentEpochNum > 1`. -/
theorem leader_id_counterexample :
    (∃ ds1, UpdateMyDSModeAndConsensusId {} extHead 16 dsNode3 = .ok ds1 ∧
      (UpdateDSCommiteeComposition {} peerW ds1).m_mediator.m_DSCommittee ≠ [] ∧
      (UpdateDSCommiteeComposition {} peerW ds1).m_consensusLeaderID = 0 ∧
      (extHead.SerializableToHash16Bits (GetLastBlock dsNode3.m_mediator.m_txBlockChain) % 2 ^ 16)
        % (UpdateDSCommiteeComposition {} peerW ds1).m_mediator.m_DSCommittee.length = 3) ∧
    (∃ ds1, UpdateMyDSModeAndConsensusId {} extHead 16 dsNode2Epoch1 = .ok ds1 ∧
      (UpdateDSCommiteeComposition {} peerW ds1).m_mediator.m_DSCommittee ≠ [] ∧
      (UpdateDSCommiteeComposition {} peerW ds1).m_consensusLeaderID = 0 ∧
      (extHead.SerializableToHash16Bits
          (GetLastBlock dsNode2Epoch1.m_mediator.m_txBlockChain) % 2 ^ 16)
        % (UpdateDSCommiteeComposition {} peerW ds1).m_mediator.m_DSCommittee.length = 3) :=
  ⟨⟨_, rfl, by decide, by decide, by decide⟩, ⟨_, rfl, by decide, by decide, by decide⟩⟩

/-- C3, amended: on a DS node (not a lookup node) with a non-empty committee,
`UpdateMyDSModeAndConsensusId` returns, and after it and
`UpdateDSCommiteeComposition` the leader index is unchanged when the node is
the oldest backup (`k + 1 = |committee|`) and is `h mod |committee|` otherwise,
where `h` is the 16-bit hash of the last TX block when `m_currentEpochNum > 1`
and `0` when it is not. -/
theorem leader_id_after_rotation (cst : Constants) (ext : Externals) (w : Nat)
    (winnerpeer : Peer) (ds : DirectoryService) (hL : cst.LOOKUP_NODE_MODE = false)
    (hne : ds.m_mediator.m_DSCommittee ≠ [])
    (hk : ds.m_consensusMyID < 2 ^ 32) (hsz : ds.m_mediator.m_DSCommittee.length < 2 ^ 32) :
    ∃ ds1, UpdateMyDSModeAndConsensusId cst ext w ds = .ok ds1 ∧
      (UpdateDSCommiteeComposition cst winnerpeer ds1).m_consensusLeaderID
        = if ds.m_consensusMyID + 1 = ds.m_mediator.m_DSCommittee.length then
            ds.m_consensusLeaderID
          else
            (if ds.m_mediator.m_currentEpochNum > 1 then
              ext.SerializableToHash16Bits (GetLastBlock ds.m_mediator.m_txBlockChain) % 2 ^ 16
            else 0)
              % (UpdateDSCommiteeComposition cst winnerpeer ds1).m_mediator.m_DSCommittee.length := by
  have hpos : ds.m_mediator.m_DSCommittee.length ≠ 0 := by
    simpa [List.length_eq_zero] using hne
  have hcast := cast_succ_eq_iff ds.m_consensusMyID _ hk hsz hpos
  by_cases hold : ds.m_consensusMyID + 1 = ds.m_mediator.m_DSCommittee.length
  · refine ⟨_, UpdateMyDSModeAndConsensusId_oldest cst ext w ds hL (hcast.mpr hold), ?_⟩
    rw [(UpdateDSCommiteeComposition_frame cst winnerpeer _).2.2.1, if_pos hold]
  · obtain ⟨m, -, -, hres⟩ := UpdateMyDSModeAndConsensusId_not_oldest cst ext w ds hL hne
      (fun h => hold (hcast.mp h))
    refine ⟨_, hres, ?_⟩
    rw [(UpdateDSCommiteeComposition_frame cst winnerpeer _).2.2.1,
      (UpdateDSCommiteeComposition_frame cst winnerpeer _).2.2.2.2, if_neg hold]

/-- C3, amended, at `dsNode2`: hash 7 and committee size 4 give leader 3. -/
theorem leader_id_after_rotation_witness :
    ∃ ds1, UpdateMyDSModeAndConsensusId {} extHead 16 dsNode2 = .ok ds1 ∧
      (UpdateDSCommiteeComposition {} peerW ds1).m_consensusLeaderID = 3 := by
  obtain ⟨ds1, h1, h2⟩ := leader_id_after_rotation {} extHead 16 peerW dsNode2 rfl
    (by decide) (by decide) (by decide)
  refine ⟨ds1, h1, ?_⟩
  rw [h2, (UpdateDSCommiteeComposition_frame {} peerW ds1).2.2.2.2]
  have hlen : ds1.m_mediator.m_DSCommittee.length = 4 := by
    have h3 : UpdateMyDSModeAndConsensusId {} extHead 16 dsNode2 = .ok
        { dsNode2 with m_consensusLeaderID := 3, m_mode := Mode.PRIMARY_DS,
                       m_consensusMyID := 3 } := rfl
    rw [h3] at h1
    cases h1
    rfl
  rw [hlen]
  decide

/-- C4: on a DS node (not a lookup node) with a non-empty committee whose
size and whose `m_consensusMyID = k` fit in 32 bits,
`UpdateMyDSModeAndConsensusId` returns, the resulting mode is IDLE if and only
if `k + 1 = |committee|`, and in every other case it is PRIMARY_DS or
BACKUP_DS. -/
theorem UpdateMyDSModeAndConsensusId_idle_iff (cst : Constants) (ext : Externals) (w : Nat)
    (ds : DirectoryService) (hL : cst.LOOKUP_NODE_MODE = false)
    (hne : ds.m_mediator.m_DSCommittee ≠ [])
    (hk : ds.m_consensusMyID < 2 ^ 32) (hsz : ds.m_mediator.m_DSCommittee.length < 2 ^ 32) :
    ∃ ds1, UpdateMyDSModeAndConsensusId cst ext w ds = .ok ds1 ∧
      (ds1.m_mode = Mode.IDLE ↔ ds.m_consensusMyID + 1 = ds.m_mediator.m_DSCommittee.length) ∧
      (ds.m_consensusMyID + 1 ≠ ds.m_mediator.m_DSCommittee.length →
        ds1.m_mode = Mode.PRIMARY_DS ∨ ds1.m_mode = Mode.BACKUP_DS) := by
  have hpos : ds.m_mediator.m_DSCommittee.length ≠ 0 := by
    simpa [List.length_eq_zero] using hne
  have hcast := cast_succ_eq_iff ds.m_consensusMyID _ hk hsz hpos
  by_cases hold : ds.m_consensusMyID + 1 = ds.m_mediator.m_DSCommittee.length
  · exact ⟨_, UpdateMyDSModeAndConsensusId_oldest cst ext w ds hL (hcast.mpr hold),
      ⟨fun _ => hold, fun _ => rfl⟩, fun h => absurd hold h⟩
  · obtain ⟨m, hm, -, hres⟩ := UpdateMyDSModeAndConsensusId_not_oldest cst ext w ds hL hne
      (fun h => hold (hcast.mp h))
    refine ⟨_, hres, ⟨fun h => ?_, fun h => absurd h hold⟩, fun _ => hm⟩
    rcases hm with hm | hm <;> simp [hm] at h

/-- C4, at the oldest backup of `committee4` (index 3): the mode is IDLE. -/
theorem UpdateMyDSModeAndConsensusId_idle_iff_witness :
    ∃ ds1, UpdateMyDSModeAndConsensusId {} extHead 16 dsNode3 = .ok ds1 ∧
      ds1.m_mode = Mode.IDLE := by
  obtain ⟨ds1, h1, h2, -⟩ := UpdateMyDSModeAndConsensusId_idle_iff {} extHead 16 dsNode3 rfl
    (by decide) (by decide) (by decide)
  exact ⟨ds1, h1, h2.mpr (by decide)⟩

/-- C5, as stated, fails on the code: the committee member `dsNodeWinner`
(index 0 of 4, so not the oldest backup) has the key of the PoW winner; the
last TX block hashes to 8, so the leader index is `8 mod 4 = 0`. After the
two rotation calls the key at `committee[m_consensusLeaderID]` is the node's
own key, and yet its mode is BACKUP_DS, not PRIMARY_DS. -/
theorem mode_primary_counterexample :
    ∃ ds1, UpdateMyDSModeAndConsensusId {} extHead 16 dsNodeWinner = .ok ds1 ∧
      dsNodeWinner.m_consensusMyID + 1 < dsNodeWinner.m_mediator.m_DSCommittee.length ∧
      ((UpdateDSCommiteeComposition {} peerW ds1).m_mediator.m_DSCommittee[
          (UpdateDSCommiteeComposition {} peerW ds1).m_consensusLeaderID]?).map Prod.fst
        = some dsNodeWinner.m_mediator.m_selfKey.2 ∧
      (UpdateDSCommiteeComposition {} peerW ds1).m_mode = Mode.BACKUP_DS :=
  ⟨_, rfl, by decide, by decide, by decide⟩

/-- C5, amended: on a DS node (not a lookup node) that is not the oldest
backup (`k + 1 < |committee|`), `UpdateMyDSModeAndConsensusId` returns, and
after it and `UpdateDSCommiteeComposition` the mode is PRIMARY_DS if and only
if `m_consensusLeaderID > 0` and the node's own public key equals the public
key of the post-rotation `committee[m_consensusLeaderID]`; otherwise the mode
is BACKUP_DS. -/
theorem mode_primary_iff (cst : Constants) (ext : Externals) (w : Nat)
    (winnerpeer : Peer) (ds : DirectoryService) (hL : cst.LOOKUP_NODE_MODE = false)
    (hk : ds.m_consensusMyID + 1 < ds.m_mediator.m_DSCommittee.length) :
    ∃ ds1, UpdateMyDSModeAndConsensusId cst ext w ds = .ok ds1 ∧
      ((UpdateDSCommiteeComposition cst winnerpeer ds1).m_mode = Mode.PRIMARY_DS ↔
        0 < (UpdateDSCommiteeComposition cst winnerpeer ds1).m_consensusLeaderID ∧
        ((UpdateDSCommiteeComposition cst winnerpeer ds1).m_mediator.m_DSCommittee[
            (UpdateDSCommiteeComposition cst winnerpeer ds1).m_consensusLeaderID]?).map Prod.fst
          = some ds.m_mediator.m_selfKey.2) ∧
      ((UpdateDSCommiteeComposition cst winnerpeer ds1).m_mode ≠ Mode.PRIMARY_DS →
        (UpdateDSCommiteeComposition cst winnerpeer ds1).m_mode = Mode.BACKUP_DS) := by
  have hne : ds.m_mediator.m_DSCommittee ≠ [] := by
    intro h; rw [h] at hk; simp at hk
  have hmod : (ds.m_consensusMyID + 1) % 2 ^ 32 ≠ ds.m_mediator.m_DSCommittee.length := by
    have := Nat.mod_le (ds.m_consensusMyID + 1) (2 ^ 32)
    omega
  obtain ⟨m, hm, hiff, hres⟩ :=
    UpdateMyDSModeAndConsensusId_not_oldest cst ext w ds hL hne hmod
  refine ⟨_, hres, ?_, ?_⟩
  · rw [(UpdateDSCommiteeComposition_frame cst winnerpeer _).1,
      (UpdateDSCommiteeComposition_frame cst winnerpeer _).2.2.1]
    simp only []
    rw [hiff]
    apply and_congr_right
    intro hpos
    generalize hidx : (if ds.m_mediator.m_currentEpochNum > 1 then
        ext.SerializableToHash16Bits (GetLastBlock ds.m_mediator.m_txBlockChain) % 2 ^ 16
      else 0) % ds.m_mediator.m_DSCommittee.length = idx at hpos ⊢
    have hlt : idx < ds.m_mediator.m_DSCommittee.length := by
      rw [← hidx]; exact Nat.mod_lt _ (by omega)
    obtain ⟨j, rfl⟩ : ∃ j, idx = j + 1 := ⟨idx - 1, by omega⟩
    have hrot := rotated_getElem?_succ
      ((GetLastBlock ds.m_mediator.m_dsBlockChain).m_minerPubKey, winnerpeer)
      ds.m_mediator.m_DSCommittee j hlt
    simp only [UpdateDSCommiteeComposition, hL, Bool.false_eq_true, if_false, hrot,
      Nat.add_sub_cancel]
  · rw [(UpdateDSCommiteeComposition_frame cst winnerpeer _).1]
    simp only []
    rcases hm with hm | hm
    · intro h; exact absurd hm h
    · intro _; exact hm

/-- C5, amended, at the committee of size 4 with hash 7: the leader index is
3, and the node at pre-rotation index 2 (key `C`) becomes PRIMARY_DS. -/
theorem mode_primary_iff_witness :
    ∃ ds1, UpdateMyDSModeAndConsensusId {} extHead 16 dsNode2 = .ok ds1 ∧
      (UpdateDSCommiteeComposition {} peerW ds1).m_consensusLeaderID = 3 ∧
      (UpdateDSCommiteeComposition {} peerW ds1).m_mode = Mode.PRIMARY_DS := by
  obtain ⟨ds1, h1, h2, -⟩ := mode_primary_iff {} extHead 16 peerW dsNode2 rfl (by decide)
  have h3 : UpdateMyDSModeAndConsensusId {} extHead 16 dsNode2 = .ok
      { dsNode2 with m_consensusLeaderID := 3, m_mode := Mode.PRIMARY_DS,
                     m_consensusMyID := 3 } := rfl
  rw [h3] at h1
  cases h1
  exact ⟨_, h3, by decide, h2.mpr ⟨by decide, by decide⟩⟩

/-- C6: on a DS node (not a lookup node) whose `m_consensusMyID = k` is its
position in the committee (`committee[k]` carries its own key), with
`k + 1 < |committee|` and `k + 1` representable in the `w`-bit field,
`UpdateMyDSModeAndConsensusId` returns, and after it and
`UpdateDSCommiteeComposition` the new `m_consensusMyID` is `k + 1`, is smaller
than the committee size, and the post-rotation committee holds at that index
the very entry of the node, which carries the node's key. -/
theorem myID_is_position (cst : Constants) (ext : Externals) (w : Nat)
    (winnerpeer : Peer) (ds : DirectoryService) (entry : PubKey × Peer)
    (hL : cst.LOOKUP_NODE_MODE = false)
    (hat : ds.m_mediator.m_DSCommittee[ds.m_consensusMyID]? = some entry)
    (hself : entry.1 = ds.m_mediator.m_selfKey.2)
    (hk : ds.m_consensusMyID + 1 < ds.m_mediator.m_DSCommittee.length)
    (hw : ds.m_consensusMyID + 1 < 2 ^ w) :
    ∃ ds1, UpdateMyDSModeAndConsensusId cst ext w ds = .ok ds1 ∧
      (UpdateDSCommiteeComposition cst winnerpeer ds1).m_consensusMyID
        = ds.m_consensusMyID + 1 ∧
      (UpdateDSCommiteeComposition cst winnerpeer ds1).m_consensusMyID
        < (UpdateDSCommiteeComposition cst winnerpeer ds1).m_mediator.m_DSCommittee.length ∧
      (UpdateDSCommiteeComposition cst winnerpeer ds1).m_mediator.m_DSCommittee[
          (UpdateDSCommiteeComposition cst winnerpeer ds1).m_consensusMyID]? = some entry ∧
      entry.1 = (UpdateDSCommiteeComposition cst winnerpeer ds1).m_mediator.m_selfKey.2 := by
  have hne : ds.m_mediator.m_DSCommittee ≠ [] := by
    intro h; rw [h] at hk; simp at hk
  have hmod : (ds.m_consensusMyID + 1) % 2 ^ 32 ≠ ds.m_mediator.m_DSCommittee.length := by
    have := Nat.mod_le (ds.m_consensusMyID + 1) (2 ^ 32)
    omega
  obtain ⟨m, -, -, hres⟩ :=
    UpdateMyDSModeAndConsensusId_not_oldest cst ext w ds hL hne hmod
  have hrot := rotated_getElem?_succ
    ((GetLastBlock ds.m_mediator.m_dsBlockChain).m_minerPubKey, winnerpeer)
    ds.m_mediator.m_DSCommittee ds.m_consensusMyID hk
  refine ⟨_, hres, ?_, ?_, ?_, ?_⟩
  · rw [(UpdateDSCommiteeComposition_frame cst winnerpeer _).2.1]
    exact Nat.mod_eq_of_lt hw
  · rw [(UpdateDSCommiteeComposition_frame cst winnerpeer _).2.1,
      (UpdateDSCommiteeComposition_frame cst winnerpeer _).2.2.2.2]
    simp only [Nat.mod_eq_of_lt hw]
    exact hk
  · rw [(UpdateDSCommiteeComposition_frame cst winnerpeer _).2.1]
    simp only [Nat.mod_eq_of_lt hw]
    simp only [UpdateDSCommiteeComposition, hL, Bool.false_eq_true, if_false, hrot, hat]
  · rw [(UpdateDSCommiteeComposition_frame cst winnerpeer _).2.2.2.1]
    exact hself

/-- C6, at `dsNode2` (index 2, key `C`): the node is at index 3 afterwards. -/
theorem myID_is_position_witness :
    ∃ ds1, UpdateMyDSModeAndConsensusId {} extHead 16 dsNode2 = .ok ds1 ∧
      (UpdateDSCommiteeComposition {} peerW ds1).m_consensusMyID = 3 ∧
      (UpdateDSCommiteeComposition {} peerW ds1).m_mediator.m_DSCommittee[3]?
        = some (3, ⟨103, 3⟩) := by
  obtain ⟨ds1, h1, h2, -, h4, -⟩ := myID_is_position {} extHead 16 peerW dsNode2
    (3, ⟨103, 3⟩) rfl (by decide) (by decide) (by decide) (by decide)
  refine ⟨ds1, h1, h2, ?_⟩
  rw [h2] at h4
  exact h4

/-! ### View-change reorder -/

/-- `std::find` returns the end position exactly when nothing matches. -/
theorem stdFind_eq_length_iff (t : PubKey × Peer) (l : DSCommittee) :
    stdFind t l = l.length ↔ t ∉ l := by
  induction l with
  | nil => simp [stdFind]
  | cons e rest ih =>
    by_cases he : e = t
    · simp [stdFind, he]
    · have hne : ¬ t = e := fun h => he h.symm
      simp [stdFind, he, hne, ih]

/-- Erasing the entry found and putting it back gives a permutation. -/
theorem eraseIdx_stdFind_perm (t : PubKey × Peer) (l : DSCommittee) (ht : t ∈ l) :
    (l.eraseIdx (stdFind t l) ++ [t]).Perm l := by
  refine List.perm_append_comm.trans ?_
  simp only [List.singleton_append]
  induction l with
  | nil => simp at ht
  | cons e rest ih =>
    by_cases he : e = t
    · simp [stdFind, he]
    · have hrest : t ∈ rest := by
        rcases List.mem_cons.mp ht with h | h
        · exact absurd h.symm he
        · exact h
      simp only [stdFind, he, if_false, List.eraseIdx_cons_succ]
      exact (List.Perm.swap e t _).trans ((ih hrest).cons e)

/-- In a committee without repeated entries, erasing the entry found removes
every entry equal to the target. -/
theorem eraseIdx_stdFind_nodup (t : PubKey × Peer) (l : DSCommittee) (hnd : l.Nodup) :
    l.eraseIdx (stdFind t l) = l.filter (fun e => decide (e ≠ t)) := by
  induction l with
  | nil => simp [stdFind]
  | cons e rest ih =>
    have hnd2 := List.nodup_cons.mp hnd
    by_cases he : e = t
    · subst he
      have : rest.filter (fun x => decide (x ≠ e)) = rest := by
        apply List.filter_eq_self.mpr
        intro x hx
        have : x ≠ e := fun h => hnd2.1 (h ▸ hx)
        simpa using this
      have hthis : rest.filter (fun x => !decide (x = e)) = rest := by simpa using this
      simp [stdFind, hthis]
    · simp [stdFind, he, ih hnd2.2]

/-- One loop iteration in closed form: a faulty leader that is in the
committee is erased at its first occurrence and appended; one that is not in
the committee is fatal. The search for this node's own entry looks for the
same pair as the general search. -/
theorem ejectFaultyLeader_eq (selfKey : PrivKey × PubKey) (fl : PubKey × Peer)
    (dsComm : DSCommittee) :
    ejectFaultyLeader selfKey fl dsComm
      = if fl ∈ dsComm then .ok (dsComm.eraseIdx (stdFind fl dsComm) ++ [fl])
        else .error Fault.fatal := by
  have htarget : (if fl.1 = selfKey.2 ∧ fl.2 = ({} : Peer) then
      stdFind (fl.1, ({} : Peer)) dsComm else stdFind fl dsComm) = stdFind fl dsComm := by
    split
    · next h =>
      have : (fl.1, ({} : Peer)) = fl := Prod.ext rfl h.2.symm
      rw [this]
    · rfl
  unfold ejectFaultyLeader
  simp only [htarget]
  by_cases hmem : fl ∈ dsComm
  · have hne : stdFind fl dsComm ≠ dsComm.length :=
      fun h => (stdFind_eq_length_iff fl dsComm).mp h hmem
    rw [if_pos hne, if_pos hmem]
    rfl
  · have heq : stdFind fl dsComm = dsComm.length := (stdFind_eq_length_iff fl dsComm).mpr hmem
    rw [if_neg (fun h => h heq), if_neg hmem]
    rfl

/-- The loop over the faulty leaders either returns a permutation of the
committee or is fatal; it is fatal exactly when some faulty leader is not in
the committee. -/
theorem ejectFaultyLeaders_cases (selfKey : PrivKey × PubKey) (fls : List (PubKey × Peer))
    (dsComm : DSCommittee) :
    ((∀ f ∈ fls, f ∈ dsComm) ∧
        ∃ comm1, ejectFaultyLeaders selfKey fls dsComm = .ok comm1 ∧ comm1.Perm dsComm)
      ∨ ((∃ f ∈ fls, f ∉ dsComm) ∧
        ejectFaultyLeaders selfKey fls dsComm = .error Fault.fatal) := by
  induction fls generalizing dsComm with
  | nil => exact Or.inl ⟨by simp, dsComm, rfl, List.Perm.refl _⟩
  | cons fl rest ih =>
    rw [ejectFaultyLeaders, ejectFaultyLeader_eq]
    by_cases hmem : fl ∈ dsComm
    · rw [if_pos hmem]
      have hperm := eraseIdx_stdFind_perm fl dsComm hmem
      rcases ih (dsComm.eraseIdx (stdFind fl dsComm) ++ [fl]) with
        ⟨hall, comm1, hok, hp⟩ | ⟨⟨f, hf, hnot⟩, herr⟩
      · refine Or.inl ⟨?_, comm1, hok, hp.trans hperm⟩
        intro f hf
        rcases List.mem_cons.mp hf with rfl | hf
        · exact hmem
        · exact hperm.mem_iff.mp (hall f hf)
      · exact Or.inr ⟨⟨f, List.mem_cons_of_mem _ hf, fun h => hnot (hperm.mem_iff.mpr h)⟩, herr⟩
    · rw [if_neg hmem]
      exact Or.inr ⟨⟨fl, List.mem_cons_self _ _, hmem⟩, rfl⟩

/-- On a committee without repeated entries that holds every faulty leader,
the loop returns the members that are not faulty, in their order, followed by
the faulty leaders, each once, in the order of their last mention. -/
theorem ejectFaultyLeaders_eq (selfKey : PrivKey × PubKey) (fls : List (PubKey × Peer))
    (dsComm : DSCommittee) (hnd : dsComm.Nodup) (hin : ∀ f ∈ fls, f ∈ dsComm) :
    ejectFaultyLeaders selfKey fls dsComm
      = .ok (dsComm.filter (fun e => decide (e ∉ fls)) ++ fls.dedup) := by
  induction fls generalizing dsComm with
  | nil => simp [ejectFaultyLeaders, pure, Except.pure]
  | cons fl rest ih =>
    have hmem : fl ∈ dsComm := hin fl (List.mem_cons_self _ _)
    have hperm := eraseIdx_stdFind_perm fl dsComm hmem
    rw [ejectFaultyLeaders, ejectFaultyLeader_eq, if_pos hmem]
    simp only []
    rw [ih (dsComm.eraseIdx (stdFind fl dsComm) ++ [fl]) (hperm.nodup_iff.mpr hnd)
      (fun f hf => hperm.mem_iff.mpr (hin f (List.mem_cons_of_mem _ hf)))]
    congr 1
    have herase : (dsComm.eraseIdx (stdFind fl dsComm)).filter (fun e => decide (e ∉ rest))
        = dsComm.filter (fun e => decide (e ∉ fl :: rest)) := by
      rw [eraseIdx_stdFind_nodup fl dsComm hnd, List.filter_filter]
      apply List.filter_congr
      intro x _
      by_cases hx : x = fl <;> by_cases hr : x ∈ rest <;> simp [hx, hr]
    rw [List.filter_append, herase]
    by_cases hfl : fl ∈ rest
    · simp [hfl, List.dedup_cons_of_mem hfl]
    · simp [hfl, List.dedup_cons_of_not_mem hfl]

/-- An entry of a list without repeated entries is the only one equal to it. -/
theorem filter_eq_length_one (f : PubKey × Peer) (l : DSCommittee) (hnd : l.Nodup)
    (hf : f ∈ l) : (l.filter (fun e => decide (e = f))).length = 1 := by
  induction l with
  | nil => simp at hf
  | cons e rest ih =>
    have hnd2 := List.nodup_cons.mp hnd
    by_cases he : e = f
    · subst he
      have : rest.filter (fun x => decide (x = e)) = [] := by
        apply List.filter_eq_nil_iff.mpr
        intro x hx
        have : x ≠ e := fun h => hnd2.1 (h ▸ hx)
        simpa using this
      simp [this]
    · have hrest : f ∈ rest := by
        rcases List.mem_cons.mp hf with h | h
        · exact absurd h.symm he
        · exact h
      simp [he, ih hnd2.2 hrest]

/-- With guard mode off the function is the loop over the faulty leaders. -/
theorem UpdateDSCommiteeCompositionAfterVC_eq (cst : Constants) (selfKey : PrivKey × PubKey)
    (vcblock : VCBlock) (dsComm : DSCommittee) (hG : cst.GUARD_MODE = false) :
    UpdateDSCommiteeCompositionAfterVC cst selfKey vcblock dsComm
      = ejectFaultyLeaders selfKey vcblock.m_header.m_FaultyLeaders dsComm := by
  simp [UpdateDSCommiteeCompositionAfterVC, hG]

/-- The three properties of the committee returned by the loop over the
faulty leaders, on a committee without repeated entries that holds them all. -/
theorem ejectFaultyLeaders_reorder (selfKey : PrivKey × PubKey) (fls : List (PubKey × Peer))
    (dsComm : DSCommittee) (hnd : dsComm.Nodup) (hin : ∀ f ∈ fls, f ∈ dsComm) :
    ∃ comm1, ejectFaultyLeaders selfKey fls dsComm = .ok comm1 ∧
      (∀ f ∈ fls, (comm1.filter (fun e => decide (e = f))).length = 1) ∧
      (∀ i (hi : i < comm1.length), comm1[i] ∈ fls ↔ comm1.length - fls.dedup.length ≤ i) ∧
      comm1.filter (fun e => decide (e ∉ fls)) = dsComm.filter (fun e => decide (e ∉ fls)) := by
  refine ⟨_, ejectFaultyLeaders_eq selfKey fls dsComm hnd hin, ?_, ?_, ?_⟩
  · intro f hf
    have hpre : (dsComm.filter (fun e => decide (e ∉ fls))).filter (fun e => decide (e = f))
        = [] := by
      apply List.filter_eq_nil_iff.mpr
      intro x hx
      have hx2 : x ∉ fls := by simpa using (List.mem_filter.mp hx).2
      have : x ≠ f := fun h => hx2 (h ▸ hf)
      simpa using this
    rw [List.filter_append, hpre, List.nil_append]
    exact filter_eq_length_one f _ (List.nodup_dedup _) (List.mem_dedup.mpr hf)
  · intro i hi
    rw [List.length_append] at hi ⊢
    by_cases hlt : i < (dsComm.filter (fun e => decide (e ∉ fls))).length
    · rw [List.getElem_append_left hlt]
      have hmem := List.getElem_mem hlt
      have hx2 : (dsComm.filter (fun e => decide (e ∉ fls)))[i] ∉ fls := by
        simpa using (List.mem_filter.mp hmem).2
      constructor
      · intro h; exact absurd h hx2
      · intro h; omega
    · have hge : (dsComm.filter (fun e => decide (e ∉ fls))).length ≤ i := by omega
      rw [List.getElem_append_right hge]
      constructor
      · intro _; omega
      · intro _; exact List.mem_dedup.mp (List.getElem_mem _)
  · rw [List.filter_append, List.filter_filter]
    have htail : fls.dedup.filter (fun e => decide (e ∉ fls)) = [] := by
      apply List.filter_eq_nil_iff.mpr
      intro x hx
      simpa using List.mem_dedup.mp hx
    rw [htail, List.append_nil]
    apply List.filter_congr
    intro x _
    simp

/-- C8: with guard mode off, on a committee with pairwise distinct entries
that holds every faulty leader of the VC block,
`UpdateDSCommiteeCompositionAfterVC` returns a committee in which every faulty
leader occurs exactly once, in which the positions holding a faulty leader are
exactly the last `d` ones (`d` the number of distinct faulty leaders), and
whose members that are not faulty are those of the input in the same order. -/
theorem UpdateDSCommiteeCompositionAfterVC_reorder (cst : Constants)
    (selfKey : PrivKey × PubKey) (vcblock : VCBlock) (dsComm : DSCommittee)
    (hG : cst.GUARD_MODE = false) (hnd : dsComm.Nodup)
    (hin : ∀ f ∈ vcblock.m_header.m_FaultyLeaders, f ∈ dsComm) :
    ∃ comm1, UpdateDSCommiteeCompositionAfterVC cst selfKey vcblock dsComm = .ok comm1 ∧
      (∀ f ∈ vcblock.m_header.m_FaultyLeaders,
        (comm1.filter (fun e => decide (e = f))).length = 1) ∧
      (∀ i (hi : i < comm1.length),
        comm1[i] ∈ vcblock.m_header.m_FaultyLeaders
          ↔ comm1.length - vcblock.m_header.m_FaultyLeaders.dedup.length ≤ i) ∧
      comm1.filter (fun e => decide (e ∉ vcblock.m_header.m_FaultyLeaders))
        = dsComm.filter (fun e => decide (e ∉ vcblock.m_header.m_FaultyLeaders)) := by
  rw [UpdateDSCommiteeCompositionAfterVC_eq cst selfKey vcblock dsComm hG]
  exact ejectFaultyLeaders_reorder selfKey _ dsComm hnd hin

/-- C8, at the committee of size four: `[(A,.),(B,.),(C,.),(D,.)]` with
faulty leaders `[(B,.)]` becomes `[(A,.),(C,.),(D,.),(B,.)]`. -/
theorem UpdateDSCommiteeCompositionAfterVC_reorder_witness :
    UpdateDSCommiteeCompositionAfterVC {} (33, 3) vcBlockB committee4
        = .ok [(1, ⟨101, 1⟩), (3, ⟨103, 3⟩), (4, ⟨104, 4⟩), (2, ⟨102, 2⟩)] ∧
      ∃ comm1, UpdateDSCommiteeCompositionAfterVC {} (33, 3) vcBlockB committee4 = .ok comm1 ∧
        (∀ f ∈ vcBlockB.m_header.m_FaultyLeaders,
          (comm1.filter (fun e => decide (e = f))).length = 1) ∧
        (∀ i (hi : i < comm1.length),
          comm1[i] ∈ vcBlockB.m_header.m_FaultyLeaders
            ↔ comm1.length - vcBlockB.m_header.m_FaultyLeaders.dedup.length ≤ i) ∧
        comm1.filter (fun e => decide (e ∉ vcBlockB.m_header.m_FaultyLeaders))
          = committee4.filter (fun e => decide (e ∉ vcBlockB.m_header.m_FaultyLeaders)) :=
  ⟨rfl, UpdateDSCommiteeCompositionAfterVC_reorder {} (33, 3) vcBlockB committee4 rfl
    (by decide) (by decide)⟩

/-- C9: with guard mode off, `UpdateDSCommiteeCompositionAfterVC` ends in the
fatal log if and only if some faulty leader of the VC block has no equal
`(pub_key, peer)` entry in the committee (the entries present are the same at
every iteration, since each iteration permutes the committee); for every
other input it returns a committee, a permutation of the input. -/
theorem UpdateDSCommiteeCompositionAfterVC_fatal_iff (cst : Constants)
    (selfKey : PrivKey × PubKey) (vcblock : VCBlock) (dsComm : DSCommittee)
    (hG : cst.GUARD_MODE = false) :
    (UpdateDSCommiteeCompositionAfterVC cst selfKey vcblock dsComm = .error Fault.fatal
        ↔ ∃ f ∈ vcblock.m_header.m_FaultyLeaders, f ∉ dsComm) ∧
      ((∀ f ∈ vcblock.m_header.m_FaultyLeaders, f ∈ dsComm) →
        ∃ comm1, UpdateDSCommiteeCompositionAfterVC cst selfKey vcblock dsComm = .ok comm1
          ∧ comm1.Perm dsComm) := by
  rw [UpdateDSCommiteeCompositionAfterVC_eq cst selfKey vcblock dsComm hG]
  rcases ejectFaultyLeaders_cases selfKey vcblock.m_header.m_FaultyLeaders dsComm with
    ⟨hall, comm1, hok, hp⟩ | ⟨⟨f, hf, hnot⟩, herr⟩
  · refine ⟨⟨fun h => ?_, fun ⟨f, hf, hnot⟩ => absurd (hall f hf) hnot⟩,
      fun _ => ⟨comm1, hok, hp⟩⟩
    rw [hok] at h
    cases h
  · exact ⟨⟨fun _ => ⟨f, hf, hnot⟩, fun _ => herr⟩, fun hall => absurd (hall f hf) hnot⟩

/-- C9, at `committee4` and a VC block whose faulty leader is not a member:
the reorder is fatal. -/
theorem UpdateDSCommiteeCompositionAfterVC_fatal_iff_witness :
    UpdateDSCommiteeCompositionAfterVC {} (33, 3) vcBlockMissing committee4
      = .error Fault.fatal :=
  (UpdateDSCommiteeCompositionAfterVC_fatal_iff {} (33, 3) vcBlockMissing committee4 rfl).1.mpr
    ⟨(7, ⟨107, 7⟩), by decide, by decide⟩

/-! ### Leader index invariant -/

/-- The rotation steps return the state left by the two calls when the leader
index read after them is in range. -/
theorem rotateOnDSBlockDone_ok (cst : Constants) (ext : Externals) (w : Nat)
    (winnerpeer : Peer) (ds ds1 : DirectoryService) (hL : cst.LOOKUP_NODE_MODE = false)
    (h1 : UpdateMyDSModeAndConsensusId cst ext w ds = .ok ds1)
    (hlt : (UpdateDSCommiteeComposition cst winnerpeer ds1).m_consensusLeaderID
      < (UpdateDSCommiteeComposition cst winnerpeer ds1).m_mediator.m_DSCommittee.length) :
    rotateOnDSBlockDone cst ext w winnerpeer ds
      = .ok (UpdateDSCommiteeComposition cst winnerpeer ds1) := by
  unfold rotateOnDSBlockDone
  simp only [hL, h1, Bool.false_eq_true, if_false, List.getElem?_eq_getElem hlt]
  rfl

/-- C7: `m_consensusLeaderID < |committee|` is preserved. From every state
with a non-empty committee in which it holds, the rotation steps of the
DS-block commit return (for the oldest backup, which becomes IDLE, as for
every other node) a state with a non-empty committee in which it holds; and
every committee returned by the VC reorder of that committee is non-empty
and longer than the leader index. -/
theorem leader_id_in_range (cst : Constants) (ext : Externals) (w : Nat)
    (winnerpeer : Peer) (ds : DirectoryService)
    (hne : ds.m_mediator.m_DSCommittee ≠ [])
    (hinv : ds.m_consensusLeaderID < ds.m_mediator.m_DSCommittee.length) :
    (∃ ds2, rotateOnDSBlockDone cst ext w winnerpeer ds = .ok ds2 ∧
        ds2.m_mediator.m_DSCommittee ≠ [] ∧
        ds2.m_consensusLeaderID < ds2.m_mediator.m_DSCommittee.length) ∧
      (∀ vcblock comm1,
        UpdateDSCommiteeCompositionAfterVC cst ds.m_mediator.m_selfKey vcblock
            ds.m_mediator.m_DSCommittee = .ok comm1 →
          comm1 ≠ [] ∧ ds.m_consensusLeaderID < comm1.length) := by
  have hpos : ds.m_mediator.m_DSCommittee.length ≠ 0 := by
    simpa [List.length_eq_zero] using hne
  have hnonempty : ∀ l : DSCommittee, l.length = ds.m_mediator.m_DSCommittee.length → l ≠ [] := by
    intro l hl h
    rw [h] at hl
    exact hpos hl.symm
  constructor
  · cases hL : cst.LOOKUP_NODE_MODE
    · by_cases hold : (ds.m_consensusMyID + 1) % 2 ^ 32 = ds.m_mediator.m_DSCommittee.length
      · have h1 := UpdateMyDSModeAndConsensusId_oldest cst ext w ds hL hold
        have hfr := UpdateDSCommiteeComposition_frame cst winnerpeer { ds with m_mode := Mode.IDLE }
        have hlt : (UpdateDSCommiteeComposition cst winnerpeer
            { ds with m_mode := Mode.IDLE }).m_consensusLeaderID
            < (UpdateDSCommiteeComposition cst winnerpeer
                { ds with m_mode := Mode.IDLE }).m_mediator.m_DSCommittee.length := by
          rw [hfr.2.2.1, hfr.2.2.2.2]; exact hinv
        exact ⟨_, rotateOnDSBlockDone_ok cst ext w winnerpeer ds _ hL h1 hlt,
          hnonempty _ hfr.2.2.2.2, hlt⟩
      · obtain ⟨m, -, -, h1⟩ :=
          UpdateMyDSModeAndConsensusId_not_oldest cst ext w ds hL hne hold
        have hfr := UpdateDSCommiteeComposition_frame cst winnerpeer
          { ds with
            m_consensusLeaderID :=
              (if ds.m_mediator.m_currentEpochNum > 1 then
                ext.SerializableToHash16Bits (GetLastBlock ds.m_mediator.m_txBlockChain) % 2 ^ 16
              else 0) % ds.m_mediator.m_DSCommittee.length
            m_mode := m
            m_consensusMyID := (ds.m_consensusMyID + 1) % 2 ^ w }
        have hlt := Nat.mod_lt (if ds.m_mediator.m_currentEpochNum > 1 then
            ext.SerializableToHash16Bits (GetLastBlock ds.m_mediator.m_txBlockChain) % 2 ^ 16
          else 0) (Nat.pos_of_ne_zero hpos)
        refine ⟨_, rotateOnDSBlockDone_ok cst ext w winnerpeer ds _ hL h1 ?_,
          hnonempty _ hfr.2.2.2.2, ?_⟩
        · rw [hfr.2.2.1, hfr.2.2.2.2]; exact hlt
        · rw [hfr.2.2.1, hfr.2.2.2.2]; exact hlt
    · refine ⟨ds, ?_, hne, hinv⟩
      simp [rotateOnDSBlockDone, hL, pure, Except.pure]
  · intro vcblock comm1 hok
    have hlen : comm1.length = ds.m_mediator.m_DSCommittee.length := by
      cases hG : cst.GUARD_MODE
      · rw [UpdateDSCommiteeCompositionAfterVC_eq cst _ vcblock _ hG] at hok
        rcases ejectFaultyLeaders_cases ds.m_mediator.m_selfKey
            vcblock.m_header.m_FaultyLeaders ds.m_mediator.m_DSCommittee with
          ⟨-, comm2, hok2, hp⟩ | ⟨-, herr⟩
        · rw [hok2] at hok
          cases hok
          exact hp.length_eq
        · rw [herr] at hok
          cases hok
      · simp only [UpdateDSCommiteeCompositionAfterVC, hG, if_true, pure, Except.pure] at hok
        cases hok
        rfl
    exact ⟨hnonempty _ hlen, by rw [hlen]; exact hinv⟩

/-- C7, at `dsNode2` (leader index 0, committee of size 4): after the rotation
steps the leader index is 3, after the VC reorder of `vcBlockB` the committee
still has more than 0 entries. -/
theorem leader_id_in_range_witness :
    (∃ ds2, rotateOnDSBlockDone {} extHead 16 peerW dsNode2 = .ok ds2 ∧
        ds2.m_mediator.m_DSCommittee ≠ [] ∧
        ds2.m_consensusLeaderID < ds2.m_mediator.m_DSCommittee.length) ∧
      (∀ comm1,
        UpdateDSCommiteeCompositionAfterVC {} dsNode2.m_mediator.m_selfKey vcBlockB
            dsNode2.m_mediator.m_DSCommittee = .ok comm1 →
          comm1 ≠ [] ∧ dsNode2.m_consensusLeaderID < comm1.length) :=
  ⟨(leader_id_in_range {} extHead 16 peerW dsNode2 (by decide) (by decide)).1,
    (leader_id_in_range {} extHead 16 peerW dsNode2 (by decide) (by decide)).2 vcBlockB⟩

/-! ### Co-signature of a VC block -/

/-- The loop over the committee in closed form, when the bitmap covers the
rest of the committee and fits in 32 bits: the index reaches the bitmap size,
the count grows by the number of set bits read, and the keys collected are
those of the members whose bit is set, in committee order. -/
theorem collectCoSigKeys_eq (B2 : List Bool) (comm : DSCommittee) (index count : Nat)
    (keys : List PubKey) (hlen : index + comm.length = B2.length)
    (hb : B2.length < 2 ^ 32) (hc : count ≤ index) :
    collectCoSigKeys B2 comm (index, count, keys)
      = .ok (B2.length, count + (B2.drop index).count true,
          keys ++ ((comm.zip (B2.drop index)).filter (fun p => p.2)).map (fun p => p.1.1)) := by
  induction comm generalizing index count keys with
  | nil =>
    have hidx : index = B2.length := by simpa using hlen
    subst hidx
    simp [collectCoSigKeys, pure, Except.pure]
  | cons kv rest ih =>
    have hlt : index < B2.length := by
      simp only [List.length_cons] at hlen; omega
    have hdrop : B2.drop index = B2[index] :: B2.drop (index + 1) :=
      List.drop_eq_getElem_cons hlt
    have hi : (index + 1) % 2 ^ 32 = index + 1 := Nat.mod_eq_of_lt (by omega)
    have hcnt : (count + 1) % 2 ^ 32 = count + 1 := Nat.mod_eq_of_lt (by omega)
    have hlen2 : index + 1 + rest.length = B2.length := by
      simp only [List.length_cons] at hlen; omega
    rw [collectCoSigKeys, List.getElem?_eq_getElem hlt]
    simp only [hi, hcnt]
    cases hbit : B2[index]
    · simp only [Bool.false_eq_true, if_false]
      rw [ih (index + 1) count keys hlen2 (by omega), hdrop, hbit]
      simp
    · simp only [if_true]
      rw [ih (index + 1) (count + 1) (keys ++ [kv.1]) hlen2 (by omega), hdrop, hbit]
      simp [Nat.add_assoc, Nat.add_comm 1]

/-- The value of `VerifyVCBlockCoSignature` on a committee whose size fits in
the 32-bit counters `index` and `count`. -/
theorem VerifyVCBlockCoSignature_value (ext : Externals) (dsComm : DSCommittee)
    (vcblock : VCBlock) (hsz : dsComm.length < 2 ^ 32) :
    ∃ b, VerifyVCBlockCoSignature ext dsComm vcblock = .ok b ∧
      (b = true ↔
        vcblock.m_b2.length = dsComm.length ∧
        vcblock.m_b2.count true = ext.NumForConsensus vcblock.m_b2.length ∧
        ∃ aggregatedKey header,
          ext.AggregatePubKeys
              (((dsComm.zip vcblock.m_b2).filter (fun p => p.2)).map (fun p => p.1.1))
            = some aggregatedKey ∧
          ext.SerializeHeader vcblock.m_header = some header ∧
          ext.SchnorrVerify
              (header ++ ext.SerializeSignature vcblock.m_cs1 ++ ext.SetBitVector vcblock.m_b1)
              vcblock.m_cs2 aggregatedKey = true) ∧
      (vcblock.m_b2.length ≠ dsComm.length → b = false) := by
  by_cases hlen : dsComm.length = vcblock.m_b2.length
  · have hb : vcblock.m_b2.length < 2 ^ 32 := hlen ▸ hsz
    have hloop := collectCoSigKeys_eq vcblock.m_b2 dsComm 0 0 [] (by simpa using hlen) hb
      (Nat.le_refl 0)
    simp only [List.drop_zero, Nat.zero_add, List.nil_append] at hloop
    by_cases hcount : vcblock.m_b2.count true = ext.NumForConsensus vcblock.m_b2.length
    · rcases Option.eq_none_or_eq_some (ext.AggregatePubKeys
          (((dsComm.zip vcblock.m_b2).filter (fun p => p.2)).map (fun p => p.1.1))) with
        hagg | ⟨agg, hagg⟩
      · refine ⟨false, ?_, ⟨(fun h => by cases h), ?_⟩, fun _ => rfl⟩
        · unfold VerifyVCBlockCoSignature
          simp only [hlen, ne_eq, not_true_eq_false, if_false, hloop, Nat.mod_eq_of_lt hb,
            hcount, hagg]
          rfl
        · rintro ⟨-, -, agg2, header2, ha, -, -⟩
          rw [hagg] at ha
          cases ha
      · rcases Option.eq_none_or_eq_some (ext.SerializeHeader vcblock.m_header) with
          hser | ⟨header, hser⟩
        · refine ⟨false, ?_, ⟨(fun h => by cases h), ?_⟩, fun _ => rfl⟩
          · unfold VerifyVCBlockCoSignature
            simp only [hlen, ne_eq, not_true_eq_false, if_false, hloop, Nat.mod_eq_of_lt hb,
              hcount, hagg, hser]
            rfl
          · rintro ⟨-, -, agg2, header2, -, hs, -⟩
            rw [hser] at hs
            cases hs
        · rcases Bool.eq_false_or_eq_true (ext.SchnorrVerify
              (header ++ ext.SerializeSignature vcblock.m_cs1 ++ ext.SetBitVector vcblock.m_b1)
              vcblock.m_cs2 agg) with hver | hver
          · refine ⟨true, ?_, ⟨fun _ => ⟨hlen.symm, hcount, agg, header, hagg, hser, hver⟩,
              fun _ => rfl⟩, fun h => absurd hlen.symm h⟩
            unfold VerifyVCBlockCoSignature
            simp only [hlen, ne_eq, not_true_eq_false, if_false, hloop, Nat.mod_eq_of_lt hb,
              hcount, hagg, hser, hver, Bool.not_true, Bool.false_eq_true]
            rfl
          · refine ⟨false, ?_, ⟨(fun h => by cases h), ?_⟩, fun _ => rfl⟩
            · unfold VerifyVCBlockCoSignature
              simp only [hlen, ne_eq, not_true_eq_false, if_false, hloop, Nat.mod_eq_of_lt hb,
                hcount, hagg, hser, hver, Bool.not_false, if_true]
              rfl
            · rintro ⟨-, -, agg2, header2, ha, hs, hv⟩
              rw [hagg] at ha
              cases ha
              rw [hser] at hs
              cases hs
              rw [hver] at hv
              cases hv
    · refine ⟨false, ?_, ⟨(fun h => by cases h), fun h => absurd h.2.1 hcount⟩, fun _ => rfl⟩
      unfold VerifyVCBlockCoSignature
      simp only [hlen, ne_eq, not_true_eq_false, if_false, hloop, Nat.mod_eq_of_lt hb,
        hcount, not_false_eq_true, if_true]
      rfl
  · refine ⟨false, ?_, ⟨(fun h => by cases h), fun h => absurd h.1.symm hlen⟩, fun _ => rfl⟩
    unfold VerifyVCBlockCoSignature
    simp only [ne_eq, hlen, not_false_eq_true, if_true]
    rfl

/-- C10: whenever `|B2| != |committee|`, `VerifyVCBlockCoSignature` returns
false, whatever the signatures are. For a committee whose size fits in the
32-bit counters it returns, and it returns true if and only if the bitmap B2
has as many bits as the committee has members, the number of set bits of B2
equals `NumForConsensus(|B2|)`, the aggregation of exactly the committee keys
at the positions where B2 is set (in committee order) succeeds, the header
serialises, and the Schnorr verification of the message under the aggregated
key succeeds. -/
theorem VerifyVCBlockCoSignature_true_iff (ext : Externals) (dsComm : DSCommittee)
    (vcblock : VCBlock) :
    (vcblock.m_b2.length ≠ dsComm.length →
        VerifyVCBlockCoSignature ext dsComm vcblock = .ok false) ∧
      (dsComm.length < 2 ^ 32 →
        ∃ b, VerifyVCBlockCoSignature ext dsComm vcblock = .ok b ∧
          (b = true ↔
            vcblock.m_b2.length = dsComm.length ∧
            vcblock.m_b2.count true = ext.NumForConsensus vcblock.m_b2.length ∧
            ∃ aggregatedKey header,
              ext.AggregatePubKeys
                  (((dsComm.zip vcblock.m_b2).filter (fun p => p.2)).map (fun p => p.1.1))
                = some aggregatedKey ∧
              ext.SerializeHeader vcblock.m_header = some header ∧
              ext.SchnorrVerify
                  (header ++ ext.SerializeSignature vcblock.m_cs1
                    ++ ext.SetBitVector vcblock.m_b1)
                  vcblock.m_cs2 aggregatedKey = true)) := by
  constructor
  · intro hne
    have hlen : ¬ dsComm.length = vcblock.m_b2.length := fun h => hne h.symm
    unfold VerifyVCBlockCoSignature
    simp only [ne_eq, hlen, not_false_eq_true, if_true]
    rfl
  · intro hsz
    obtain ⟨b, hres, hiff, -⟩ := VerifyVCBlockCoSignature_value ext dsComm vcblock hsz
    exact ⟨b, hres, hiff⟩

/-- C10, at `committee4` and the bitmap `[1,0,1,1]`: three bits are set,
`NumForConsensus 4 = 3`, and the verification returns true; with a bitmap of
three bits it returns false. -/
theorem VerifyVCBlockCoSignature_true_iff_witness :
    VerifyVCBlockCoSignature {} committee4 vcBlockB = .ok true ∧
      VerifyVCBlockCoSignature {} committee4 { vcBlockB with m_b2 := [true, true, true] }
        = .ok false := by
  constructor
  · obtain ⟨b, hres, hiff⟩ :=
      (VerifyVCBlockCoSignature_true_iff {} committee4 vcBlockB).2 (by decide)
    have hb : b = true := hiff.mpr ⟨by decide, by decide, _, _, rfl, rfl, rfl⟩
    rw [hres, hb]
  · exact (VerifyVCBlockCoSignature_true_iff {} committee4
      { vcBlockB with m_b2 := [true, true, true] }).1 (by decide)

/-! ### Multicast partition -/

/-- The quotient incremented when there is a remainder is the ceiling of the
quotient. -/
theorem div_succ_of_rem (a b : Nat) (hb : 0 < b) :
    (if a % b > 0 then a / b + 1 else a / b) = (a + b - 1) / b := by
  have hdm := Nat.div_add_mod a b
  have hlt := Nat.mod_lt a hb
  generalize hq : a / b = q at hdm ⊢
  generalize hr : a % b = r at hdm hlt ⊢
  symm
  by_cases hz : r > 0
  · rw [if_pos hz]
    apply Nat.div_eq_of_lt_le
    · rw [Nat.add_mul, Nat.one_mul, Nat.mul_comm q b]; omega
    · rw [Nat.add_mul, Nat.one_mul, Nat.add_mul, Nat.one_mul, Nat.mul_comm q b]; omega
  · rw [if_neg hz]
    apply Nat.div_eq_of_lt_le
    · rw [Nat.mul_comm q b]; omega
    · rw [Nat.add_mul, Nat.one_mul, Nat.mul_comm q b]; omega

/-- The ceiling of a quotient of a positive number is positive and at most
the number. -/
theorem ceil_div_bounds (a b : Nat) (ha : 0 < a) (hb : 0 < b) :
    0 < (a + b - 1) / b ∧ (a + b - 1) / b ≤ a := by
  constructor
  · apply Nat.div_pos
    · omega
    · exact hb
  · apply Nat.div_le_of_le_mul
    obtain ⟨a1, rfl⟩ : ∃ a1, a = a1 + 1 := ⟨a - 1, by omega⟩
    obtain ⟨b1, rfl⟩ : ∃ b1, b = b1 + 1 := ⟨b - 1, by omega⟩
    have : (b1 + 1) * (a1 + 1) = b1 * a1 + b1 + a1 + 1 := by ring
    omega

/-- C11: on a DS node (not a lookup node), for a committee of size `D > 0`,
a cluster size `CLUSTER_SIZE > 0` and `S > 0` shards, all within the range of
the 32-bit variables of the function, `SetupMulticastConfigForDSBlock`
returns `my_cluster = my_id div CLUSTER_SIZE`,
`shards_lo = my_cluster * shards_per_cluster` and
`shards_hi = min (shards_lo + shards_per_cluster - 1) (S - 1)`, where
`num_clusters = ceil (D / CLUSTER_SIZE)` and
`shards_per_cluster = ceil (S / num_clusters)`. -/
theorem SetupMulticastConfigForDSBlock_value (cst : Constants) (ds : DirectoryService)
    (outs : Nat × Nat × Nat) (hL : cst.LOOKUP_NODE_MODE = false)
    (hD : 0 < ds.m_mediator.m_DSCommittee.length)
    (hCS : 0 < cst.DS_MULTICAST_CLUSTER_SIZE)
    (hS : 0 < ds.m_shards.length)
    (hD32 : ds.m_mediator.m_DSCommittee.length < 2 ^ 32)
    (hS32 : ds.m_shards.length < 2 ^ 32)
    (hfit : ds.m_consensusMyID / cst.DS_MULTICAST_CLUSTER_SIZE
        * ((ds.m_shards.length
            + (ds.m_mediator.m_DSCommittee.length + cst.DS_MULTICAST_CLUSTER_SIZE - 1)
                / cst.DS_MULTICAST_CLUSTER_SIZE - 1)
          / ((ds.m_mediator.m_DSCommittee.length + cst.DS_MULTICAST_CLUSTER_SIZE - 1)
                / cst.DS_MULTICAST_CLUSTER_SIZE))
      + (ds.m_shards.length
            + (ds.m_mediator.m_DSCommittee.length + cst.DS_MULTICAST_CLUSTER_SIZE - 1)
                / cst.DS_MULTICAST_CLUSTER_SIZE - 1)
          / ((ds.m_mediator.m_DSCommittee.length + cst.DS_MULTICAST_CLUSTER_SIZE - 1)
                / cst.DS_MULTICAST_CLUSTER_SIZE) ≤ 2 ^ 32) :
    SetupMulticastConfigForDSBlock cst ds outs = .ok
      (ds.m_consensusMyID / cst.DS_MULTICAST_CLUSTER_SIZE,
       ds.m_consensusMyID / cst.DS_MULTICAST_CLUSTER_SIZE
        * ((ds.m_shards.length
            + (ds.m_mediator.m_DSCommittee.length + cst.DS_MULTICAST_CLUSTER_SIZE - 1)
                / cst.DS_MULTICAST_CLUSTER_SIZE - 1)
          / ((ds.m_mediator.m_DSCommittee.length + cst.DS_MULTICAST_CLUSTER_SIZE - 1)
                / cst.DS_MULTICAST_CLUSTER_SIZE)),
       min
        (ds.m_consensusMyID / cst.DS_MULTICAST_CLUSTER_SIZE
          * ((ds.m_shards.length
              + (ds.m_mediator.m_DSCommittee.length + cst.DS_MULTICAST_CLUSTER_SIZE - 1)
                  / cst.DS_MULTICAST_CLUSTER_SIZE - 1)
            / ((ds.m_mediator.m_DSCommittee.length + cst.DS_MULTICAST_CLUSTER_SIZE - 1)
                  / cst.DS_MULTICAST_CLUSTER_SIZE))
          + (ds.m_shards.length
              + (ds.m_mediator.m_DSCommittee.length + cst.DS_MULTICAST_CLUSTER_SIZE - 1)
                  / cst.DS_MULTICAST_CLUSTER_SIZE - 1)
            / ((ds.m_mediator.m_DSCommittee.length + cst.DS_MULTICAST_CLUSTER_SIZE - 1)
                  / cst.DS_MULTICAST_CLUSTER_SIZE) - 1)
        (ds.m_shards.length - 1)) := by
  generalize hDg : ds.m_mediator.m_DSCommittee.length = D at *
  generalize hSg : ds.m_shards.length = S at *
  generalize hCg : cst.DS_MULTICAST_CLUSTER_SIZE = CS at *
  have hnc := div_succ_of_rem D CS hCS
  have hncb := ceil_div_bounds D CS hD hCS
  generalize hncg : (D + CS - 1) / CS = nc at *
  have hspc := div_succ_of_rem S nc hncb.1
  have hspcb := ceil_div_bounds S nc hS hncb.1
  generalize hspcg : (S + nc - 1) / nc = spc at *
  generalize hmcg : ds.m_consensusMyID / CS = mc at *
  have hmcle : mc ≤ mc * spc := Nat.le_mul_of_pos_right mc hspcb.1
  generalize hlog : mc * spc = lo at *
  -- the two cluster counts computed by the code
  have hc0 : (D / CS) % 2 ^ 32 = D / CS :=
    Nat.mod_eq_of_lt (Nat.lt_of_le_of_lt (Nat.div_le_self D CS) hD32)
  have hclusters : (if D % CS > 0 then (D / CS % 2 ^ 32 + 1) % 2 ^ 32 else D / CS % 2 ^ 32)
      = nc := by
    rw [← hnc, hc0]
    split
    · next h =>
      apply Nat.mod_eq_of_lt
      have : D / CS + 1 = nc := by rw [← hnc, if_pos h]
      omega
    · rfl
  have hg0 : (S / nc) % 2 ^ 32 = S / nc :=
    Nat.mod_eq_of_lt (Nat.lt_of_le_of_lt (Nat.div_le_self S nc) hS32)
  have hgroups : (if S % nc > 0 then (S / nc % 2 ^ 32 + 1) % 2 ^ 32 else S / nc % 2 ^ 32)
      = spc := by
    rw [← hspc, hg0]
    split
    · next h =>
      apply Nat.mod_eq_of_lt
      have : S / nc + 1 = spc := by rw [← hspc, if_pos h]
      omega
    · rfl
  have hmc : mc % 2 ^ 32 = mc := Nat.mod_eq_of_lt (by omega)
  have hlo : lo % 2 ^ 32 = lo := Nat.mod_eq_of_lt (by omega)
  have hhi0 : (lo + spc + (2 ^ 32 - 1)) % 2 ^ 32 = lo + spc - 1 := by omega
  have hSm : ((S + (2 ^ 64 - 1)) % 2 ^ 64) % 2 ^ 32 = S - 1 := by omega
  have hCS0 : CS ≠ 0 := by omega
  have hnc0 : nc ≠ 0 := by omega
  unfold SetupMulticastConfigForDSBlock
  simp only [hL, hDg, hSg, hCg, hCS0, hnc0, hclusters, hgroups, hmcg, hmc, hlog, hlo, hhi0, hSm,
    if_false, Bool.false_eq_true]
  by_cases hge : lo + spc - 1 ≥ S
  · rw [if_pos hge]
    have : min (lo + spc - 1) (S - 1) = S - 1 := by omega
    rw [this]; rfl
  · rw [if_neg hge]
    have : min (lo + spc - 1) (S - 1) = lo + spc - 1 := by omega
    rw [this]; rfl

/-- C11, at `D = 10`, `CLUSTER_SIZE = 3`, `S = 7`: the result is `(1, 2, 3)`
for `my_id = 4` and `(3, 6, 6)` for `my_id = 9`. -/
theorem SetupMulticastConfigForDSBlock_value_witness :
    SetupMulticastConfigForDSBlock {} (dsMulticast 4) (0, 0, 0) = .ok (1, 2, 3) ∧
      SetupMulticastConfigForDSBlock {} (dsMulticast 9) (0, 0, 0) = .ok (3, 6, 6) :=
  ⟨(SetupMulticastConfigForDSBlock_value {} (dsMulticast 4) (0, 0, 0) rfl (by decide)
      (by decide) (by decide) (by decide) (by decide) (by decide)).trans rfl,
    (SetupMulticastConfigForDSBlock_value {} (dsMulticast 9) (0, 0, 0) rfl (by decide)
      (by decide) (by decide) (by decide) (by decide) (by decide)).trans rfl⟩

/-! ### Runs and their effects -/

@[simp] theorem ret_state (ds : DirectoryService) (evs : List Event) :
    (ret ds evs).state = ds := rfl

@[simp] theorem ret_events (ds : DirectoryService) (evs : List Event) :
    (ret ds evs).events = evs := rfl

@[simp] theorem ret_result (ds : DirectoryService) (evs : List Event) :
    (ret ds evs).result = .ok () := rfl

@[simp] theorem fail_state {α : Type} (ds : DirectoryService) (evs : List Event) (e : Fault) :
    (fail ds evs e : Run α).state = ds := rfl

@[simp] theorem fail_events {α : Type} (ds : DirectoryService) (evs : List Event) (e : Fault) :
    (fail ds evs e : Run α).events = evs := rfl

@[simp] theorem fail_result {α : Type} (ds : DirectoryService) (evs : List Event) (e : Fault) :
    (fail ds evs e : Run α).result = .error e := rfl

@[simp] theorem retVal_state {α : Type} (ds : DirectoryService) (evs : List Event) (v : α) :
    (retVal ds evs v).state = ds := rfl

@[simp] theorem retVal_events {α : Type} (ds : DirectoryService) (evs : List Event) (v : α) :
    (retVal ds evs v).events = evs := rfl

@[simp] theorem retVal_result {α : Type} (ds : DirectoryService) (evs : List Event) (v : α) :
    (retVal ds evs v).result = .ok v := rfl

/-- Sequencing after a run that returned. -/
theorem andThen_ok {α : Type} (r : Run Unit) (next : DirectoryService → Run α)
    (h : r.result = .ok ()) :
    r.andThen next = { state := (next r.state).state,
                       events := r.events ++ (next r.state).events,
                       result := (next r.state).result } := by
  unfold Run.andThen
  rw [h]

/-- Sequencing after a run that a fault ended. -/
theorem andThen_error {α : Type} (r : Run Unit) (next : DirectoryService → Run α) (e : Fault)
    (h : r.result = .error e) :
    r.andThen next = { state := r.state, events := r.events, result := .error e } := by
  unfold Run.andThen
  rw [h]

/-- A property of all effects of two steps holds for their sequence. -/
theorem andThen_all {α : Type} (P : Event → Prop) (r : Run Unit)
    (next : DirectoryService → Run α) (s : DirectoryService) (hs : r.state = s)
    (h1 : ∀ e ∈ r.events, P e) (h2 : ∀ e ∈ (next s).events, P e) :
    ∀ e ∈ (r.andThen next).events, P e := by
  subst hs
  intro e he
  unfold Run.andThen at he
  split at he
  · rcases List.mem_append.mp he with h | h
    · exact h1 e h
    · exact h2 e h
  · exact h1 e he

/-- A projection of the state kept by the next steps is, after the sequence,
what it is after the first steps. -/
theorem andThen_proj {α β : Type} (g : DirectoryService → β) (r : Run Unit)
    (next : DirectoryService → Run α) (h : ∀ d, g (next d).state = g d) :
    g (r.andThen next).state = g r.state := by
  unfold Run.andThen
  split
  · exact h r.state
  · rfl

/-- `StoreDSBlockToStorage` changes the DS chain and the number of the latest
active DS block only. -/
theorem StoreDSBlockToStorage_state (cst : Constants) (orc : Oracle) (ds : DirectoryService) :
    ∃ chain num, (StoreDSBlockToStorage cst orc ds).state
      = { ds with m_mediator := { ds.m_mediator with m_dsBlockChain := chain }
                  m_latestActiveDSBlockNum := num } := by
  unfold StoreDSBlockToStorage
  split
  · exact ⟨_, _, rfl⟩
  · split
    · exact ⟨_, _, rfl⟩
    · exact ⟨_, _, rfl⟩

/-- `SendDSBlockToLookupNodes` leaves the state as it is. -/
theorem SendDSBlockToLookupNodes_state (cst : Constants) (ext : Externals) (wp : Peer)
    (ds : DirectoryService) : (SendDSBlockToLookupNodes cst ext wp ds).state = ds := by
  unfold SendDSBlockToLookupNodes
  (repeat' split) <;> rfl

/-- `SendDSBlockToNewDSLeader` leaves the state as it is. -/
theorem SendDSBlockToNewDSLeader_state (cst : Constants) (ext : Externals) (wp : Peer)
    (ds : DirectoryService) : (SendDSBlockToNewDSLeader cst ext wp ds).state = ds := by
  unfold SendDSBlockToNewDSLeader
  (repeat' split) <;> rfl

/-- `SendDSBlockToShardNodes` leaves the state as it is. -/
theorem SendDSBlockToShardNodes_state (cst : Constants) (ext : Externals) (wp : Peer)
    (lo hi : Nat) (ds : DirectoryService) :
    (SendDSBlockToShardNodes cst ext wp lo hi ds).state = ds := by
  unfold SendDSBlockToShardNodes
  (repeat' split) <;> rfl

/-! ### The shard-send guard -/

/-- On a DS node the cluster number returned by
`SetupMulticastConfigForDSBlock` is the quotient of the consensus id by the
cluster size, as an `unsigned int`. -/
theorem SetupMulticastConfigForDSBlock_cluster (cst : Constants) (ds : DirectoryService)
    (outs res : Nat × Nat × Nat) (hL : cst.LOOKUP_NODE_MODE = false)
    (h : SetupMulticastConfigForDSBlock cst ds outs = .ok res) :
    res.1 = (ds.m_consensusMyID / cst.DS_MULTICAST_CLUSTER_SIZE) % 2 ^ 32 := by
  unfold SetupMulticastConfigForDSBlock at h
  simp only [hL, Bool.false_eq_true, if_false] at h
  split_ifs at h <;> (cases h; rfl)

/-- `StoreDSBlockToStorage` sends nothing to a shard. -/
theorem StoreDSBlockToStorage_noShardMsg (cst : Constants) (orc : Oracle)
    (ds : DirectoryService) :
    ∀ e ∈ (StoreDSBlockToStorage cst orc ds).events, isShardMsg e = false := by
  unfold StoreDSBlockToStorage
  (repeat' split) <;> simp [isShardMsg]

/-- `SendDSBlockToLookupNodes` sends nothing to a shard. -/
theorem SendDSBlockToLookupNodes_noShardMsg (cst : Constants) (ext : Externals) (wp : Peer)
    (ds : DirectoryService) :
    ∀ e ∈ (SendDSBlockToLookupNodes cst ext wp ds).events, isShardMsg e = false := by
  unfold SendDSBlockToLookupNodes
  (repeat' split) <;> simp [isShardMsg]

/-- `SendDSBlockToNewDSLeader` sends nothing to a shard. -/
theorem SendDSBlockToNewDSLeader_noShardMsg (cst : Constants) (ext : Externals) (wp : Peer)
    (ds : DirectoryService) :
    ∀ e ∈ (SendDSBlockToNewDSLeader cst ext wp ds).events, isShardMsg e = false := by
  unfold SendDSBlockToNewDSLeader
  (repeat' split) <;> simp [isShardMsg]

/-- `StartFirstTxEpoch` sends nothing to a shard. -/
theorem StartFirstTxEpoch_noShardMsg (cst : Constants) (orc : Oracle) (ds : DirectoryService) :
    ∀ e ∈ (StartFirstTxEpoch cst orc ds).events, isShardMsg e = false := by
  unfold StartFirstTxEpoch
  (repeat' split) <;> simp [isShardMsg] <;> (repeat' split) <;> simp [isShardMsg]

/-- After the lookup of the winner, no message goes to a shard when the
cluster number of the node is not below the number of shards in force (those
of the temporary table on a backup), provided the cluster number plus one
does not wrap. -/
theorem afterWinnerLookup_noShardMsg (cst : Constants) (ext : Externals) (w : Nat)
    (orc : Oracle) (wp : Peer) (ds4 : DirectoryService)
    (hL : cst.LOOKUP_NODE_MODE = false)
    (hfit : ds4.m_consensusMyID / cst.DS_MULTICAST_CLUSTER_SIZE + 1 < 2 ^ 32)
    (hS : (if ds4.m_mode = Mode.BACKUP_DS then ds4.m_tempShards else ds4.m_shards).length
      ≤ ds4.m_consensusMyID / cst.DS_MULTICAST_CLUSTER_SIZE) :
    ∀ e ∈ (afterWinnerLookup cst ext w orc wp ds4).events, isShardMsg e = false := by
  unfold afterWinnerLookup
  simp only []
  -- the state after the swap of the sharding fields
  obtain ⟨ds5, hds5, hid5, hsh5, hev5⟩ : ∃ ds5 : DirectoryService,
      (if ds4.m_mode = Mode.BACKUP_DS then
          ret { ds4 with
                m_DSReceivers := ds4.m_tempDSReceivers
                m_tempDSReceivers := []
                m_shardReceivers := ds4.m_tempShardReceivers
                m_tempShardReceivers := []
                m_shardSenders := ds4.m_tempShardSenders
                m_tempShardSenders := []
                m_shards := ds4.m_tempShards
                m_tempShards := []
                m_publicKeyToShardIdMap := ds4.m_tempPublicKeyToShardIdMap
                m_tempPublicKeyToShardIdMap := []
                m_mapNodeReputation := ds4.m_tempMapNodeReputation
                m_tempMapNodeReputation := [] } [Event.ProcessTxnBodySharingAssignment]
        else ret ds4 []).state = ds5
      ∧ ds5.m_consensusMyID = ds4.m_consensusMyID
      ∧ ds5.m_shards.length ≤ ds4.m_consensusMyID / cst.DS_MULTICAST_CLUSTER_SIZE
      ∧ ∀ e ∈ (if ds4.m_mode = Mode.BACKUP_DS then
          ret { ds4 with
                m_DSReceivers := ds4.m_tempDSReceivers
                m_tempDSReceivers := []
                m_shardReceivers := ds4.m_tempShardReceivers
                m_tempShardReceivers := []
                m_shardSenders := ds4.m_tempShardSenders
                m_tempShardSenders := []
                m_shards := ds4.m_tempShards
                m_tempShards := []
                m_publicKeyToShardIdMap := ds4.m_tempPublicKeyToShardIdMap
                m_tempPublicKeyToShardIdMap := []
                m_mapNodeReputation := ds4.m_tempMapNodeReputation
                m_tempMapNodeReputation := [] } [Event.ProcessTxnBodySharingAssignment]
        else ret ds4 []).events, isShardMsg e = false := by
    by_cases hmode : ds4.m_mode = Mode.BACKUP_DS
    · simp only [hmode, if_true] at hS ⊢
      exact ⟨_, rfl, rfl, hS, by simp [isShardMsg]⟩
    · simp only [hmode, if_false] at hS ⊢
      exact ⟨_, rfl, rfl, hS, by simp⟩
  refine andThen_all _ _ _ ds5 hds5 hev5 ?_
  refine andThen_all _ _ _ ds5 ?_ ?_ ?_
  · split
    · exact SendDSBlockToLookupNodes_state cst ext wp ds5
    · rfl
  · split
    · exact SendDSBlockToLookupNodes_noShardMsg cst ext wp ds5
    · simp
  refine andThen_all _ _ _ ds5 ?_ ?_ ?_
  · split
    · exact SendDSBlockToNewDSLeader_state cst ext wp ds5
    · rfl
  · split
    · exact SendDSBlockToNewDSLeader_noShardMsg cst ext wp ds5
    · simp
  split
  · simp
  · next mc lo hi hsetup =>
    have hmc := SetupMulticastConfigForDSBlock_cluster cst ds5 _ _ hL hsetup
    simp only [hid5] at hmc
    have hguard : ¬ ((mc + 1) % 2 ^ 32 ≤ ds5.m_shards.length) := by
      rw [hmc]; omega
    rw [if_neg hguard]
    refine andThen_all _ _ _ ds5 rfl (by simp) ?_
    split
    · simp
    · split
      · simp
      · exact StartFirstTxEpoch_noShardMsg cst orc _

/-- C12: on a DS node the guard `(my_cluster + 1) ≤ |shards|`, evaluated in
32-bit arithmetic, is true exactly when `my_cluster < |shards|`, and when
`my_cluster ≥ |shards|` (the shards in force, those of the temporary table on
a backup) `ProcessDSBlockConsensusWhenDone` broadcasts no message to a shard.
The consensus id is one whose cluster number is below the largest 32-bit
number, `my_cluster + 1 < 2^32`: every position in a committee of fewer than
`2^32` members is, whatever the cluster size. -/
theorem shard_guard_iff (cst : Constants) (ext : Externals) (w : Nat) (orc : Oracle)
    (ds : DirectoryService) (hL : cst.LOOKUP_NODE_MODE = false)
    (hfit : ds.m_consensusMyID / cst.DS_MULTICAST_CLUSTER_SIZE + 1 < 2 ^ 32) :
    (∀ res, SetupMulticastConfigForDSBlock cst ds (0, 0, 0) = .ok res →
        ((res.1 + 1) % 2 ^ 32 ≤ ds.m_shards.length ↔ res.1 < ds.m_shards.length)) ∧
      ((if ds.m_mode = Mode.BACKUP_DS then ds.m_tempShards else ds.m_shards).length
          ≤ ds.m_consensusMyID / cst.DS_MULTICAST_CLUSTER_SIZE →
        ∀ e ∈ (ProcessDSBlockConsensusWhenDone cst ext w orc ds).events,
          isShardMsg e = false) := by
  constructor
  · intro res hres
    have hmc := SetupMulticastConfigForDSBlock_cluster cst ds _ _ hL hres
    generalize ds.m_consensusMyID / cst.DS_MULTICAST_CLUSTER_SIZE = q at hmc hfit
    omega
  · intro hS
    unfold ProcessDSBlockConsensusWhenDone
    simp only [hL, Bool.false_eq_true, if_false]
    split
    · simp
    · refine andThen_all _ _ _ _ rfl (by simp [isShardMsg]) ?_
      obtain ⟨chain, num, hst⟩ := StoreDSBlockToStorage_state cst orc
        { ds with m_coinbaseRewardees := [] }
      refine andThen_all _ _ _ _ hst (StoreDSBlockToStorage_noShardMsg cst orc _) ?_
      refine andThen_all _ _ _ _ rfl (by simp [isShardMsg]) ?_
      split
      · simp
      · exact afterWinnerLookup_noShardMsg cst ext w orc _ _ hL hfit hS

/-- C12, at the backup with id 9 of a committee of ten and two shards only,
whose winner is among the PoW connections: the cluster number is 3, the
guard `4 ≤ 2` fails as `3 < 2` does, the run goes past the guard to its end,
and nothing is sent to a shard. -/
theorem shard_guard_iff_witness :
    SetupMulticastConfigForDSBlock {} dsFewShards (0, 0, 0) = .ok (3, 3, 1) ∧
      ((3 + 1) % 2 ^ 32 ≤ dsFewShards.m_shards.length ↔ 3 < dsFewShards.m_shards.length) ∧
      (ProcessDSBlockConsensusWhenDone {} extHead 16 {} dsFewShards).result = .ok () ∧
      (ProcessDSBlockConsensusWhenDone {} extHead 16 {} dsFewShards).events.filter isShardMsg
        = [] :=
  ⟨rfl, (shard_guard_iff {} extHead 16 {} dsFewShards rfl (by decide)).1 (3, 3, 1) rfl, rfl,
    List.filter_eq_nil_iff.mpr (fun e he => by
      rw [(shard_guard_iff {} extHead 16 {} dsFewShards rfl (by decide)).2 (by decide) e he]
      decide)⟩

/-! ### The final-block consensus buffer -/

/-- After `push_back` under an id, the vector under that id has the new entry
at its end. -/
theorem bufferGet_bufferPush_same (buffer : List (Nat × List (Peer × Message))) (id : Nat)
    (entry : Peer × Message) :
    bufferGet (bufferPush buffer id entry) id = bufferGet buffer id ++ [entry] := by
  induction buffer with
  | nil => simp [bufferPush, bufferGet]
  | cons kv rest ih =>
    obtain ⟨k, v⟩ := kv
    by_cases h : k = id
    · simp [bufferPush, bufferGet, h]
    · simp [bufferPush, bufferGet, h, ih]

/-- After `push_back` under an id, the vectors under the other ids are as
before. -/
theorem bufferGet_bufferPush_other (buffer : List (Nat × List (Peer × Message)))
    (id other : Nat) (entry : Peer × Message) (hne : other ≠ id) :
    bufferGet (bufferPush buffer id entry) other = bufferGet buffer other := by
  induction buffer with
  | nil =>
    have : ¬ id = other := fun h => hne h.symm
    simp [bufferPush, bufferGet, this]
  | cons kv rest ih =>
    obtain ⟨k, v⟩ := kv
    by_cases h : k = id
    · subst h
      have : ¬ k = other := fun h => hne h.symm
      simp [bufferPush, bufferGet, this]
    · by_cases h2 : k = other
      · subst h2
        simp [bufferPush, bufferGet, h]
      · simp [bufferPush, bufferGet, h, h2, ih]

/-- C14, as stated, fails on the code: on the backup `dsMicro`, in state
MICROBLOCK_SUBMISSION (which does not permit processing) with current
consensus id 5, a message with the smaller id 3 is not dropped: the call
returns true and the message is in the buffer under id 3. -/
theorem final_consensus_id_counterexample :
    (3 : Nat) < dsMicro.m_mediator.m_consensusID ∧
      (ProcessFinalBlockConsensus {} {} {} [3, 0] 0 peerW dsMicro).result = .ok true ∧
      bufferGet
        (ProcessFinalBlockConsensus {} {} {} [3, 0] 0 peerW dsMicro).state.m_finalBlockConsensusBuffer
        3 = [(peerW, [3, 0])] :=
  ⟨by decide, rfl, rfl⟩

/-- C14, amended: on a DS node (not a lookup node) whose state permits the
processing of final-block consensus messages, for every message whose
consensus id can be read: if the id is smaller than the current one the call
returns false and nothing changes; if it is larger the call returns true
without effects, and the message is appended to the buffer under its id,
the rest of the state being unchanged; if it is equal the call is the call of
`ProcessFinalBlockConsensusCore` on the message. -/
theorem ProcessFinalBlockConsensus_by_id (cst : Constants) (ext : Externals) (orc : Oracle)
    (message : Message) (offset : Nat) (sender : Peer) (ds : DirectoryService)
    (consensus_id : Nat) (hL : cst.LOOKUP_NODE_MODE = false)
    (hid : ext.GetConsensusID message offset = some consensus_id)
    (hstate : ext.CheckState ds.m_mode ds.m_state Action.PROCESS_FINALBLOCKCONSENSUS = true) :
    (consensus_id < ds.m_mediator.m_consensusID →
        ProcessFinalBlockConsensus cst ext orc message offset sender ds = retVal ds [] false) ∧
      (consensus_id > ds.m_mediator.m_consensusID →
        ProcessFinalBlockConsensus cst ext orc message offset sender ds
            = retVal
                { ds with
                  m_finalBlockConsensusBuffer :=
                    bufferPush ds.m_finalBlockConsensusBuffer consensus_id (sender, message) }
                [] true ∧
          bufferGet (bufferPush ds.m_finalBlockConsensusBuffer consensus_id (sender, message))
              consensus_id
            = bufferGet ds.m_finalBlockConsensusBuffer consensus_id ++ [(sender, message)]) ∧
      (consensus_id = ds.m_mediator.m_consensusID →
        ProcessFinalBlockConsensus cst ext orc message offset sender ds
          = ProcessFinalBlockConsensusCore cst ext orc message offset sender ds) := by
  refine ⟨fun hlt => ?_, fun hgt => ⟨?_, bufferGet_bufferPush_same _ _ _⟩, fun heq => ?_⟩
  · unfold ProcessFinalBlockConsensus
    simp only [hL, hid, hstate, hlt, Bool.false_eq_true, if_false, if_true, Bool.not_true]
  · have hnlt : ¬ consensus_id < ds.m_mediator.m_consensusID := by omega
    unfold ProcessFinalBlockConsensus
    simp only [hL, hid, hstate, hnlt, hgt, Bool.false_eq_true, if_false, if_true, Bool.not_true]
  · have hnlt : ¬ consensus_id < ds.m_mediator.m_consensusID := by omega
    have hngt : ¬ consensus_id > ds.m_mediator.m_consensusID := by omega
    unfold ProcessFinalBlockConsensus
    simp only [hL, hid, hstate, hnlt, hngt, Bool.false_eq_true, if_false, Bool.not_true]

/-- C14, amended, at the backup in state FINALBLOCK_CONSENSUS with current
id 5: a message with id 3 is dropped, one with id 7 is buffered under 7. -/
theorem ProcessFinalBlockConsensus_by_id_witness :
    ProcessFinalBlockConsensus {} {} {} [3, 0] 0 peerW dsFinalConsensus
        = retVal dsFinalConsensus [] false ∧
      bufferGet (ProcessFinalBlockConsensus {} {} {} [7, 0] 0 peerW
        dsFinalConsensus).state.m_finalBlockConsensusBuffer 7 = [(peerW, [7, 0])] := by
  constructor
  · exact (ProcessFinalBlockConsensus_by_id {} {} {} [3, 0] 0 peerW dsFinalConsensus 3 rfl rfl
      rfl).1 (by decide)
  · rw [((ProcessFinalBlockConsensus_by_id {} {} {} [7, 0] 0 peerW dsFinalConsensus 7 rfl rfl
      rfl).2.1 (by decide)).1]
    rfl

/-- C19, as stated, fails on the code: the backup `dsPow` is not idle and is
in state POW_SUBMISSION, which does not permit the processing of a final-block
consensus message; the message is dropped (the call returns false, nothing
is buffered), not appended to the buffer. -/
theorem not_permitted_counterexample :
    dsPow.m_mode ≠ Mode.IDLE ∧
      ({} : Externals).CheckState dsPow.m_mode dsPow.m_state Action.PROCESS_FINALBLOCKCONSENSUS
        = false ∧
      ProcessFinalBlockConsensus {} {} {} [5, 0] 0 peerW dsPow = retVal dsPow [] false :=
  ⟨by decide, rfl, rfl⟩

/-- C19, amended: on a DS node (not a lookup node) whose state does not permit
processing, `ProcessFinalBlockConsensus` appends the message to the buffer
under its consensus id and returns true when the node is not idle and its
state is MICROBLOCK_SUBMISSION, FINALBLOCK_CONSENSUS_PREP or
VIEWCHANGE_CONSENSUS; it drops the message (returns false, nothing changes)
on an idle node and in every other state. `ProcessDSBlockConsensus` drops the
message: it returns false, buffers nothing and leaves the state as it is but
for the state in which the wait for the consensus object ended. -/
theorem not_permitted (cst : Constants) (ext : Externals) (w : Nat) (orc : Oracle)
    (message : Message) (offset : Nat) (sender : Peer) (ds : DirectoryService)
    (hL : cst.LOOKUP_NODE_MODE = false) :
    (∀ consensus_id, ext.GetConsensusID message offset = some consensus_id →
      ext.CheckState ds.m_mode ds.m_state Action.PROCESS_FINALBLOCKCONSENSUS = false →
        (ds.m_mode = Mode.IDLE →
          ProcessFinalBlockConsensus cst ext orc message offset sender ds = retVal ds [] false) ∧
        (ds.m_mode ≠ Mode.IDLE →
          (ds.m_state = DirState.MICROBLOCK_SUBMISSION
            ∨ ds.m_state = DirState.FINALBLOCK_CONSENSUS_PREP
            ∨ ds.m_state = DirState.VIEWCHANGE_CONSENSUS) →
          (ProcessFinalBlockConsensus cst ext orc message offset sender ds).result = .ok true ∧
          (ProcessFinalBlockConsensus cst ext orc message offset sender
              ds).state.m_finalBlockConsensusBuffer
            = bufferPush ds.m_finalBlockConsensusBuffer consensus_id (sender, message)) ∧
        (ds.m_mode ≠ Mode.IDLE →
          ¬ (ds.m_state = DirState.MICROBLOCK_SUBMISSION
            ∨ ds.m_state = DirState.FINALBLOCK_CONSENSUS_PREP
            ∨ ds.m_state = DirState.VIEWCHANGE_CONSENSUS) →
          ProcessFinalBlockConsensus cst ext orc message offset sender ds
            = retVal ds [] false)) ∧
      (∀ st, st = (if ds.m_state = DirState.POW_SUBMISSION
              ∨ ds.m_state = DirState.DSBLOCK_CONSENSUS_PREP
              ∨ ds.m_state = DirState.VIEWCHANGE_CONSENSUS then
            orc.stateAfterWait.getD ds.m_state else ds.m_state) →
        ext.CheckState ds.m_mode st Action.PROCESS_DSBLOCKCONSENSUS = false →
          (ProcessDSBlockConsensus cst ext w orc message offset sender ds).result = .ok false ∧
          (ProcessDSBlockConsensus cst ext w orc message offset sender ds).state
            = { ds with m_state := st }) := by
  constructor
  · intro consensus_id hid hstate
    refine ⟨fun hidle => ?_, fun hnidle hst => ?_, fun hnidle hst => ?_⟩
    · unfold ProcessFinalBlockConsensus
      rw [hidle] at hstate
      simp only [hL, hid, hstate, Bool.false_eq_true, if_false, if_true, Bool.not_false, hidle]
    · unfold ProcessFinalBlockConsensus
      simp only [hL, hid, hstate, hnidle, hst, Bool.false_eq_true, if_false, if_true,
        Bool.not_false, not_true_eq_false]
      split <;> exact ⟨rfl, rfl⟩
    · unfold ProcessFinalBlockConsensus
      simp only [hL, hid, hstate, hnidle, hst, Bool.false_eq_true, if_false, if_true,
        Bool.not_false, not_false_eq_true]
  · intro st hst hstate
    unfold ProcessDSBlockConsensus
    simp only [hL, Bool.false_eq_true, if_false]
    by_cases hwait : ds.m_state = DirState.POW_SUBMISSION
        ∨ ds.m_state = DirState.DSBLOCK_CONSENSUS_PREP
        ∨ ds.m_state = DirState.VIEWCHANGE_CONSENSUS
    · simp only [hwait, if_true, decide_True] at hst ⊢
      rw [← hst, hstate]
      exact ⟨rfl, rfl⟩
    · simp only [hwait, if_false, decide_False, Bool.false_eq_true] at hst ⊢
      rw [← hst, hstate]
      subst hst
      exact ⟨rfl, rfl⟩

/-- C19, amended, at the backup in state MICROBLOCK_SUBMISSION: a message with
id 7 is buffered under 7; in state POW_SUBMISSION a DS-block consensus
message is dropped when the wait ends in that state. -/
theorem not_permitted_witness :
    (ProcessFinalBlockConsensus {} {} {} [7, 0] 0 peerW dsMicro).state.m_finalBlockConsensusBuffer
        = bufferPush dsMicro.m_finalBlockConsensusBuffer 7 (peerW, [7, 0]) ∧
      (ProcessDSBlockConsensus {} {} 16 {} [7, 0] 0 peerW dsPow).result = .ok false :=
  ⟨(((not_permitted {} {} 16 {} [7, 0] 0 peerW dsMicro rfl).1 7 rfl rfl).2.1 (by decide)
      (Or.inl rfl)).2,
    ((not_permitted {} {} 16 {} [7, 0] 0 peerW dsPow rfl).2 DirState.POW_SUBMISSION rfl rfl).1⟩

/-- C18: what the two dispatchers do when the processing of a message leaves
the consensus object in state ERROR with an error code that is neither of
the two missing-data codes. `ProcessFinalBlockConsensusCore` returns false,
without effects and without change of state. `ProcessDSBlockConsensus`, in a
state that permits processing, has no effects and changes no state either,
but it returns true. -/
theorem dispatchers_on_error (cst : Constants) (ext : Externals) (w : Nat) (orc : Oracle)
    (message : Message) (offset : Nat) (sender : Peer) (ds : DirectoryService)
    (hL : cst.LOOKUP_NODE_MODE = false)
    (horder : orc.orderPreserved = true) (hpm : orc.ProcessMessage = true)
    (herr : orc.consensusState = ConsensusState.ERROR)
    (hcode : orc.consensusErrorCode = ConsensusErrorCode.OTHER) :
    (ext.CheckState ds.m_mode ds.m_state Action.PROCESS_FINALBLOCKCONSENSUS = true →
        ProcessFinalBlockConsensusCore cst ext orc message offset sender ds
          = retVal ds [] false) ∧
      (ext.CheckState ds.m_mode ds.m_state Action.PROCESS_DSBLOCKCONSENSUS = true →
        ¬ (ds.m_state = DirState.POW_SUBMISSION ∨ ds.m_state = DirState.DSBLOCK_CONSENSUS_PREP
          ∨ ds.m_state = DirState.VIEWCHANGE_CONSENSUS) →
        ProcessDSBlockConsensus cst ext w orc message offset sender ds
          = retVal ds [] true) := by
  constructor
  · intro hstate
    unfold ProcessFinalBlockConsensusCore
    simp only [hstate, horder, hpm, herr, hcode, Bool.not_true, Bool.false_eq_true, if_false]
  · intro hstate hwait
    unfold ProcessDSBlockConsensus
    simp only [hL, hwait, hstate, horder, hpm, herr, Bool.not_true, Bool.false_eq_true,
      if_false, decide_False]

/-- C18, at the backup of `committee4`: in state FINALBLOCK_CONSENSUS the
final-block dispatcher returns false on the error, in state DSBLOCK_CONSENSUS
the DS-block dispatcher returns true on it. -/
theorem dispatchers_on_error_witness :
    ProcessFinalBlockConsensusCore {} {} orcError [5, 0] 0 peerW dsFinalConsensus
        = retVal dsFinalConsensus [] false ∧
      ProcessDSBlockConsensus {} {} 16 orcError [5, 0] 0 peerW dsDSConsensus
        = retVal dsDSConsensus [] true :=
  ⟨(dispatchers_on_error {} {} 16 orcError [5, 0] 0 peerW dsFinalConsensus rfl rfl rfl rfl
      rfl).1 rfl,
    (dispatchers_on_error {} {} 16 orcError [5, 0] 0 peerW dsDSConsensus rfl rfl rfl rfl
      rfl).2 rfl (by decide)⟩

/-! ### Validation of a VC block -/

/-- C16: `ProcessVCBlockCore` returns false, with no effect on the block store
and no change of state (committee and block-link chain included), when a
validation check fails: the VC epoch number differs from the current epoch
number, the block is not the latest, the recomputed block hash differs, the
timestamp check fails, the committee hash cannot be computed or differs from
that of the header, or the co-signature check fails. `ProcessVCBlock` does the
same on a message that holds such a block or a block whose view-change state
is one of the DS-block phase. -/
theorem ProcessVCBlockCore_rejects (cst : Constants) (ext : Externals) (orc : Oracle)
    (vcblock : VCBlock) (ds : DirectoryService) :
    (vcblock.m_header.m_VieWChangeEpochNo ≠ ds.m_mediator.m_currentEpochNum
        ∨ ext.CheckWhetherBlockIsLatest ds.m_mediator.m_dsBlockChain
            ds.m_mediator.m_txBlockChain vcblock.m_header.m_VieWChangeDSEpochNo
            vcblock.m_header.m_VieWChangeEpochNo = false
        ∨ ext.GetMyHash vcblock.m_header ≠ vcblock.m_blockHash
        ∨ ext.VerifyTimestamp vcblock.m_timestamp
            ((cst.CONSENSUS_OBJECT_TIMEOUT + cst.VIEWCHANGE_TIME + cst.VIEWCHANGE_PRECHECK_TIME
              + cst.VIEWCHANGE_EXTRA_TIME) % 2 ^ 32) = false
        ∨ ext.GetDSCommitteeHash ds.m_mediator.m_DSCommittee = none
        ∨ (∃ committeeHash,
            ext.GetDSCommitteeHash ds.m_mediator.m_DSCommittee = some committeeHash
              ∧ committeeHash ≠ vcblock.m_header.m_committeeHash)
        ∨ VerifyVCBlockCoSignature ext ds.m_mediator.m_DSCommittee vcblock = .ok false →
      ProcessVCBlockCore cst ext orc vcblock ds = retVal ds [] false) ∧
    (∀ (message : Message) (cur_offset : Nat) (sender : Peer),
      ext.GetNodeVCBlock message cur_offset = some vcblock →
      (ext.IsDSBlockVCState vcblock.m_header.m_ViewChangeState = true
        ∨ ProcessVCBlockCore cst ext orc vcblock ds = retVal ds [] false) →
      ProcessVCBlock cst ext orc message cur_offset sender ds = retVal ds [] false) := by
  constructor
  · intro h
    unfold ProcessVCBlockCore
    by_cases h1 : vcblock.m_header.m_VieWChangeEpochNo ≠ ds.m_mediator.m_currentEpochNum
    · rw [if_pos h1]
    rw [if_neg h1]
    by_cases h2 : ext.CheckWhetherBlockIsLatest ds.m_mediator.m_dsBlockChain
        ds.m_mediator.m_txBlockChain vcblock.m_header.m_VieWChangeDSEpochNo
        vcblock.m_header.m_VieWChangeEpochNo = false
    · simp only [h2, Bool.not_false, if_true]
    rw [Bool.not_eq_false] at h2
    simp only [h2, Bool.not_true, Bool.false_eq_true, if_false]
    by_cases h3 : ext.GetMyHash vcblock.m_header ≠ vcblock.m_blockHash
    · rw [if_pos h3]
    rw [if_neg h3]
    by_cases h4 : ext.VerifyTimestamp vcblock.m_timestamp
        ((cst.CONSENSUS_OBJECT_TIMEOUT + cst.VIEWCHANGE_TIME + cst.VIEWCHANGE_PRECHECK_TIME
          + cst.VIEWCHANGE_EXTRA_TIME) % 2 ^ 32) = false
    · simp only [h4, Bool.not_false, if_true]
    rw [Bool.not_eq_false] at h4
    simp only [h4, Bool.not_true, Bool.false_eq_true, if_false]
    cases h5 : ext.GetDSCommitteeHash ds.m_mediator.m_DSCommittee with
    | none => rfl
    | some committeeHash =>
      simp only []
      by_cases h6 : committeeHash ≠ vcblock.m_header.m_committeeHash
      · rw [if_pos h6]
      rw [if_neg h6]
      have h7 : VerifyVCBlockCoSignature ext ds.m_mediator.m_DSCommittee vcblock = .ok false := by
        rcases h with h | h | h | h | h | h | h
        · exact absurd h h1
        · rw [h2] at h; cases h
        · exact absurd h h3
        · rw [h4] at h; cases h
        · rw [h5] at h; cases h
        · obtain ⟨c', hc, hne⟩ := h
          rw [h5] at hc
          cases hc
          exact absurd hne h6
        · exact h
      rw [h7]
  · intro message cur_offset sender hdec h
    unfold ProcessVCBlock
    rw [hdec]
    simp only []
    by_cases hvc : ext.IsDSBlockVCState vcblock.m_header.m_ViewChangeState = true
    · rw [if_pos hvc]
    · rw [if_neg hvc]
      rcases h with h | h
      · exact absurd h hvc
      · rw [h]
        rfl

/-- C16, on the node of `committee4` in epoch 0: the VC block for epoch 1 is
rejected by `ProcessVCBlockCore`, and a message holding a block of the
DS-block phase is rejected by `ProcessVCBlock`. -/
theorem ProcessVCBlockCore_rejects_witness :
    ProcessVCBlockCore {} extDecode {} vcBlockEpoch1 dsVC = retVal dsVC [] false ∧
      ProcessVCBlock {} extDecode {} [2] 0 peerW dsVC = retVal dsVC [] false :=
  ⟨(ProcessVCBlockCore_rejects {} extDecode {} vcBlockEpoch1 dsVC).1 (Or.inl (by decide)),
    (ProcessVCBlockCore_rejects {} extDecode {} vcBlockDSPhase dsVC).2 [2] 0 peerW rfl
      (Or.inl rfl)⟩

/-! ### Failed writes to the block store -/

/-- A run is the same as itself. -/
theorem sameButResults_refl {α : Type} (r : Run α) : r.sameButResults r :=
  ⟨rfl, rfl, rfl⟩

/-- Sequences of runs that are the same but for the results of the writes are
the same but for the results of the writes. -/
theorem andThen_sameButResults {α : Type} (r1 r2 : Run Unit)
    (n1 n2 : DirectoryService → Run α) (h1 : r1.sameButResults r2)
    (hn : ∀ d, (n1 d).sameButResults (n2 d)) :
    (r1.andThen n1).sameButResults (r2.andThen n2) := by
  obtain ⟨hs, hr, he⟩ := h1
  cases hres : r2.result with
  | error e =>
    rw [andThen_error r1 n1 e (hr.trans hres), andThen_error r2 n2 e hres]
    exact ⟨hs, rfl, he⟩
  | ok u =>
    rw [andThen_ok r1 n1 (hr.trans hres), andThen_ok r2 n2 hres]
    obtain ⟨hs2, hr2, he2⟩ := hn r2.state
    refine ⟨?_, ?_, ?_⟩
    · show (n1 r1.state).state = (n2 r2.state).state
      rw [hs]; exact hs2
    · show (n1 r1.state).result = (n2 r2.state).result
      rw [hs]; exact hr2
    · show (r1.events ++ (n1 r1.state).events).map Event.withoutResult
        = (r2.events ++ (n2 r2.state).events).map Event.withoutResult
      rw [List.map_append, List.map_append, he, hs, he2]

/-- `StartFirstTxEpoch` reads of the oracle what the member functions of `Node`
do only. -/
theorem StartFirstTxEpoch_oracle (cst : Constants) (orc1 orc2 : Oracle)
    (h : orc1.LoadShardingStructure = orc2.LoadShardingStructure) (ds : DirectoryService) :
    StartFirstTxEpoch cst orc1 ds = StartFirstTxEpoch cst orc2 ds := by
  unfold StartFirstTxEpoch
  rw [h]

/-- The steps after the lookup of the winner read of the oracle the loaded
shard members only. -/
theorem afterWinnerLookup_oracle (cst : Constants) (ext : Externals) (w : Nat)
    (orc1 orc2 : Oracle) (h : orc1.LoadShardingStructure = orc2.LoadShardingStructure)
    (wp : Peer) (ds : DirectoryService) :
    afterWinnerLookup cst ext w orc1 wp ds = afterWinnerLookup cst ext w orc2 wp ds := by
  unfold afterWinnerLookup
  simp only [StartFirstTxEpoch_oracle cst orc1 orc2 h]

/-- The results of the writes of `StoreDSBlockToStorage` change its effects
only, and only in the results reported. -/
theorem StoreDSBlockToStorage_sameButResults (cst : Constants) (orc1 orc2 : Oracle)
    (ds : DirectoryService) :
    (StoreDSBlockToStorage cst orc1 ds).sameButResults (StoreDSBlockToStorage cst orc2 ds) := by
  unfold StoreDSBlockToStorage
  (repeat' split) <;> exact ⟨rfl, rfl, rfl⟩

/-- The results of the writes of `StoreFinalBlockToDisk` change its effects
only, and only in the results reported. -/
theorem StoreFinalBlockToDisk_sameButResults (cst : Constants) (orc1 orc2 : Oracle)
    (ds : DirectoryService) :
    (StoreFinalBlockToDisk cst orc1 ds).sameButResults (StoreFinalBlockToDisk cst orc2 ds) := by
  unfold StoreFinalBlockToDisk
  (repeat' split) <;> exact ⟨rfl, rfl, rfl⟩

/-- C17, as stated, fails on the code for a VC block: on the node of
`committee4`, the VC block `vcBlockB` passes the validation; when the write
succeeds it is processed (true is returned, the committee is reordered), when
the write fails `ProcessVCBlockCore` returns false and the committee is not
reordered. -/
theorem store_fault_counterexample :
    (ProcessVCBlockCore {} {} {} vcBlockB dsVC).result = .ok true ∧
      (ProcessVCBlockCore {} {} {} vcBlockB dsVC).state.m_mediator.m_DSCommittee
        = [(1, ⟨101, 1⟩), (3, ⟨103, 3⟩), (4, ⟨104, 4⟩), (2, ⟨102, 2⟩)] ∧
      (ProcessVCBlockCore {} {} { PutVCBlock := false } vcBlockB dsVC).result = .ok false ∧
      (ProcessVCBlockCore {} {} { PutVCBlock := false } vcBlockB dsVC).state.m_mediator.m_DSCommittee
        = committee4 :=
  ⟨rfl, rfl, rfl, rfl⟩

/-- C17, amended: a failed write to the block store does not stop the
post-processing of a DS block or of a final block: whatever the writes
return, `ProcessDSBlockConsensusWhenDone` and
`ProcessFinalBlockConsensusWhenDone` leave the same state, end with the same
result and have the same effects but for the results of the writes. A failed
write of a VC block stops `ProcessVCBlockCore`: for a block that is processed
when the write succeeds, it returns false when the write fails, after the
block link is appended and the write attempted, and it leaves the committee
as it was. -/
theorem store_fault (cst : Constants) (ext : Externals) (w : Nat) (orc1 orc2 : Oracle)
    (ds : DirectoryService)
    (hload : orc1.LoadShardingStructure = orc2.LoadShardingStructure) :
    (ProcessDSBlockConsensusWhenDone cst ext w orc1 ds).sameButResults
        (ProcessDSBlockConsensusWhenDone cst ext w orc2 ds) ∧
      (ProcessFinalBlockConsensusWhenDone cst ext orc1 ds).sameButResults
        (ProcessFinalBlockConsensusWhenDone cst ext orc2 ds) ∧
      (∀ vcblock : VCBlock, orc1.PutVCBlock = true → orc2.PutVCBlock = false →
        (ProcessVCBlockCore cst ext orc1 vcblock ds).result = .ok true →
          (ProcessVCBlockCore cst ext orc2 vcblock ds).result = .ok false ∧
          (ProcessVCBlockCore cst ext orc2 vcblock ds).events
            = [Event.PutVCBlock vcblock.m_blockHash false] ∧
          (ProcessVCBlockCore cst ext orc2 vcblock ds).state.m_mediator.m_DSCommittee
            = ds.m_mediator.m_DSCommittee ∧
          (ProcessVCBlockCore cst ext orc2 vcblock ds).state.m_mediator.m_blocklinkchain
            = AddBlockLink ds.m_mediator.m_blocklinkchain
                ⟨(GetLatestIndex ds.m_mediator.m_blocklinkchain + 1) % 2 ^ 64,
                  vcblock.m_header.m_VieWChangeDSEpochNo, true, vcblock.m_blockHash⟩) := by
  refine ⟨?_, ?_, ?_⟩
  · unfold ProcessDSBlockConsensusWhenDone
    split
    · exact sameButResults_refl _
    split
    · exact sameButResults_refl _
    refine andThen_sameButResults _ _ _ _ (sameButResults_refl _) (fun d1 => ?_)
    refine andThen_sameButResults _ _ _ _
      (StoreDSBlockToStorage_sameButResults cst orc1 orc2 d1) (fun d2 => ?_)
    refine andThen_sameButResults _ _ _ _ (sameButResults_refl _) (fun d3 => ?_)
    simp only [afterWinnerLookup_oracle cst ext w orc1 orc2 hload]
    exact sameButResults_refl _
  · unfold ProcessFinalBlockConsensusWhenDone
    split
    · exact sameButResults_refl _
    simp only []
    refine andThen_sameButResults _ _ _ _ (sameButResults_refl _) (fun d1 => ?_)
    refine andThen_sameButResults _ _ _ _
      (StoreFinalBlockToDisk_sameButResults cst orc1 orc2 d1) (fun d2 => ?_)
    refine andThen_sameButResults _ _ _ _ ?_ (fun d3 => sameButResults_refl _)
    split <;> exact ⟨rfl, rfl, rfl⟩
  · intro vcblock hput1 hput2 h
    unfold ProcessVCBlockCore at h ⊢
    by_cases h1 : vcblock.m_header.m_VieWChangeEpochNo ≠ ds.m_mediator.m_currentEpochNum
    · rw [if_pos h1] at h; simp at h
    rw [if_neg h1] at h ⊢
    by_cases h2 : ext.CheckWhetherBlockIsLatest ds.m_mediator.m_dsBlockChain
        ds.m_mediator.m_txBlockChain vcblock.m_header.m_VieWChangeDSEpochNo
        vcblock.m_header.m_VieWChangeEpochNo = false
    · simp only [h2, Bool.not_false, if_true] at h; simp at h
    rw [Bool.not_eq_false] at h2
    simp only [h2, Bool.not_true, Bool.false_eq_true, if_false] at h ⊢
    by_cases h3 : ext.GetMyHash vcblock.m_header ≠ vcblock.m_blockHash
    · rw [if_pos h3] at h; simp at h
    rw [if_neg h3] at h ⊢
    by_cases h4 : ext.VerifyTimestamp vcblock.m_timestamp
        ((cst.CONSENSUS_OBJECT_TIMEOUT + cst.VIEWCHANGE_TIME + cst.VIEWCHANGE_PRECHECK_TIME
          + cst.VIEWCHANGE_EXTRA_TIME) % 2 ^ 32) = false
    · simp only [h4, Bool.not_false, if_true] at h; simp at h
    rw [Bool.not_eq_false] at h4
    simp only [h4, Bool.not_true, Bool.false_eq_true, if_false] at h ⊢
    cases h5 : ext.GetDSCommitteeHash ds.m_mediator.m_DSCommittee with
    | none => rw [h5] at h; simp at h
    | some committeeHash =>
      rw [h5] at h
      simp only [] at h ⊢
      by_cases h6 : committeeHash ≠ vcblock.m_header.m_committeeHash
      · rw [if_pos h6] at h; simp at h
      rw [if_neg h6] at h ⊢
      cases h7 : VerifyVCBlockCoSignature ext ds.m_mediator.m_DSCommittee vcblock with
      | error e => rw [h7] at h; simp at h
      | ok b =>
        cases b with
        | false => rw [h7] at h; simp at h
        | true =>
          simp only [hput2, Bool.not_false, if_true]
          exact ⟨rfl, rfl, rfl, rfl⟩

/-- C17, amended, on the node of `committee4` with the VC block `vcBlockB`,
which is processed when the write succeeds: when the write fails the
committee is left as it was. -/
theorem store_fault_witness :
    (ProcessVCBlockCore {} {} { PutVCBlock := false } vcBlockB dsVC).state.m_mediator.m_DSCommittee
      = dsVC.m_mediator.m_DSCommittee :=
  ((store_fault {} {} 16 {} { PutVCBlock := false } dsVC rfl).2.2 vcBlockB rfl rfl rfl).2.2.1

/-! ### The epoch number -/

/-- A run of `UpdateMyDSModeAndConsensusId` that returns leaves the mediator,
the PoW connections and the pending DS block as they are. -/
theorem UpdateMyDSModeAndConsensusId_frame (cst : Constants) (ext : Externals) (w : Nat)
    (ds ds1 : DirectoryService) (h : UpdateMyDSModeAndConsensusId cst ext w ds = .ok ds1) :
    ds1.m_mediator = ds.m_mediator ∧ ds1.m_allPoWConns = ds.m_allPoWConns
      ∧ ds1.m_pendingDSBlock = ds.m_pendingDSBlock := by
  unfold UpdateMyDSModeAndConsensusId at h
  simp only [pure, Except.pure, throw, throwThe, MonadExceptOf.throw] at h
  split_ifs at h
  all_goals first
    | (cases h; exact ⟨rfl, rfl, rfl⟩)
    | cases h
    | (split at h <;> first
        | cases h
        | (split_ifs at h <;> (cases h; exact ⟨rfl, rfl, rfl⟩)))

/-- `UpdateDSCommiteeComposition` keeps the epoch number, the DS chain and the
pending DS block. -/
theorem UpdateDSCommiteeComposition_kept (cst : Constants) (wp : Peer) (ds : DirectoryService) :
    kept (UpdateDSCommiteeComposition cst wp ds) = kept ds := by
  unfold UpdateDSCommiteeComposition
  split <;> rfl

/-- `StartFirstTxEpoch` keeps the epoch number, the DS chain, the pending DS
block and the PoW connections. -/
theorem StartFirstTxEpoch_kept (cst : Constants) (orc : Oracle) (ds : DirectoryService) :
    kept (StartFirstTxEpoch cst orc ds).state = kept ds
      ∧ (StartFirstTxEpoch cst orc ds).state.m_allPoWConns = ds.m_allPoWConns := by
  unfold StartFirstTxEpoch
  split
  · exact ⟨rfl, rfl⟩
  · simp only []
    (repeat' split) <;> exact ⟨rfl, rfl⟩

/-- The steps after the lookup of the winner keep the epoch number, the DS
chain and the pending DS block. -/
theorem afterWinnerLookup_kept (cst : Constants) (ext : Externals) (w : Nat) (orc : Oracle)
    (wp : Peer) (ds4 : DirectoryService) :
    kept (afterWinnerLookup cst ext w orc wp ds4).state = kept ds4 := by
  unfold afterWinnerLookup
  simp only []
  refine (andThen_proj kept _ _ (fun d5 => ?_)).trans (by split <;> rfl)
  refine (andThen_proj kept _ _ (fun d6 => ?_)).trans
    (by split <;> first | rfl | rw [SendDSBlockToLookupNodes_state])
  refine (andThen_proj kept _ _ (fun d7 => ?_)).trans
    (by split <;> first | rfl | rw [SendDSBlockToNewDSLeader_state])
  split
  · rfl
  · refine (andThen_proj kept _ _ (fun d8 => ?_)).trans
      (by split <;> first | rfl | rw [SendDSBlockToShardNodes_state])
    split
    · rfl
    · next ds9 h9 =>
      obtain ⟨hm, _, hp⟩ := UpdateMyDSModeAndConsensusId_frame cst ext w d8 ds9 h9
      have h9k : kept ds9 = kept d8 := by
        unfold kept
        rw [hm, hp]
      split
      · exact (UpdateDSCommiteeComposition_kept cst wp ds9).trans h9k
      · exact ((StartFirstTxEpoch_kept cst orc _).1.trans
          (UpdateDSCommiteeComposition_kept cst wp ds9)).trans h9k

/-- `ProcessDSBlockConsensusWhenDone` keeps the epoch number. -/
theorem ProcessDSBlockConsensusWhenDone_epoch (cst : Constants) (ext : Externals) (w : Nat)
    (orc : Oracle) (ds : DirectoryService) :
    (ProcessDSBlockConsensusWhenDone cst ext w orc ds).state.m_mediator.m_currentEpochNum
      = ds.m_mediator.m_currentEpochNum := by
  unfold ProcessDSBlockConsensusWhenDone
  split
  · rfl
  split
  · rfl
  refine (andThen_proj (fun d => d.m_mediator.m_currentEpochNum) _ _ (fun d2 => ?_)).trans rfl
  refine (andThen_proj (fun d => d.m_mediator.m_currentEpochNum) _ _ (fun d3 => ?_)).trans ?_
  · refine (andThen_proj (fun d => d.m_mediator.m_currentEpochNum) _ _ (fun d4 => ?_)).trans rfl
    split
    · rfl
    · exact congrArg Prod.fst (afterWinnerLookup_kept cst ext w orc _ d4)
  · obtain ⟨chain, num, hst⟩ := StoreDSBlockToStorage_state cst orc d2
    rw [hst]

/-- On a DS node `StoreFinalBlockToDisk` returns and increments the epoch
number by one; on a lookup node it leaves it as it is. -/
theorem StoreFinalBlockToDisk_epoch (cst : Constants) (orc : Oracle) (ds : DirectoryService) :
    (StoreFinalBlockToDisk cst orc ds).result = .ok () ∧
      (StoreFinalBlockToDisk cst orc ds).state.m_mediator.m_currentEpochNum
        = if cst.LOOKUP_NODE_MODE then ds.m_mediator.m_currentEpochNum
          else ds.m_mediator.m_currentEpochNum + 1 := by
  unfold StoreFinalBlockToDisk
  split <;> exact ⟨rfl, rfl⟩

/-- On a DS node `ProcessFinalBlockConsensusWhenDone` increments the epoch
number by one; on a lookup node it leaves it as it is. -/
theorem ProcessFinalBlockConsensusWhenDone_epoch (cst : Constants) (ext : Externals)
    (orc : Oracle) (ds : DirectoryService) :
    (ProcessFinalBlockConsensusWhenDone cst ext orc ds).state.m_mediator.m_currentEpochNum
      = if cst.LOOKUP_NODE_MODE then ds.m_mediator.m_currentEpochNum
        else ds.m_mediator.m_currentEpochNum + 1 := by
  have hstore := (StoreFinalBlockToDisk_epoch cst orc ds).2
  unfold ProcessFinalBlockConsensusWhenDone
  by_cases hL : cst.LOOKUP_NODE_MODE = true
  · rw [if_pos hL, if_pos hL]
    rfl
  rw [if_neg hL] at hstore ⊢
  rw [if_neg hL]
  simp only []
  rw [andThen_ok _ _ rfl]
  simp only [ret_state]
  rw [andThen_ok _ _ (StoreFinalBlockToDisk_epoch cst orc ds).1]
  simp only []
  rw [← hstore]
  refine (andThen_proj (fun d => d.m_mediator.m_currentEpochNum) _ _ (fun d3 => ?_)).trans
    (by split <;> rfl)
  refine (andThen_proj (fun d => d.m_mediator.m_currentEpochNum) _ _ (fun d4 => ?_)).trans rfl
  refine (andThen_proj (fun d => d.m_mediator.m_currentEpochNum) _ _ (fun d5 => ?_)).trans
    (by split <;> rfl)
  refine (andThen_proj (fun d => d.m_mediator.m_currentEpochNum) _ _ (fun d6 => ?_)).trans rfl
  refine (andThen_proj (fun d => d.m_mediator.m_currentEpochNum) _ _ (fun d7 => ?_)).trans
    (by split <;> rfl)
  rfl

/-- `ProcessDSBlockConsensus` keeps the epoch number. -/
theorem ProcessDSBlockConsensus_epoch (cst : Constants) (ext : Externals) (w : Nat)
    (orc : Oracle) (message : Message) (offset : Nat) (sender : Peer) (ds : DirectoryService) :
    (ProcessDSBlockConsensus cst ext w orc message offset sender ds).state.m_mediator.m_currentEpochNum
      = ds.m_mediator.m_currentEpochNum := by
  unfold ProcessDSBlockConsensus
  simp only []
  (repeat' split) <;> first
    | rfl
    | exact (ProcessDSBlockConsensusWhenDone_epoch cst ext w orc _).trans rfl

/-- `ProcessFinalBlockConsensusCore` keeps the epoch number, or increments it
by one, which it does only when the consensus is done. -/
theorem ProcessFinalBlockConsensusCore_epoch (cst : Constants) (ext : Externals)
    (orc : Oracle) (message : Message) (offset : Nat) (sender : Peer) (ds : DirectoryService) :
    (ProcessFinalBlockConsensusCore cst ext orc message offset sender
        ds).state.m_mediator.m_currentEpochNum = ds.m_mediator.m_currentEpochNum
      ∨ (orc.consensusState = ConsensusState.DONE
        ∧ (ProcessFinalBlockConsensusCore cst ext orc message offset sender
            ds).state.m_mediator.m_currentEpochNum = ds.m_mediator.m_currentEpochNum + 1) := by
  unfold ProcessFinalBlockConsensusCore
  split
  · exact Or.inl rfl
  split
  · exact Or.inl rfl
  split
  · exact Or.inl rfl
  split
  · next hdone =>
    simp only []
    have h := ProcessFinalBlockConsensusWhenDone_epoch cst ext orc
      { ds with m_viewChangeCounter := 0 }
    by_cases hL : cst.LOOKUP_NODE_MODE = true
    · rw [if_pos hL] at h
      exact Or.inl h
    · rw [if_neg hL] at h
      exact Or.inr ⟨hdone, h⟩
  · (repeat' split) <;> exact Or.inl rfl
  · exact Or.inl rfl

/-- `ProcessFinalBlockConsensus` keeps the epoch number, or increments it by
one, which it does only when the consensus is done. -/
theorem ProcessFinalBlockConsensus_epoch (cst : Constants) (ext : Externals)
    (orc : Oracle) (message : Message) (offset : Nat) (sender : Peer) (ds : DirectoryService) :
    (ProcessFinalBlockConsensus cst ext orc message offset sender
        ds).state.m_mediator.m_currentEpochNum = ds.m_mediator.m_currentEpochNum
      ∨ (orc.consensusState = ConsensusState.DONE
        ∧ (ProcessFinalBlockConsensus cst ext orc message offset sender
            ds).state.m_mediator.m_currentEpochNum = ds.m_mediator.m_currentEpochNum + 1) := by
  unfold ProcessFinalBlockConsensus
  simp only []
  (repeat' split) <;> first
    | exact Or.inl rfl
    | exact ProcessFinalBlockConsensusCore_epoch cst ext orc message offset sender ds

/-- `ProcessVCBlockCore` keeps the epoch number. -/
theorem ProcessVCBlockCore_epoch (cst : Constants) (ext : Externals) (orc : Oracle)
    (vcblock : VCBlock) (ds : DirectoryService) :
    (ProcessVCBlockCore cst ext orc vcblock ds).state.m_mediator.m_currentEpochNum
      = ds.m_mediator.m_currentEpochNum := by
  unfold ProcessVCBlockCore
  simp only []
  (repeat' split) <;> rfl

/-- `ProcessVCBlock` keeps the epoch number. -/
theorem ProcessVCBlock_epoch (cst : Constants) (ext : Externals) (orc : Oracle)
    (message : Message) (cur_offset : Nat) (sender : Peer) (ds : DirectoryService) :
    (ProcessVCBlock cst ext orc message cur_offset sender ds).state.m_mediator.m_currentEpochNum
      = ds.m_mediator.m_currentEpochNum := by
  unfold ProcessVCBlock
  simp only []
  (repeat' split) <;> first
    | rfl
    | exact ProcessVCBlockCore_epoch cst ext orc _ ds

/-- Every operation keeps the epoch number or increments it by one, and only
a final-block commit increments it: `StoreFinalBlockToDisk`,
`ProcessFinalBlockConsensusWhenDone` that runs it, or a final-block
dispatcher whose consensus is done. -/
theorem applyOp_epoch (cst : Constants) (ext : Externals) (w : Nat) (orc : Oracle) (op : Op)
    (ds : DirectoryService) :
    (applyOp cst ext w orc op ds).m_mediator.m_currentEpochNum = ds.m_mediator.m_currentEpochNum
      ∨ ((op = Op.StoreFinalBlockToDisk ∨ op = Op.ProcessFinalBlockConsensusWhenDone
          ∨ (orc.consensusState = ConsensusState.DONE ∧ ∃ message offset sender,
              op = Op.ProcessFinalBlockConsensusCore message offset sender
                ∨ op = Op.ProcessFinalBlockConsensus message offset sender))
        ∧ (applyOp cst ext w orc op ds).m_mediator.m_currentEpochNum
            = ds.m_mediator.m_currentEpochNum + 1) := by
  cases op with
  | StoreDSBlockToStorage =>
    obtain ⟨chain, num, hst⟩ := StoreDSBlockToStorage_state cst orc ds
    exact Or.inl (by show (StoreDSBlockToStorage cst orc ds).state.m_mediator.m_currentEpochNum = _
                     rw [hst])
  | StartFirstTxEpoch => exact Or.inl (congrArg Prod.fst (StartFirstTxEpoch_kept cst orc ds).1)
  | ProcessDSBlockConsensusWhenDone =>
    exact Or.inl (ProcessDSBlockConsensusWhenDone_epoch cst ext w orc ds)
  | ProcessDSBlockConsensus message offset sender =>
    exact Or.inl (ProcessDSBlockConsensus_epoch cst ext w orc message offset sender ds)
  | StoreFinalBlockToDisk =>
    have h := (StoreFinalBlockToDisk_epoch cst orc ds).2
    by_cases hL : cst.LOOKUP_NODE_MODE = true
    · rw [if_pos hL] at h
      exact Or.inl h
    · rw [if_neg hL] at h
      exact Or.inr ⟨Or.inl rfl, h⟩
  | ProcessFinalBlockConsensusWhenDone =>
    have h := ProcessFinalBlockConsensusWhenDone_epoch cst ext orc ds
    by_cases hL : cst.LOOKUP_NODE_MODE = true
    · rw [if_pos hL] at h
      exact Or.inl h
    · rw [if_neg hL] at h
      exact Or.inr ⟨Or.inr (Or.inl rfl), h⟩
  | ProcessFinalBlockConsensusCore message offset sender =>
    rcases ProcessFinalBlockConsensusCore_epoch cst ext orc message offset sender ds with h | h
    · exact Or.inl h
    · exact Or.inr ⟨Or.inr (Or.inr ⟨h.1, message, offset, sender, Or.inl rfl⟩), h.2⟩
  | ProcessFinalBlockConsensus message offset sender =>
    rcases ProcessFinalBlockConsensus_epoch cst ext orc message offset sender ds with h | h
    · exact Or.inl h
    · exact Or.inr ⟨Or.inr (Or.inr ⟨h.1, message, offset, sender, Or.inr rfl⟩), h.2⟩
  | CommitFinalBlockConsensusBuffer => exact Or.inl rfl
  | CleanFinalblockConsensusBuffer => exact Or.inl rfl
  | ProcessVCBlockCore vcblock => exact Or.inl (ProcessVCBlockCore_epoch cst ext orc vcblock ds)
  | ProcessVCBlock message cur_offset sender =>
    exact Or.inl (ProcessVCBlock_epoch cst ext orc message cur_offset sender ds)

/-- The epoch number does not decrease over a sequence of operations. -/
theorem runOps_epoch (cst : Constants) (ext : Externals) (w : Nat) (ops : List (Op × Oracle)) :
    ∀ ds : DirectoryService,
      ds.m_mediator.m_currentEpochNum ≤ (runOps cst ext w ops ds).m_mediator.m_currentEpochNum := by
  induction ops with
  | nil => intro ds; exact Nat.le_refl _
  | cons step rest ih =>
    intro ds
    obtain ⟨op, orc⟩ := step
    have h1 := applyOp_epoch cst ext w orc op ds
    have h2 := ih (applyOp cst ext w orc op ds)
    show _ ≤ (runOps cst ext w rest (applyOp cst ext w orc op ds)).m_mediator.m_currentEpochNum
    rcases h1 with h1 | ⟨_, h1⟩ <;> omega

/-- C13: on a DS node the epoch number increases by exactly 1 in a final-block
commit (`StoreFinalBlockToDisk`, and `ProcessFinalBlockConsensusWhenDone` that
runs it); every operation of DS-block, final-block and VC-block processing
leaves it as it is unless it is such a commit or a final-block dispatcher
whose consensus is done, which increase it by exactly 1; and over any
sequence of these operations it does not decrease. -/
theorem epoch_steps (cst : Constants) (ext : Externals) (w : Nat) (ds : DirectoryService) :
    (cst.LOOKUP_NODE_MODE = false → ∀ orc : Oracle,
      (StoreFinalBlockToDisk cst orc ds).state.m_mediator.m_currentEpochNum
          = ds.m_mediator.m_currentEpochNum + 1
        ∧ (ProcessFinalBlockConsensusWhenDone cst ext orc ds).state.m_mediator.m_currentEpochNum
          = ds.m_mediator.m_currentEpochNum + 1) ∧
    (∀ (orc : Oracle) (op : Op),
      (applyOp cst ext w orc op ds).m_mediator.m_currentEpochNum
          = ds.m_mediator.m_currentEpochNum
        ∨ ((op = Op.StoreFinalBlockToDisk ∨ op = Op.ProcessFinalBlockConsensusWhenDone
            ∨ (orc.consensusState = ConsensusState.DONE ∧ ∃ message offset sender,
                op = Op.ProcessFinalBlockConsensusCore message offset sender
                  ∨ op = Op.ProcessFinalBlockConsensus message offset sender))
          ∧ (applyOp cst ext w orc op ds).m_mediator.m_currentEpochNum
              = ds.m_mediator.m_currentEpochNum + 1)) ∧
    (∀ ops : List (Op × Oracle),
      ds.m_mediator.m_currentEpochNum
        ≤ (runOps cst ext w ops ds).m_mediator.m_currentEpochNum) := by
  refine ⟨fun hL orc => ⟨?_, ?_⟩, fun orc op => applyOp_epoch cst ext w orc op ds,
    fun ops => runOps_epoch cst ext w ops ds⟩
  · have h := (StoreFinalBlockToDisk_epoch cst orc ds).2
    rw [hL] at h
    exact h
  · have h := ProcessFinalBlockConsensusWhenDone_epoch cst ext orc ds
    rw [hL] at h
    exact h

/-- C13, at the backup of `committee4` in epoch 0: the final-block commit
leaves it in epoch 1. -/
theorem epoch_steps_witness :
    (ProcessFinalBlockConsensusWhenDone {} {} {} dsMicro).state.m_mediator.m_currentEpochNum
      = dsMicro.m_mediator.m_currentEpochNum + 1 :=
  ((epoch_steps {} {} 16 dsMicro).1 rfl {}).2

/-! ### A second DS-block commit -/

/-- A property of the state left by the next steps, proved from an invariant
of the state left by the first steps, for a sequence that returns. -/
theorem andThen_inv {α : Type} (I P : DirectoryService → Prop) (r : Run Unit)
    (next : DirectoryService → Run α) (v : α) (hI : I r.state)
    (hn : ∀ d, I d → (next d).result = .ok v → P (next d).state)
    (h : (r.andThen next).result = .ok v) : P (r.andThen next).state := by
  cases hr : r.result with
  | ok u =>
    rw [andThen_ok r next hr] at h ⊢
    exact hn _ hI h
  | error e =>
    rw [andThen_error r next e hr] at h
    cases h

/-- After `erase(key)` there is no entry under the key. -/
theorem mapAt_mapErase (m : List (PubKey × Peer)) (key : PubKey) :
    mapAt (mapErase m key) key = none := by
  unfold mapAt mapErase
  rw [Option.map_eq_none', List.find?_eq_none]
  intro kv hkv
  have := (List.mem_filter.mp hkv).2
  simpa using this

/-- A second `AddBlock` of the same block is refused and leaves the chain as
the first left it. -/
theorem AddBlock_again (chain : List DSBlock) (block : DSBlock) :
    AddBlock DSBlock.m_blockNum (AddBlock DSBlock.m_blockNum chain block).1 block
      = ((AddBlock DSBlock.m_blockNum chain block).1, -1) := by
  unfold AddBlock
  by_cases h : block.m_blockNum = (GetLastBlock chain).m_blockNum + 1
  · have hlast : GetLastBlock (chain ++ [block]) = block := by
      unfold GetLastBlock
      simp
    simp only [h, if_true, hlast]
    rw [if_neg (by omega)]
  · simp only [h, if_false]

/-- On a DS node `UpdateDSCommiteeComposition` erases the miner of the DS
chain tail from the PoW connections. -/
theorem UpdateDSCommiteeComposition_conns (cst : Constants) (wp : Peer) (ds : DirectoryService)
    (hL : cst.LOOKUP_NODE_MODE = false) :
    (UpdateDSCommiteeComposition cst wp ds).m_allPoWConns
      = mapErase ds.m_allPoWConns (GetLastBlock ds.m_mediator.m_dsBlockChain).m_minerPubKey := by
  unfold UpdateDSCommiteeComposition
  simp only [hL, Bool.false_eq_true, if_false]

/-- When the steps after the lookup of the winner return, the miner of the DS
chain tail is no longer among the PoW connections. -/
theorem afterWinnerLookup_erases (cst : Constants) (ext : Externals) (w : Nat) (orc : Oracle)
    (wp : Peer) (ds4 : DirectoryService) (hL : cst.LOOKUP_NODE_MODE = false)
    (h : (afterWinnerLookup cst ext w orc wp ds4).result = .ok ()) :
    mapAt (afterWinnerLookup cst ext w orc wp ds4).state.m_allPoWConns
      (GetLastBlock ds4.m_mediator.m_dsBlockChain).m_minerPubKey = none := by
  unfold afterWinnerLookup at h ⊢
  simp only [] at h ⊢
  refine andThen_inv
    (fun d => d.m_mediator.m_dsBlockChain = ds4.m_mediator.m_dsBlockChain)
      (fun d => mapAt d.m_allPoWConns
        (GetLastBlock ds4.m_mediator.m_dsBlockChain).m_minerPubKey = none) _ _ _ ?_ ?_ h
  · split <;> rfl
  intro d5 h5 hres5
  dsimp only at h5 hres5 ⊢
  refine andThen_inv
    (fun d => d.m_mediator.m_dsBlockChain = ds4.m_mediator.m_dsBlockChain)
      (fun d => mapAt d.m_allPoWConns
        (GetLastBlock ds4.m_mediator.m_dsBlockChain).m_minerPubKey = none) _ _ _ ?_ ?_ hres5
  · split
    · rw [SendDSBlockToLookupNodes_state]; exact h5
    · exact h5
  intro d6 h6 hres6
  dsimp only at h6 hres6 ⊢
  refine andThen_inv
    (fun d => d.m_mediator.m_dsBlockChain = ds4.m_mediator.m_dsBlockChain)
      (fun d => mapAt d.m_allPoWConns
        (GetLastBlock ds4.m_mediator.m_dsBlockChain).m_minerPubKey = none) _ _ _ ?_ ?_ hres6
  · split
    · rw [SendDSBlockToNewDSLeader_state]; exact h6
    · exact h6
  intro d7 h7 hres7
  dsimp only at h7 hres7 ⊢
  cases hsetup : SetupMulticastConfigForDSBlock cst d7 (0, 0, 0) with
  | error e =>
    rw [hsetup] at hres7
    cases hres7
  | ok res =>
    obtain ⟨mc, lo, hi⟩ := res
    rw [hsetup] at hres7
    dsimp only at hres7 ⊢
    refine andThen_inv
      (fun d => d.m_mediator.m_dsBlockChain = ds4.m_mediator.m_dsBlockChain)
      (fun d => mapAt d.m_allPoWConns
        (GetLastBlock ds4.m_mediator.m_dsBlockChain).m_minerPubKey = none) _ _ _ ?_ ?_ hres7
    · split
      · rw [SendDSBlockToShardNodes_state]; exact h7
      · exact h7
    intro d8 h8 hres8
    dsimp only at h8 hres8 ⊢
    cases hupd : UpdateMyDSModeAndConsensusId cst ext w d8 with
    | error e =>
      rw [hupd] at hres8
      cases hres8
    | ok ds9 =>
      rw [hupd] at hres8
      dsimp only at hres8 ⊢
      obtain ⟨hm, _, _⟩ := UpdateMyDSModeAndConsensusId_frame cst ext w d8 ds9 hupd
      have hconns := UpdateDSCommiteeComposition_conns cst wp ds9 hL
      rw [hm, h8] at hconns
      split at hres8
      · cases hres8
      · next entry hentry =>
        rw [(StartFirstTxEpoch_kept cst orc _).2, hconns]
        exact mapAt_mapErase _ _

/-- On a DS node with a pending DS block, `StoreDSBlockToStorage` returns,
with the chain left by `AddBlock` and the pending block as it was. -/
theorem StoreDSBlockToStorage_pending (cst : Constants) (orc : Oracle) (ds : DirectoryService)
    (pending : DSBlock) (hL : cst.LOOKUP_NODE_MODE = false)
    (hp : ds.m_pendingDSBlock = some pending) :
    (StoreDSBlockToStorage cst orc ds).result = .ok () ∧
      (StoreDSBlockToStorage cst orc ds).events
        = [Event.PutDSBlock pending.m_blockNum orc.PutDSBlock,
           Event.PutMetadata MetaType.LATESTACTIVEDSBLOCKNUM orc.PutMetadata] ∧
      (StoreDSBlockToStorage cst orc ds).state.m_pendingDSBlock = some pending ∧
      (StoreDSBlockToStorage cst orc ds).state.m_mediator.m_dsBlockChain
        = (AddBlock DSBlock.m_blockNum ds.m_mediator.m_dsBlockChain pending).1 ∧
      (StoreDSBlockToStorage cst orc ds).state.m_allPoWConns = ds.m_allPoWConns ∧
      (StoreDSBlockToStorage cst orc ds).state.m_mediator.m_DSCommittee
        = ds.m_mediator.m_DSCommittee ∧
      (StoreDSBlockToStorage cst orc ds).state.m_consensusMyID = ds.m_consensusMyID ∧
      (StoreDSBlockToStorage cst orc ds).state.m_mode = ds.m_mode := by
  unfold StoreDSBlockToStorage
  simp only [hL, hp, Bool.false_eq_true, if_false]
  exact ⟨rfl, rfl, rfl, rfl, rfl, rfl, rfl, rfl⟩

/-- On a DS node, a run of `ProcessDSBlockConsensusWhenDone` that returns had
a pending DS block, which is still pending; the DS chain is the one left by
`AddBlock`, and the miner of its tail is no longer among the PoW connections. -/
theorem ProcessDSBlockConsensusWhenDone_returned (cst : Constants) (ext : Externals)
    (w : Nat) (orc : Oracle) (ds : DirectoryService) (hL : cst.LOOKUP_NODE_MODE = false)
    (h : (ProcessDSBlockConsensusWhenDone cst ext w orc ds).result = .ok ()) :
    ∃ pending, ds.m_pendingDSBlock = some pending ∧
      (ProcessDSBlockConsensusWhenDone cst ext w orc ds).state.m_pendingDSBlock = some pending ∧
      (ProcessDSBlockConsensusWhenDone cst ext w orc ds).state.m_mediator.m_dsBlockChain
        = (AddBlock DSBlock.m_blockNum ds.m_mediator.m_dsBlockChain pending).1 ∧
      mapAt (ProcessDSBlockConsensusWhenDone cst ext w orc ds).state.m_allPoWConns
        (GetLastBlock (ProcessDSBlockConsensusWhenDone cst ext w orc
          ds).state.m_mediator.m_dsBlockChain).m_minerPubKey = none := by
  unfold ProcessDSBlockConsensusWhenDone at h ⊢
  simp only [hL, Bool.false_eq_true, if_false] at h ⊢
  cases hp : ds.m_pendingDSBlock with
  | none =>
    rw [hp] at h
    cases h
  | some pending =>
    rw [hp] at h
    refine ⟨pending, rfl, ?_⟩
    dsimp only at h ⊢
    obtain ⟨hsr, _, hsp, hsc, _⟩ := StoreDSBlockToStorage_pending cst orc
      { ds with m_coinbaseRewardees := [] } pending hL hp
    have hkept := fun wp => afterWinnerLookup_kept cst ext w orc wp
      (StoreDSBlockToStorage cst orc { ds with m_coinbaseRewardees := [] }).state
    rw [hp] at hsr hsp hsc hkept
    rw [andThen_ok _ _ rfl] at h ⊢
    dsimp only [ret_state] at h ⊢
    rw [andThen_ok _ _ hsr] at h ⊢
    dsimp only at h ⊢
    rw [andThen_ok _ _ rfl] at h ⊢
    dsimp only [ret_state] at h ⊢
    split at h
    · cases h
    · next wp hwp =>
      have hk := hkept wp
      have hchain := congrArg (fun t => t.2.1) hk
      have hpend := congrArg (fun t => t.2.2) hk
      dsimp only [kept] at hchain hpend
      refine ⟨hpend.trans hsp, hchain.trans hsc, ?_⟩
      rw [hchain]
      exact afterWinnerLookup_erases cst ext w orc wp _ hL h

/-- C15, as stated, fails on the code: on the backup `dsCommit` the first
commit returns; in the second one `AddBlock` refuses the pending block (the
chain-gap guard), which only logs a warning: the block and the metadata are
written again, and the run ends with `std::out_of_range` at the lookup of the
winner among the PoW connections, not with a rejection. -/
theorem second_commit_counterexample :
    (ProcessDSBlockConsensusWhenDone {} extHead 16 {} dsCommit).result = .ok () ∧
      (AddBlock DSBlock.m_blockNum
        (ProcessDSBlockConsensusWhenDone {} extHead 16 {} dsCommit).state.m_mediator.m_dsBlockChain
        { m_blockNum := 2, m_minerPubKey := 9 }).2 = -1 ∧
      (ProcessDSBlockConsensusWhenDone {} extHead 16 {}
        (ProcessDSBlockConsensusWhenDone {} extHead 16 {} dsCommit).state).events
        = [Event.SetCoSignatures, Event.PutDSBlock 2 true,
           Event.PutMetadata MetaType.LATESTACTIVEDSBLOCKNUM true, Event.UpdateDSBlockRand] ∧
      (ProcessDSBlockConsensusWhenDone {} extHead 16 {}
        (ProcessDSBlockConsensusWhenDone {} extHead 16 {} dsCommit).state).result
        = .error Fault.outOfRange :=
  ⟨rfl, rfl, rfl, rfl⟩

/-- C15, amended: on a DS node, after a commit of the pending DS block by
`ProcessDSBlockConsensusWhenDone` that returned, a second commit is not
stopped by the chain-gap guard: `AddBlock` refuses the block, the block and
the metadata are written again, and the run ends with `std::out_of_range` at
the lookup of the winner among the PoW connections, from which the first
commit erased it. Up to there the committee, the consensus id and the mode of
the node are left as they were before the second commit. -/
theorem second_commit (cst : Constants) (ext : Externals) (w : Nat) (orc1 orc2 : Oracle)
    (ds : DirectoryService) (hL : cst.LOOKUP_NODE_MODE = false)
    (h : (ProcessDSBlockConsensusWhenDone cst ext w orc1 ds).result = .ok ()) :
    ∃ pending, ds.m_pendingDSBlock = some pending ∧
      (AddBlock DSBlock.m_blockNum
        (ProcessDSBlockConsensusWhenDone cst ext w orc1 ds).state.m_mediator.m_dsBlockChain
        pending).2 = -1 ∧
      (ProcessDSBlockConsensusWhenDone cst ext w orc2
        (ProcessDSBlockConsensusWhenDone cst ext w orc1 ds).state).result
        = .error Fault.outOfRange ∧
      (ProcessDSBlockConsensusWhenDone cst ext w orc2
        (ProcessDSBlockConsensusWhenDone cst ext w orc1 ds).state).events
        = [Event.SetCoSignatures, Event.PutDSBlock pending.m_blockNum orc2.PutDSBlock,
           Event.PutMetadata MetaType.LATESTACTIVEDSBLOCKNUM orc2.PutMetadata,
           Event.UpdateDSBlockRand] ∧
      (ProcessDSBlockConsensusWhenDone cst ext w orc2
        (ProcessDSBlockConsensusWhenDone cst ext w orc1 ds).state).state.m_mediator.m_DSCommittee
        = (ProcessDSBlockConsensusWhenDone cst ext w orc1 ds).state.m_mediator.m_DSCommittee ∧
      (ProcessDSBlockConsensusWhenDone cst ext w orc2
        (ProcessDSBlockConsensusWhenDone cst ext w orc1 ds).state).state.m_consensusMyID
        = (ProcessDSBlockConsensusWhenDone cst ext w orc1 ds).state.m_consensusMyID ∧
      (ProcessDSBlockConsensusWhenDone cst ext w orc2
        (ProcessDSBlockConsensusWhenDone cst ext w orc1 ds).state).state.m_mode
        = (ProcessDSBlockConsensusWhenDone cst ext w orc1 ds).state.m_mode := by
  obtain ⟨pending, hp, hp1, hchain, hat⟩ :=
    ProcessDSBlockConsensusWhenDone_returned cst ext w orc1 ds hL h
  generalize (ProcessDSBlockConsensusWhenDone cst ext w orc1 ds).state = ds1 at hp1 hchain hat ⊢
  have hadd : AddBlock DSBlock.m_blockNum ds1.m_mediator.m_dsBlockChain pending
      = (ds1.m_mediator.m_dsBlockChain, -1) := by
    rw [hchain]
    exact AddBlock_again _ _
  refine ⟨pending, hp, by rw [hadd], ?_⟩
  unfold ProcessDSBlockConsensusWhenDone StoreDSBlockToStorage
  simp only [hL, hp1, Bool.false_eq_true, if_false, Run.andThen, ret, fail, hadd, hat]
  exact ⟨trivial, rfl, trivial, trivial, trivial⟩

/-- C15, amended, at the backup `dsCommit`, whose first commit returns: the
second commit ends with `std::out_of_range`. -/
theorem second_commit_witness :
    (ProcessDSBlockConsensusWhenDone {} extHead 16 {} dsCommit).result = .ok () ∧
      (ProcessDSBlockConsensusWhenDone {} extHead 16 {}
        (ProcessDSBlockConsensusWhenDone {} extHead 16 {} dsCommit).state).result
        = .error Fault.outOfRange :=
  ⟨rfl,
    match second_commit {} extHead 16 {} {} dsCommit rfl rfl with
    | ⟨_, _, _, hres, _⟩ => hres⟩

/-! ### The view-change reorder as a relation -/

/-- C28: with guard mode off, for every committee and every VC block whose
faulty leaders are all found (each has an equal entry in the committee; this
is the case whenever the function returns),
`UpdateDSCommiteeCompositionAfterVC` returns a permutation of the committee,
of the same length; with guard mode on, or with an empty list of faulty
leaders, it returns the committee unchanged. -/
theorem UpdateDSCommiteeCompositionAfterVC_perm (cst : Constants)
    (selfKey : PrivKey × PubKey) (vcblock : VCBlock) (dsComm : DSCommittee) :
    (cst.GUARD_MODE = false → (∀ f ∈ vcblock.m_header.m_FaultyLeaders, f ∈ dsComm) →
        ∃ comm1, UpdateDSCommiteeCompositionAfterVC cst selfKey vcblock dsComm = .ok comm1
          ∧ comm1.Perm dsComm ∧ comm1.length = dsComm.length) ∧
      (cst.GUARD_MODE = false → ∀ comm1,
        UpdateDSCommiteeCompositionAfterVC cst selfKey vcblock dsComm = .ok comm1 →
          (∀ f ∈ vcblock.m_header.m_FaultyLeaders, f ∈ dsComm)
            ∧ comm1.Perm dsComm ∧ comm1.length = dsComm.length) ∧
      (cst.GUARD_MODE = true →
        UpdateDSCommiteeCompositionAfterVC cst selfKey vcblock dsComm = .ok dsComm) ∧
      (vcblock.m_header.m_FaultyLeaders = [] →
        UpdateDSCommiteeCompositionAfterVC cst selfKey vcblock dsComm = .ok dsComm) := by
  refine ⟨fun hG hall => ?_, fun hG comm1 hok => ?_, fun hG => ?_, fun hnil => ?_⟩
  · rw [UpdateDSCommiteeCompositionAfterVC_eq cst selfKey vcblock dsComm hG]
    rcases ejectFaultyLeaders_cases selfKey vcblock.m_header.m_FaultyLeaders dsComm with
      ⟨_, comm1, hok, hp⟩ | ⟨⟨f, hf, hnot⟩, _⟩
    · exact ⟨comm1, hok, hp, hp.length_eq⟩
    · exact absurd (hall f hf) hnot
  · rw [UpdateDSCommiteeCompositionAfterVC_eq cst selfKey vcblock dsComm hG] at hok
    rcases ejectFaultyLeaders_cases selfKey vcblock.m_header.m_FaultyLeaders dsComm with
      ⟨hall, comm2, hok2, hp⟩ | ⟨_, herr⟩
    · rw [hok] at hok2
      cases hok2
      exact ⟨hall, hp, hp.length_eq⟩
    · rw [hok] at herr
      cases herr
  · unfold UpdateDSCommiteeCompositionAfterVC
    rw [if_pos hG]
    rfl
  · unfold UpdateDSCommiteeCompositionAfterVC
    rw [hnil]
    split <;> rfl

/-- C28, at `committee4` and the VC block naming `(B,pB)`: the committee
returned is `[(A,.),(C,.),(D,.),(B,.)]`, of length four, a permutation of
`committee4`. -/
theorem UpdateDSCommiteeCompositionAfterVC_perm_witness :
    UpdateDSCommiteeCompositionAfterVC {} (33, 3) vcBlockB committee4
        = .ok [(1, ⟨101, 1⟩), (3, ⟨103, 3⟩), (4, ⟨104, 4⟩), (2, ⟨102, 2⟩)] ∧
      List.Perm [(1, (⟨101, 1⟩ : Peer)), (3, ⟨103, 3⟩), (4, ⟨104, 4⟩), (2, ⟨102, 2⟩)] committee4 :=
  ⟨rfl, ((UpdateDSCommiteeCompositionAfterVC_perm {} (33, 3) vcBlockB committee4).2.1 rfl
    _ rfl).2.1⟩

/-- In a committee with pairwise distinct public keys, the first entry with
the key of a member is the first entry equal to that member. -/
theorem stdFindIfKey_eq_stdFind (f : PubKey × Peer) (l : DSCommittee)
    (hkeys : (l.map Prod.fst).Nodup) (hf : f ∈ l) :
    stdFindIfKey f.1 l = stdFind f l := by
  induction l with
  | nil => simp at hf
  | cons e rest ih =>
    rw [List.map_cons, List.nodup_cons] at hkeys
    by_cases he : e = f
    · subst he
      simp [stdFindIfKey, stdFind]
    · have hrest : f ∈ rest := by
        rcases List.mem_cons.mp hf with h | h
        · exact absurd h.symm he
        · exact h
      have hkey : e.1 ≠ f.1 := fun h =>
        hkeys.1 (h ▸ List.mem_map_of_mem Prod.fst hrest)
      simp only [stdFindIfKey, stdFind, hkey, he, if_false, ih hkeys.2 hrest]

/-- With pairwise distinct public keys, the loop that matches by public key
and the loop that matches by the whole pair return the same committee when
every faulty leader is a member. -/
theorem retrieveEjectFaultyLeaders_eq (selfKey : PrivKey × PubKey)
    (fls : List (PubKey × Peer)) (dsComm : DSCommittee)
    (hkeys : (dsComm.map Prod.fst).Nodup) (hin : ∀ f ∈ fls, f ∈ dsComm) :
    retrieveEjectFaultyLeaders fls dsComm = ejectFaultyLeaders selfKey fls dsComm := by
  induction fls generalizing dsComm with
  | nil => rfl
  | cons fl rest ih =>
    have hmem : fl ∈ dsComm := hin fl (List.mem_cons_self _ _)
    have hperm := eraseIdx_stdFind_perm fl dsComm hmem
    have hne : stdFind fl dsComm ≠ dsComm.length :=
      fun h => (stdFind_eq_length_iff fl dsComm).mp h hmem
    rw [retrieveEjectFaultyLeaders, ejectFaultyLeaders, ejectFaultyLeader_eq, if_pos hmem]
    unfold retrieveEjectFaultyLeader
    simp only [stdFindIfKey_eq_stdFind fl dsComm hkeys hmem]
    rw [if_pos hne]
    exact ih (dsComm.eraseIdx (stdFind fl dsComm) ++ [fl])
      ((hperm.map Prod.fst).nodup_iff.mpr hkeys)
      (fun f hf => hperm.mem_iff.mpr (hin f (List.mem_cons_of_mem _ hf)))

/-- C29: for every committee whose public keys are pairwise distinct and
every VC block each of whose faulty leaders has its `(pub_key, peer)` pair in
the committee, `UpdateRetrieveDSCommiteeCompositionAfterVC`, which matches by
public key only, and `UpdateDSCommiteeCompositionAfterVC`, which matches by
the whole pair, return the same committee (with guard mode off, and with
guard mode on, where both return the committee as it is). -/
theorem UpdateRetrieveDSCommiteeCompositionAfterVC_eq (cst : Constants)
    (selfKey : PrivKey × PubKey) (vcblock : VCBlock) (dsComm : DSCommittee)
    (hkeys : (dsComm.map Prod.fst).Nodup)
    (hin : ∀ f ∈ vcblock.m_header.m_FaultyLeaders, f ∈ dsComm) :
    UpdateRetrieveDSCommiteeCompositionAfterVC cst vcblock dsComm
      = UpdateDSCommiteeCompositionAfterVC cst selfKey vcblock dsComm := by
  unfold UpdateRetrieveDSCommiteeCompositionAfterVC UpdateDSCommiteeCompositionAfterVC
  split
  · rfl
  · exact retrieveEjectFaultyLeaders_eq selfKey _ dsComm hkeys hin

/-- C29, at `committee4` and the VC block naming `(B,pB)`: both functions
return `[(A,.),(C,.),(D,.),(B,.)]`. -/
theorem UpdateRetrieveDSCommiteeCompositionAfterVC_eq_witness :
    UpdateRetrieveDSCommiteeCompositionAfterVC {} vcBlockB committee4
        = UpdateDSCommiteeCompositionAfterVC {} (33, 3) vcBlockB committee4 ∧
      UpdateRetrieveDSCommiteeCompositionAfterVC {} vcBlockB committee4
        = .ok [(1, ⟨101, 1⟩), (3, ⟨103, 3⟩), (4, ⟨104, 4⟩), (2, ⟨102, 2⟩)] :=
  ⟨UpdateRetrieveDSCommiteeCompositionAfterVC_eq {} (33, 3) vcBlockB committee4
    (by decide) (by decide), rfl⟩

/-- One iteration with the special case is one iteration of the variant
without it. -/
theorem ejectFaultyLeader_eq_byPair (selfKey : PrivKey × PubKey) (fl : PubKey × Peer)
    (dsComm : DSCommittee) :
    ejectFaultyLeader selfKey fl dsComm = ejectFaultyLeaderByPair fl dsComm := by
  have htarget : (if fl.1 = selfKey.2 ∧ fl.2 = ({} : Peer) then
      stdFind (fl.1, ({} : Peer)) dsComm else stdFind fl dsComm) = stdFind fl dsComm := by
    split
    · next h =>
      have : (fl.1, ({} : Peer)) = fl := Prod.ext rfl h.2.symm
      rw [this]
    · rfl
  unfold ejectFaultyLeader ejectFaultyLeaderByPair
  simp only [htarget]

/-- The loop with the special case is the loop of the variant without it. -/
theorem ejectFaultyLeaders_eq_byPair (selfKey : PrivKey × PubKey)
    (fls : List (PubKey × Peer)) (dsComm : DSCommittee) :
    ejectFaultyLeaders selfKey fls dsComm = ejectFaultyLeadersByPair fls dsComm := by
  induction fls generalizing dsComm with
  | nil => rfl
  | cons fl rest ih =>
    rw [ejectFaultyLeaders, ejectFaultyLeadersByPair, ejectFaultyLeader_eq_byPair]
    split
    · rfl
    · exact ih _

/-- C30: in `UpdateDSCommiteeCompositionAfterVC` the special case for the
entry of the node itself (a faulty leader with the key of the node and the
zero peer) searches for the same pair as the general case: for every
committee, VC block and key of the node, the function equals the variant
that always searches for the pair of the faulty leader, so that its result
is the same for every two keys of the node. -/
theorem UpdateDSCommiteeCompositionAfterVC_eq_byPair (cst : Constants)
    (selfKey selfKey2 : PrivKey × PubKey) (vcblock : VCBlock) (dsComm : DSCommittee) :
    UpdateDSCommiteeCompositionAfterVC cst selfKey vcblock dsComm
        = UpdateDSCommiteeCompositionAfterVCByPair cst vcblock dsComm ∧
      UpdateDSCommiteeCompositionAfterVC cst selfKey vcblock dsComm
        = UpdateDSCommiteeCompositionAfterVC cst selfKey2 vcblock dsComm := by
  unfold UpdateDSCommiteeCompositionAfterVC UpdateDSCommiteeCompositionAfterVCByPair
  split
  · exact ⟨rfl, rfl⟩
  · rw [ejectFaultyLeaders_eq_byPair selfKey, ejectFaultyLeaders_eq_byPair selfKey2]
    exact ⟨rfl, rfl⟩

/-! ### A winner that is not among the PoW connections -/

/-- C27: on a DS node with a pending DS block, if the miner public key of the
last DS block (the tail of the chain left by `AddBlock`) is not among the PoW
connections, `ProcessDSBlockConsensusWhenDone` ends with `std::out_of_range`
after the block has been handed to the DS chain (appended, when its number is
the successor of the tail's) and written to the block store with the
metadata, and before any message is sent; the committee, the consensus id,
the leader index and the mode are left as they were. -/
theorem winner_absent (cst : Constants) (ext : Externals) (w : Nat) (orc : Oracle)
    (ds : DirectoryService) (pending : DSBlock) (hL : cst.LOOKUP_NODE_MODE = false)
    (hp : ds.m_pendingDSBlock = some pending)
    (habsent : mapAt ds.m_allPoWConns
      (GetLastBlock (AddBlock DSBlock.m_blockNum ds.m_mediator.m_dsBlockChain
        pending).1).m_minerPubKey = none) :
    (ProcessDSBlockConsensusWhenDone cst ext w orc ds).result = .error Fault.outOfRange ∧
      (ProcessDSBlockConsensusWhenDone cst ext w orc ds).events
        = [Event.SetCoSignatures, Event.PutDSBlock pending.m_blockNum orc.PutDSBlock,
           Event.PutMetadata MetaType.LATESTACTIVEDSBLOCKNUM orc.PutMetadata,
           Event.UpdateDSBlockRand] ∧
      (ProcessDSBlockConsensusWhenDone cst ext w orc ds).state.m_mediator.m_dsBlockChain
        = (AddBlock DSBlock.m_blockNum ds.m_mediator.m_dsBlockChain pending).1 ∧
      (pending.m_blockNum = (GetLastBlock ds.m_mediator.m_dsBlockChain).m_blockNum + 1 →
        (ProcessDSBlockConsensusWhenDone cst ext w orc ds).state.m_mediator.m_dsBlockChain
          = ds.m_mediator.m_dsBlockChain ++ [pending]) ∧
      (ProcessDSBlockConsensusWhenDone cst ext w orc ds).state.m_mediator.m_DSCommittee
        = ds.m_mediator.m_DSCommittee ∧
      (ProcessDSBlockConsensusWhenDone cst ext w orc ds).state.m_consensusMyID
        = ds.m_consensusMyID ∧
      (ProcessDSBlockConsensusWhenDone cst ext w orc ds).state.m_consensusLeaderID
        = ds.m_consensusLeaderID ∧
      (ProcessDSBlockConsensusWhenDone cst ext w orc ds).state.m_mode = ds.m_mode := by
  have hchain : pending.m_blockNum = (GetLastBlock ds.m_mediator.m_dsBlockChain).m_blockNum + 1 →
      (AddBlock DSBlock.m_blockNum ds.m_mediator.m_dsBlockChain pending).1
        = ds.m_mediator.m_dsBlockChain ++ [pending] := by
    intro h
    unfold AddBlock
    rw [if_pos h]
  unfold ProcessDSBlockConsensusWhenDone StoreDSBlockToStorage
  simp only [hL, hp, Bool.false_eq_true, if_false, Run.andThen, ret, fail, habsent]
  exact ⟨trivial, rfl, trivial, hchain, trivial, trivial, trivial, trivial⟩

/-- C27, at the backup `dsNoWinner`, whose pending block 2 is the successor of
the DS chain tail: the run ends with `std::out_of_range`, the chain holds the
block, the committee is `committee4` as before. -/
theorem winner_absent_witness :
    (ProcessDSBlockConsensusWhenDone {} extHead 16 {} dsNoWinner).result
        = .error Fault.outOfRange ∧
      (ProcessDSBlockConsensusWhenDone {} extHead 16 {} dsNoWinner).state.m_mediator.m_dsBlockChain
        = dsNoWinner.m_mediator.m_dsBlockChain ++ [{ m_blockNum := 2, m_minerPubKey := 9 }] ∧
      (ProcessDSBlockConsensusWhenDone {} extHead 16 {} dsNoWinner).state.m_mediator.m_DSCommittee
        = committee4 :=
  ⟨(winner_absent {} extHead 16 {} dsNoWinner _ rfl rfl rfl).1,
    (winner_absent {} extHead 16 {} dsNoWinner _ rfl rfl rfl).2.2.2.1 rfl,
    (winner_absent {} extHead 16 {} dsNoWinner _ rfl rfl rfl).2.2.2.2.1⟩

/-! ### The order of the final-block store -/

/-- C21, as stated, fails on the code: in the effects of
`StoreFinalBlockToDisk` on the backup `dsFinal` the increment of the epoch
number comes first and the write of the TX block to the block store second. -/
theorem store_order_counterexample :
    (StoreFinalBlockToDisk {} {} dsFinal).events
      = [Event.IncreaseEpochNum, Event.PutTxBlock 5 true, Event.PutStateDelta 5 true] :=
  rfl

/-- C21, amended: on a DS node the effects of `StoreFinalBlockToDisk` are, in
this order, the increment of the epoch number, the write of the TX block and
the write of the state delta: the increment precedes both writes to the block
store. The state left has the TX chain left by `AddBlock` and the epoch
number incremented by one. -/
theorem StoreFinalBlockToDisk_order (cst : Constants) (orc : Oracle) (ds : DirectoryService)
    (hL : cst.LOOKUP_NODE_MODE = false) :
    (StoreFinalBlockToDisk cst orc ds).events
        = [Event.IncreaseEpochNum,
           Event.PutTxBlock ds.m_finalBlock.m_blockNum orc.PutTxBlock,
           Event.PutStateDelta
             (GetLastBlock (AddBlock TxBlock.m_blockNum ds.m_mediator.m_txBlockChain
               ds.m_finalBlock).1).m_blockNum orc.PutStateDelta] ∧
      (StoreFinalBlockToDisk cst orc ds).state.m_mediator.m_txBlockChain
        = (AddBlock TxBlock.m_blockNum ds.m_mediator.m_txBlockChain ds.m_finalBlock).1 ∧
      (StoreFinalBlockToDisk cst orc ds).state.m_mediator.m_currentEpochNum
        = ds.m_mediator.m_currentEpochNum + 1 := by
  unfold StoreFinalBlockToDisk
  simp only [hL, Bool.false_eq_true, if_false]
  exact ⟨rfl, rfl, rfl⟩

/-- C21, amended, at the backup `dsFinal` in epoch 5, with a block store
that fails to write the TX block: the increment comes first, the two writes
follow; the TX chain holds the final block 5 and the epoch is 6 after the
store. -/
theorem StoreFinalBlockToDisk_order_witness :
    (StoreFinalBlockToDisk {} { PutTxBlock := false } dsFinal).events
        = [Event.IncreaseEpochNum, Event.PutTxBlock 5 false, Event.PutStateDelta 5 true] ∧
      (StoreFinalBlockToDisk {} { PutTxBlock := false } dsFinal).state.m_mediator.m_txBlockChain
        = [{ m_blockNum := 4, m_serialized := [7] }, { m_blockNum := 5, m_serialized := [9] }] ∧
      (StoreFinalBlockToDisk {} { PutTxBlock := false } dsFinal).state.m_mediator.m_currentEpochNum
        = 6 :=
  StoreFinalBlockToDisk_order {} { PutTxBlock := false } dsFinal rfl

/-! ### The start of the first TX epoch -/

/-- C23, as stated, fails on the code: on the idle node `dsIdle`
`StartFirstTxEpoch` leaves the state delta of a shard in the buffer. -/
theorem StartFirstTxEpoch_counterexample :
    dsIdle.m_mode = Mode.IDLE ∧
      (StartFirstTxEpoch {} {} dsIdle).state.m_stateDeltaFromShards = [1] :=
  ⟨rfl, rfl⟩

/-- C23, amended: on a DS node (not a lookup node) `StartFirstTxEpoch`, in
every mode, leaves the PoW pool, the PoW solutions, the submission counters
and the microblock buffer empty and the view-change counter equal to 0; it
leaves the state-delta buffer empty when the mode is PRIMARY_DS or BACKUP_DS
(and the committee has a front entry), and as it was when the mode is IDLE. -/
theorem StartFirstTxEpoch_clears (cst : Constants) (orc : Oracle) (ds : DirectoryService)
    (hL : cst.LOOKUP_NODE_MODE = false) :
    (StartFirstTxEpoch cst orc ds).state.m_allPoWs = [] ∧
      (StartFirstTxEpoch cst orc ds).state.m_allDSPoWs = [] ∧
      (StartFirstTxEpoch cst orc ds).state.m_AllPoWCounter = [] ∧
      (StartFirstTxEpoch cst orc ds).state.m_microBlocks = [] ∧
      (StartFirstTxEpoch cst orc ds).state.m_viewChangeCounter = 0 ∧
      (ds.m_mode ≠ Mode.IDLE → ds.m_mediator.m_DSCommittee ≠ [] →
        (StartFirstTxEpoch cst orc ds).state.m_stateDeltaFromShards = []) ∧
      (ds.m_mode = Mode.IDLE →
        (StartFirstTxEpoch cst orc ds).state.m_stateDeltaFromShards
          = ds.m_stateDeltaFromShards) := by
  unfold StartFirstTxEpoch
  simp only [hL, Bool.false_eq_true, if_false]
  by_cases hmode : ds.m_mode = Mode.IDLE
  · have hm : ¬ ((ResetPoWSubmissionCounter (ClearDSPoWSolns
        { ds with m_allPoWs := [] })).m_mode ≠ Mode.IDLE) := fun h => h hmode
    rw [if_neg hm]
    (repeat' split) <;>
      exact ⟨rfl, rfl, rfl, rfl, rfl, fun h => absurd hmode h, fun _ => rfl⟩
  · have hm : (ResetPoWSubmissionCounter (ClearDSPoWSolns
        { ds with m_allPoWs := [] })).m_mode ≠ Mode.IDLE := hmode
    rw [if_pos hm]
    split
    · next hnone =>
      exact ⟨rfl, rfl, rfl, rfl, rfl, fun _ h => absurd (List.head?_eq_none_iff.mp hnone) h,
        fun h => absurd h hmode⟩
    · exact ⟨rfl, rfl, rfl, rfl, rfl, fun _ _ => rfl, fun h => absurd h hmode⟩

/-- C23, amended, at the backup `dsNode2` with a committee of four: the
state-delta buffer is empty after `StartFirstTxEpoch`. -/
theorem StartFirstTxEpoch_clears_witness :
    (StartFirstTxEpoch {} {} { dsNode2 with m_stateDeltaFromShards := [1] }).state.m_stateDeltaFromShards
      = [] :=
  (StartFirstTxEpoch_clears {} {} { dsNode2 with m_stateDeltaFromShards := [1] } rfl).2.2.2.2.2.1
    (by decide) (by decide)

/-- C24, as stated, fails on the code: on the idle node `dsIdle`, whose key
is the key of a member of the shard of index 1, `StartFirstTxEpoch` changes
the shard id of the node from 0 to 1 (with member functions of the node that
return the fields of the node as they find them). -/
theorem StartFirstTxEpoch_idle_counterexample :
    dsIdle.m_mode = Mode.IDLE ∧ dsIdle.m_mediator.m_node.m_myShardID = 0 ∧
      (StartFirstTxEpoch {} {} dsIdle).state.m_mediator.m_node.m_myShardID = 1 :=
  ⟨rfl, rfl, rfl⟩

/-- C24, amended: on a DS node (not a lookup node) whose mode is PRIMARY_DS or
BACKUP_DS and whose committee has a front entry, `StartFirstTxEpoch` returns
with the shard members of the node bound to the committee (the pointer is
shared: the shard members read through it are the committee, now and
whatever the committee becomes later), the primary flag of the node true if
and only if the public key of the front entry is the key of the node, the
node-level leader index 0, the shard id `|shards|` (as a 32-bit number) and
the DS state MICROBLOCK_SUBMISSION. On a node in mode IDLE it leaves the DS
state as it is; when no shard holds a member with the key of the node it
leaves every field of the node as it is; otherwise it sets the shard id to
the index of the first such shard and hands the node to
`Node::LoadShardingStructure` and, when that returns true, to
`Node::LoadTxnSharingInfo` and `Node::StartFirstTxEpoch`, which leave the
fields of the node as they choose. -/
theorem StartFirstTxEpoch_node (cst : Constants) (orc : Oracle) (ds : DirectoryService)
    (hL : cst.LOOKUP_NODE_MODE = false) :
    (ds.m_mode ≠ Mode.IDLE → ∀ front, ds.m_mediator.m_DSCommittee.head? = some front →
      (StartFirstTxEpoch cst orc ds).result = .ok () ∧
      (StartFirstTxEpoch cst orc ds).state.m_mediator.m_node.m_myShardMembers
        = ShardMembers.sharedWithDSCommittee ∧
      (StartFirstTxEpoch cst orc ds).state.m_mediator.myShardMembers
        = ds.m_mediator.m_DSCommittee ∧
      (∀ later : DSCommittee,
        Mediator.myShardMembers
          { (StartFirstTxEpoch cst orc ds).state.m_mediator with m_DSCommittee := later }
            = later) ∧
      ((StartFirstTxEpoch cst orc ds).state.m_mediator.m_node.m_isPrimary = true
        ↔ front.1 = ds.m_mediator.m_selfKey.2) ∧
      (StartFirstTxEpoch cst orc ds).state.m_mediator.m_node.m_consensusLeaderID = 0 ∧
      (StartFirstTxEpoch cst orc ds).state.m_mediator.m_node.m_myShardID
        = ds.m_shards.length % 2 ^ 32 ∧
      (StartFirstTxEpoch cst orc ds).state.m_state = DirState.MICROBLOCK_SUBMISSION) ∧
    (ds.m_mode = Mode.IDLE →
      (StartFirstTxEpoch cst orc ds).state.m_state = ds.m_state ∧
      (ds.m_shards.findIdx? (fun shard =>
          shard.any (fun shardNode => decide (shardNode.1 = ds.m_mediator.m_selfKey.2))) = none →
        (StartFirstTxEpoch cst orc ds).state.m_mediator.m_node = ds.m_mediator.m_node) ∧
      (∀ i, ds.m_shards.findIdx? (fun shard =>
          shard.any (fun shardNode => decide (shardNode.1 = ds.m_mediator.m_selfKey.2))) = some i →
        (SetMyShardID i ds.m_mediator.m_node).m_myShardID = i ∧
        (StartFirstTxEpoch cst orc ds).state.m_mediator.m_node
          = (if (orc.LoadShardingStructure.LoadShardingStructure
                  (SetMyShardID i ds.m_mediator.m_node)).1 = false then
              (orc.LoadShardingStructure.LoadShardingStructure
                  (SetMyShardID i ds.m_mediator.m_node)).2
            else
              orc.LoadShardingStructure.StartFirstTxEpoch
                (orc.LoadShardingStructure.LoadTxnSharingInfo
                  (orc.LoadShardingStructure.LoadShardingStructure
                    (SetMyShardID i ds.m_mediator.m_node)).2)))) := by
  refine ⟨fun hmode front hfront => ?_, fun hmode => ?_⟩
  · have hm : (ResetPoWSubmissionCounter (ClearDSPoWSolns
        { ds with m_allPoWs := [] })).m_mode ≠ Mode.IDLE := hmode
    unfold StartFirstTxEpoch
    simp only [hL, Bool.false_eq_true, if_false]
    rw [if_pos hm]
    split
    · next hnone =>
      have : ds.m_mediator.m_DSCommittee.head? = none := hnone
      rw [this] at hfront
      cases hfront
    · next front1 hsome =>
      have : ds.m_mediator.m_DSCommittee.head? = some front1 := hsome
      rw [this] at hfront
      cases hfront
      refine ⟨rfl, rfl, rfl, fun _ => rfl, ?_, rfl, rfl, rfl⟩
      show decide (ds.m_mediator.m_selfKey.2 = _) = true ↔ _
      rw [decide_eq_true_iff]
      exact eq_comm
  · have hm : ¬ ((ResetPoWSubmissionCounter (ClearDSPoWSolns
        { ds with m_allPoWs := [] })).m_mode ≠ Mode.IDLE) := fun h => h hmode
    unfold StartFirstTxEpoch
    simp only [hL, Bool.false_eq_true, if_false]
    rw [if_neg hm]
    split
    · next hnone =>
      have hn : ds.m_shards.findIdx? (fun shard =>
          shard.any (fun shardNode => decide (shardNode.1 = ds.m_mediator.m_selfKey.2)))
            = none := hnone
      refine ⟨rfl, fun _ => rfl, fun i hi => ?_⟩
      rw [hn] at hi
      cases hi
    · next i1 hsome =>
      have hs : ds.m_shards.findIdx? (fun shard =>
          shard.any (fun shardNode => decide (shardNode.1 = ds.m_mediator.m_selfKey.2)))
            = some i1 := hsome
      have hnode : (ResetPoWSubmissionCounter (ClearDSPoWSolns
          { ds with m_allPoWs := [] })).m_mediator.m_node = ds.m_mediator.m_node := rfl
      by_cases hload : (orc.LoadShardingStructure.LoadShardingStructure
          (SetMyShardID i1 ds.m_mediator.m_node)).1 = false
      · refine ⟨?_, fun hnone => ?_, fun i hi => ?_⟩
        · split <;> rfl
        · rw [hs] at hnone
          cases hnone
        · rw [hs] at hi
          cases hi
          refine ⟨rfl, ?_⟩
          rw [if_pos hload]
          simp only [hnode]
          rw [if_pos hload]
          rfl
      · refine ⟨?_, fun hnone => ?_, fun i hi => ?_⟩
        · split <;> rfl
        · rw [hs] at hnone
          cases hnone
        · rw [hs] at hi
          cases hi
          refine ⟨rfl, ?_⟩
          rw [if_neg hload]
          simp only [hnode]
          rw [if_neg hload]
          rfl

/-- C24, amended, at the backup `dsNode2`, whose key `C` is not the key `A`
of the front entry of `committee4`: the node is not primary, its shard
members are bound to the committee, which is `committee4`, and the DS state
is MICROBLOCK_SUBMISSION. -/
theorem StartFirstTxEpoch_node_witness :
    (StartFirstTxEpoch {} {} dsNode2).state.m_mediator.m_node.m_myShardMembers
        = ShardMembers.sharedWithDSCommittee ∧
      (StartFirstTxEpoch {} {} dsNode2).state.m_mediator.myShardMembers = committee4 ∧
      (StartFirstTxEpoch {} {} dsNode2).state.m_mediator.m_node.m_isPrimary = false ∧
      (StartFirstTxEpoch {} {} dsNode2).state.m_state = DirState.MICROBLOCK_SUBMISSION :=
  ⟨((StartFirstTxEpoch_node {} {} dsNode2 rfl).1 (by decide) _ rfl).2.1,
    ((StartFirstTxEpoch_node {} {} dsNode2 rfl).1 (by decide) _ rfl).2.2.1, rfl,
    ((StartFirstTxEpoch_node {} {} dsNode2 rfl).1 (by decide) _ rfl).2.2.2.2.2.2.2⟩

/-! ### The nodes that send the DS block to the lookup nodes and to the winner -/

/-- The effects of a sequence whose first steps return with known effects,
when the effects of the next steps start with known effects and go on with
effects that have a property. -/
theorem andThen_shape (P : Event → Prop) (I : DirectoryService → Prop) (r : Run Unit)
    (next : DirectoryService → Run Unit) (l1 l2 : List Event) (hr : r.result = .ok ())
    (he : r.events = l1) (hI : I r.state)
    (hn : ∀ d, I d → ∃ tail, (next d).events = l2 ++ tail ∧ ∀ e ∈ tail, P e) :
    ∃ tail, (r.andThen next).events = l1 ++ l2 ++ tail ∧ ∀ e ∈ tail, P e := by
  obtain ⟨tail, ht, hP⟩ := hn r.state hI
  refine ⟨tail, ?_, hP⟩
  rw [andThen_ok r next hr]
  show r.events ++ (next r.state).events = _
  rw [he, ht, List.append_assoc]

/-- The effects of a sequence whose first steps return with known effects,
when the effects of the next steps all have a property. -/
theorem andThen_shape_last (P : Event → Prop) (I : DirectoryService → Prop) (r : Run Unit)
    (next : DirectoryService → Run Unit) (l1 : List Event) (hr : r.result = .ok ())
    (he : r.events = l1) (hI : I r.state)
    (hn : ∀ d, I d → ∀ e ∈ (next d).events, P e) :
    ∃ tail, (r.andThen next).events = l1 ++ tail ∧ ∀ e ∈ tail, P e := by
  refine ⟨(next r.state).events, ?_, hn r.state hI⟩
  rw [andThen_ok r next hr]
  show r.events ++ (next r.state).events = _
  rw [he]

/-- The loop over the shards hands broadcasts to the transport only. -/
theorem sendDSBlockToShards_broadcasts (ext : Externals) (ds : DirectoryService)
    (pending : DSBlock) (wp : Peer) (l : List Nat) :
    ∀ e ∈ (sendDSBlockToShards ext ds pending wp l).1,
      isLookupMsg e = false ∧ isUnicast e = false := by
  induction l with
  | nil => intro e he; cases he
  | cons i rest ih =>
    unfold sendDSBlockToShards
    (repeat' split) <;> first
      | (intro e he; cases he; done)
      | (intro e he
         rcases List.mem_cons.mp he with h | h
         · subst h; exact ⟨rfl, rfl⟩
         · exact ih e h)

/-- `SendDSBlockToShardNodes` hands broadcasts to the transport only. -/
theorem SendDSBlockToShardNodes_broadcasts (cst : Constants) (ext : Externals) (wp : Peer)
    (lo hi : Nat) (ds : DirectoryService) :
    ∀ e ∈ (SendDSBlockToShardNodes cst ext wp lo hi ds).events,
      isLookupMsg e = false ∧ isUnicast e = false := by
  unfold SendDSBlockToShardNodes
  split
  · intro e he; cases he
  split
  · intro e he; cases he
  split
  · split <;> (intro e he; cases he)
  · next pending _ =>
    have h := sendDSBlockToShards_broadcasts ext ds pending wp
      (List.range' lo (hi + 1 - lo))
    split
    · next sent hsent =>
      rw [hsent] at h
      exact h
    · next sent e1 hsent =>
      rw [hsent] at h
      exact h

/-- `StartFirstTxEpoch` hands no message to the transport. -/
theorem StartFirstTxEpoch_noSend (cst : Constants) (orc : Oracle) (ds : DirectoryService) :
    ∀ e ∈ (StartFirstTxEpoch cst orc ds).events,
      isLookupMsg e = false ∧ isUnicast e = false := by
  unfold StartFirstTxEpoch
  (repeat' split) <;> simp [isLookupMsg, isUnicast] <;> (repeat' split) <;>
    simp [isLookupMsg, isUnicast]

/-- On a DS node with a pending DS block, `SendDSBlockToLookupNodes` returns,
and hands the message to the transport for the lookup nodes when the message
can be composed. -/
theorem SendDSBlockToLookupNodes_events (cst : Constants) (ext : Externals) (wp : Peer)
    (ds : DirectoryService) (pending : DSBlock) (hL : cst.LOOKUP_NODE_MODE = false)
    (hp : ds.m_pendingDSBlock = some pending) :
    (SendDSBlockToLookupNodes cst ext wp ds).result = .ok () ∧
      (SendDSBlockToLookupNodes cst ext wp ds).events
        = match ext.SetNodeDSBlock 0 pending wp with
          | none => []
          | some dsblock_message => [Event.SendMessageToLookupNodes dsblock_message] := by
  unfold SendDSBlockToLookupNodes
  simp only [hL, hp, Bool.false_eq_true, if_false]
  split <;> exact ⟨rfl, rfl⟩

/-- On a DS node with a pending DS block, `SendDSBlockToNewDSLeader` returns,
and hands the message to the transport for the winner peer when the message
can be composed. -/
theorem SendDSBlockToNewDSLeader_events (cst : Constants) (ext : Externals) (wp : Peer)
    (ds : DirectoryService) (pending : DSBlock) (hL : cst.LOOKUP_NODE_MODE = false)
    (hp : ds.m_pendingDSBlock = some pending) :
    (SendDSBlockToNewDSLeader cst ext wp ds).result = .ok () ∧
      (SendDSBlockToNewDSLeader cst ext wp ds).events
        = match ext.SetNodeDSBlock 0 pending wp with
          | none => []
          | some dsblock_message => [Event.SendMessage wp dsblock_message] := by
  unfold SendDSBlockToNewDSLeader
  simp only [hL, hp, Bool.false_eq_true, if_false]
  split <;> exact ⟨rfl, rfl⟩

/-- The effects of the steps after the lookup of the winner, on a DS node
with a pending DS block: the sharding assignment on a backup, the message for
the lookup nodes and the message for the winner when the consensus id is
strictly between the two bounds, and then effects that are neither. -/
theorem afterWinnerLookup_sends (cst : Constants) (ext : Externals) (w : Nat) (orc : Oracle)
    (wp : Peer) (ds4 : DirectoryService) (pending : DSBlock)
    (hL : cst.LOOKUP_NODE_MODE = false) (hp : ds4.m_pendingDSBlock = some pending) :
    ∃ tail, (afterWinnerLookup cst ext w orc wp ds4).events
        = (if ds4.m_mode = Mode.BACKUP_DS then [Event.ProcessTxnBodySharingAssignment] else [])
          ++ ((if ds4.m_consensusMyID > cst.COMM_SIZE / 4 ∧ ds4.m_consensusMyID
                  < (cst.COMM_SIZE / 4 + cst.TX_SHARING_CLUSTER_SIZE) % 2 ^ 32 then
                match ext.SetNodeDSBlock 0 pending wp with
                | none => []
                | some dsblock_message => [Event.SendMessageToLookupNodes dsblock_message]
              else [])
            ++ (if ds4.m_consensusMyID > cst.COMM_SIZE / 4 ∧ ds4.m_consensusMyID
                  < (cst.COMM_SIZE / 4 + cst.TX_SHARING_CLUSTER_SIZE) % 2 ^ 32 then
                match ext.SetNodeDSBlock 0 pending wp with
                | none => []
                | some dsblock_message => [Event.SendMessage wp dsblock_message]
              else []))
          ++ tail
      ∧ ∀ e ∈ tail, isLookupMsg e = false ∧ isUnicast e = false := by
  unfold afterWinnerLookup
  simp only []
  refine andThen_shape _
    (fun d => d.m_pendingDSBlock = some pending ∧ d.m_consensusMyID = ds4.m_consensusMyID)
    _ _ _ _ ?_ ?_ ?_ ?_
  · split <;> rfl
  · split <;> rfl
  · split <;> exact ⟨hp, rfl⟩
  intro d5 h5
  dsimp only at h5 ⊢
  rw [h5.2]
  refine andThen_shape _
    (fun d => d.m_pendingDSBlock = some pending ∧ d.m_consensusMyID = ds4.m_consensusMyID)
    _ _ _ _ ?_ ?_ ?_ ?_
  · split
    · exact (SendDSBlockToLookupNodes_events cst ext wp d5 pending hL h5.1).1
    · rfl
  · split
    · exact (SendDSBlockToLookupNodes_events cst ext wp d5 pending hL h5.1).2
    · rfl
  · split
    · rw [SendDSBlockToLookupNodes_state]; exact h5
    · exact h5
  intro d6 h6
  dsimp only at h6 ⊢
  rw [h6.2]
  refine andThen_shape_last _
    (fun d => d.m_pendingDSBlock = some pending ∧ d.m_consensusMyID = ds4.m_consensusMyID)
    _ _ _ ?_ ?_ ?_ ?_
  · split
    · exact (SendDSBlockToNewDSLeader_events cst ext wp d6 pending hL h6.1).1
    · rfl
  · split
    · exact (SendDSBlockToNewDSLeader_events cst ext wp d6 pending hL h6.1).2
    · rfl
  · split
    · rw [SendDSBlockToNewDSLeader_state]; exact h6
    · exact h6
  intro d7 _
  dsimp only
  split
  · intro e he; cases he
  · refine andThen_all _ _ _ d7 ?_ ?_ ?_
    · split
      · exact SendDSBlockToShardNodes_state cst ext wp _ _ d7
      · rfl
    · split
      · exact SendDSBlockToShardNodes_broadcasts cst ext wp _ _ d7
      · intro e he; cases he
    · split
      · intro e he; cases he
      · split
        · intro e he; cases he
        · exact StartFirstTxEpoch_noSend cst orc _

/-- On a DS node with a pending DS block whose winner is among the PoW
connections, `ProcessDSBlockConsensusWhenDone` is the store of the block
followed by the steps after the lookup of the winner, which start from a
state with the same pending block, consensus id and mode. -/
theorem ProcessDSBlockConsensusWhenDone_found (cst : Constants) (ext : Externals) (w : Nat)
    (orc : Oracle) (ds : DirectoryService) (pending : DSBlock) (wp : Peer)
    (hL : cst.LOOKUP_NODE_MODE = false) (hp : ds.m_pendingDSBlock = some pending)
    (hwp : mapAt ds.m_allPoWConns
      (GetLastBlock (AddBlock DSBlock.m_blockNum ds.m_mediator.m_dsBlockChain
        pending).1).m_minerPubKey = some wp) :
    ∃ ds4, ds4.m_pendingDSBlock = some pending ∧ ds4.m_consensusMyID = ds.m_consensusMyID ∧
      ds4.m_mode = ds.m_mode ∧
      (ProcessDSBlockConsensusWhenDone cst ext w orc ds).events
        = Event.SetCoSignatures :: Event.PutDSBlock pending.m_blockNum orc.PutDSBlock
          :: Event.PutMetadata MetaType.LATESTACTIVEDSBLOCKNUM orc.PutMetadata
          :: Event.UpdateDSBlockRand :: (afterWinnerLookup cst ext w orc wp ds4).events ∧
      (ProcessDSBlockConsensusWhenDone cst ext w orc ds).result
        = (afterWinnerLookup cst ext w orc wp ds4).result := by
  unfold ProcessDSBlockConsensusWhenDone StoreDSBlockToStorage
  simp only [hL, hp, Bool.false_eq_true, if_false, Run.andThen, ret, hwp]
  refine ⟨_, ?_, ?_, ?_, rfl, ?_⟩ <;> rfl

/-- C22: on a DS node that commits a pending DS block whose winner is among
the PoW connections, with `lo = COMM_SIZE / 4` and
`hi = lo + TX_SHARING_CLUSTER_SIZE` (within 32 bits) and a DS-block message
that can be composed, `ProcessDSBlockConsensusWhenDone` hands exactly one
message to the transport for the lookup nodes if `lo < consensus_my_id < hi`
(the consensus id on entry, before the rotation) and none otherwise, and it
hands exactly one message to the transport for the winner peer under the same
condition and none otherwise. -/
theorem send_cohort (cst : Constants) (ext : Externals) (w : Nat) (orc : Oracle)
    (ds : DirectoryService) (pending : DSBlock) (wp : Peer) (msg : Message)
    (hL : cst.LOOKUP_NODE_MODE = false) (hp : ds.m_pendingDSBlock = some pending)
    (hwp : mapAt ds.m_allPoWConns
      (GetLastBlock (AddBlock DSBlock.m_blockNum ds.m_mediator.m_dsBlockChain
        pending).1).m_minerPubKey = some wp)
    (hmsg : ext.SetNodeDSBlock 0 pending wp = some msg)
    (hfit : cst.COMM_SIZE / 4 + cst.TX_SHARING_CLUSTER_SIZE < 2 ^ 32) :
    (ProcessDSBlockConsensusWhenDone cst ext w orc ds).events.filter isLookupMsg
        = (if cst.COMM_SIZE / 4 < ds.m_consensusMyID
              ∧ ds.m_consensusMyID < cst.COMM_SIZE / 4 + cst.TX_SHARING_CLUSTER_SIZE then
            [Event.SendMessageToLookupNodes msg] else []) ∧
      (ProcessDSBlockConsensusWhenDone cst ext w orc ds).events.filter isUnicast
        = (if cst.COMM_SIZE / 4 < ds.m_consensusMyID
              ∧ ds.m_consensusMyID < cst.COMM_SIZE / 4 + cst.TX_SHARING_CLUSTER_SIZE then
            [Event.SendMessage wp msg] else []) := by
  obtain ⟨ds4, hp4, hid4, _, hev, _⟩ :=
    ProcessDSBlockConsensusWhenDone_found cst ext w orc ds pending wp hL hp hwp
  obtain ⟨tail, ht, hP⟩ := afterWinnerLookup_sends cst ext w orc wp ds4 pending hL hp4
  have htail1 : tail.filter isLookupMsg = [] :=
    List.filter_eq_nil_iff.mpr (fun e he => by simp [(hP e he).1])
  have htail2 : tail.filter isUnicast = [] :=
    List.filter_eq_nil_iff.mpr (fun e he => by simp [(hP e he).2])
  rw [hev, ht, hmsg, hid4, Nat.mod_eq_of_lt hfit]
  by_cases hc : cst.COMM_SIZE / 4 < ds.m_consensusMyID
      ∧ ds.m_consensusMyID < cst.COMM_SIZE / 4 + cst.TX_SHARING_CLUSTER_SIZE
  · by_cases hm : ds4.m_mode = Mode.BACKUP_DS <;>
      simp [hc, hm, htail1, htail2, List.filter, isLookupMsg, isUnicast]
  · by_cases hm : ds4.m_mode = Mode.BACKUP_DS <;>
      simp [hc, hm, htail1, htail2, List.filter, isLookupMsg, isUnicast]

/-- C22, at the backup `dsCommit` (consensus id 2, `lo = 1`, `hi = 3`): the
message goes to the lookup nodes and to the winner. -/
theorem send_cohort_witness :
    (ProcessDSBlockConsensusWhenDone {} extHead 16 {} dsCommit).events.filter isLookupMsg
        = [Event.SendMessageToLookupNodes [1, 6, 0, 2]] ∧
      (ProcessDSBlockConsensusWhenDone {} extHead 16 {} dsCommit).events.filter isUnicast
        = [Event.SendMessage peerW [1, 6, 0, 2]] :=
  send_cohort {} extHead 16 {} dsCommit _ peerW _ rfl rfl rfl rfl (by decide)

/-! ### The shard ranges of the clusters -/

/-- The ceiling of a quotient, multiplied back, is at least the number and
exceeds it by less than the divisor. -/
theorem ceil_mul_bounds (a b : Nat) (hb : 0 < b) :
    a ≤ (a + b - 1) / b * b ∧ (a + b - 1) / b * b < a + b := by
  have hdm := Nat.div_add_mod (a + b - 1) b
  have hlt := Nat.mod_lt (a + b - 1) hb
  rw [Nat.mul_comm] at hdm
  generalize (a + b - 1) / b * b = x at hdm ⊢
  generalize (a + b - 1) % b = r at hdm hlt
  omega

/-- The value of `SetupMulticastConfigForDSBlock` on a DS node, in terms of
the number of clusters `nc` and of the number of shards per cluster `spc`,
when no intermediate value leaves the range of the 32-bit variables. -/
theorem SetupMulticastConfigForDSBlock_range (cst : Constants) (ds : DirectoryService)
    (outs : Nat × Nat × Nat) (nc spc : Nat) (hL : cst.LOOKUP_NODE_MODE = false)
    (hD : 0 < ds.m_mediator.m_DSCommittee.length)
    (hCS : 0 < cst.DS_MULTICAST_CLUSTER_SIZE)
    (hS : 0 < ds.m_shards.length)
    (hD32 : ds.m_mediator.m_DSCommittee.length < 2 ^ 32)
    (hS32 : ds.m_shards.length < 2 ^ 32)
    (hnc : nc = (ds.m_mediator.m_DSCommittee.length + cst.DS_MULTICAST_CLUSTER_SIZE - 1)
      / cst.DS_MULTICAST_CLUSTER_SIZE)
    (hspc : spc = (ds.m_shards.length + nc - 1) / nc)
    (hfit : ds.m_consensusMyID / cst.DS_MULTICAST_CLUSTER_SIZE * spc + spc ≤ 2 ^ 32) :
    SetupMulticastConfigForDSBlock cst ds outs = .ok
      (ds.m_consensusMyID / cst.DS_MULTICAST_CLUSTER_SIZE,
       ds.m_consensusMyID / cst.DS_MULTICAST_CLUSTER_SIZE * spc,
       min (ds.m_consensusMyID / cst.DS_MULTICAST_CLUSTER_SIZE * spc + spc - 1)
        (ds.m_shards.length - 1)) := by
  generalize hDg : ds.m_mediator.m_DSCommittee.length = D at *
  generalize hSg : ds.m_shards.length = S at *
  generalize hCg : cst.DS_MULTICAST_CLUSTER_SIZE = CS at *
  have hnc1 := div_succ_of_rem D CS hCS
  have hncb := ceil_div_bounds D CS hD hCS
  rw [← hnc] at hnc1 hncb
  have hspc1 := div_succ_of_rem S nc hncb.1
  have hspcb := ceil_div_bounds S nc hS hncb.1
  rw [← hspc] at hspc1 hspcb
  generalize hmcg : ds.m_consensusMyID / CS = mc at *
  have hmcle : mc ≤ mc * spc := Nat.le_mul_of_pos_right mc hspcb.1
  generalize hlog : mc * spc = lo at *
  have hc0 : (D / CS) % 2 ^ 32 = D / CS :=
    Nat.mod_eq_of_lt (Nat.lt_of_le_of_lt (Nat.div_le_self D CS) hD32)
  have hclusters : (if D % CS > 0 then (D / CS % 2 ^ 32 + 1) % 2 ^ 32 else D / CS % 2 ^ 32)
      = nc := by
    rw [← hnc1, hc0]
    split
    · next h =>
      apply Nat.mod_eq_of_lt
      have : D / CS + 1 = nc := by rw [← hnc1, if_pos h]
      omega
    · rfl
  have hg0 : (S / nc) % 2 ^ 32 = S / nc :=
    Nat.mod_eq_of_lt (Nat.lt_of_le_of_lt (Nat.div_le_self S nc) hS32)
  have hgroups : (if S % nc > 0 then (S / nc % 2 ^ 32 + 1) % 2 ^ 32 else S / nc % 2 ^ 32)
      = spc := by
    rw [← hspc1, hg0]
    split
    · next h =>
      apply Nat.mod_eq_of_lt
      have : S / nc + 1 = spc := by rw [← hspc1, if_pos h]
      omega
    · rfl
  have hmc : mc % 2 ^ 32 = mc := Nat.mod_eq_of_lt (by omega)
  have hlo : lo % 2 ^ 32 = lo := Nat.mod_eq_of_lt (by omega)
  have hhi0 : (lo + spc + (2 ^ 32 - 1)) % 2 ^ 32 = lo + spc - 1 := by omega
  have hSm : ((S + (2 ^ 64 - 1)) % 2 ^ 64) % 2 ^ 32 = S - 1 := by omega
  have hCS0 : CS ≠ 0 := by omega
  have hnc0 : nc ≠ 0 := by omega
  unfold SetupMulticastConfigForDSBlock
  simp only [hL, hDg, hSg, hCg, hCS0, hnc0, hclusters, hgroups, hmcg, hmc, hlog, hlo, hhi0, hSm,
    if_false, Bool.false_eq_true]
  by_cases hge : lo + spc - 1 ≥ S
  · rw [if_pos hge]
    have : min (lo + spc - 1) (S - 1) = S - 1 := by omega
    rw [this]; rfl
  · rw [if_neg hge]
    have : min (lo + spc - 1) (S - 1) = lo + spc - 1 := by omega
    rw [this]; rfl

/-- The number of clusters `nc` and the number of shards per cluster `spc`:
both are positive, `nc` clusters hold the committee and `nc - 1` do not,
`nc` groups of `spc` shards hold the shards. -/
theorem cluster_facts (D CS S nc spc : Nat) (hD : 0 < D) (hCS : 0 < CS) (hS : 0 < S)
    (hnc : nc = (D + CS - 1) / CS) (hspc : spc = (S + nc - 1) / nc) :
    0 < nc ∧ nc ≤ D ∧ D ≤ nc * CS ∧ nc * CS < D + CS ∧ 0 < spc ∧ S ≤ spc * nc
      ∧ spc * nc < S + nc := by
  have h1 := ceil_div_bounds D CS hD hCS
  have h2 := ceil_mul_bounds D CS hCS
  rw [← hnc] at h1 h2
  have h3 := ceil_div_bounds S nc hS h1.1
  have h4 := ceil_mul_bounds S nc h1.1
  rw [← hspc] at h3 h4
  exact ⟨h1.1, h1.2, h2.1, h2.2, h3.1, h4.1, h4.2⟩

/-- The shard range of a member of the committee, on a DS node whose numbers
of shards and of members together stay within 32 bits: the cluster of the
member is below the number of clusters, and its range is given in terms of
the two numbers. -/
theorem SetupMulticastConfigForDSBlock_member (cst : Constants) (ds : DirectoryService)
    (nc spc my_id : Nat) (hL : cst.LOOKUP_NODE_MODE = false)
    (hD : 0 < ds.m_mediator.m_DSCommittee.length)
    (hCS : 0 < cst.DS_MULTICAST_CLUSTER_SIZE)
    (hS : 0 < ds.m_shards.length)
    (hfit : ds.m_shards.length + ds.m_mediator.m_DSCommittee.length ≤ 2 ^ 32)
    (hnc : nc = (ds.m_mediator.m_DSCommittee.length + cst.DS_MULTICAST_CLUSTER_SIZE - 1)
      / cst.DS_MULTICAST_CLUSTER_SIZE)
    (hspc : spc = (ds.m_shards.length + nc - 1) / nc)
    (hid : my_id < ds.m_mediator.m_DSCommittee.length) :
    my_id / cst.DS_MULTICAST_CLUSTER_SIZE < nc ∧
      SetupMulticastConfigForDSBlock cst { ds with m_consensusMyID := my_id } (0, 0, 0) = .ok
        (my_id / cst.DS_MULTICAST_CLUSTER_SIZE,
         my_id / cst.DS_MULTICAST_CLUSTER_SIZE * spc,
         min (my_id / cst.DS_MULTICAST_CLUSTER_SIZE * spc + spc - 1)
          (ds.m_shards.length - 1)) := by
  obtain ⟨hnc0, hncD, hDle, _, hspc0, _, hlt⟩ :=
    cluster_facts _ _ _ nc spc hD hCS hS hnc hspc
  have hc : my_id / cst.DS_MULTICAST_CLUSTER_SIZE < nc :=
    (Nat.div_lt_iff_lt_mul hCS).mpr (Nat.lt_of_lt_of_le hid hDle)
  refine ⟨hc, ?_⟩
  have hmul := Nat.mul_le_mul_right spc (Nat.succ_le_of_lt hc)
  rw [Nat.succ_mul, Nat.mul_comm nc spc] at hmul
  exact SetupMulticastConfigForDSBlock_range cst { ds with m_consensusMyID := my_id } (0, 0, 0)
    nc spc hL hD hCS hS
    (show ds.m_mediator.m_DSCommittee.length < 2 ^ 32 by omega)
    (show ds.m_shards.length < 2 ^ 32 by omega) hnc hspc
    (show my_id / cst.DS_MULTICAST_CLUSTER_SIZE * spc + spc ≤ 2 ^ 32 by omega)

/-- The effects of the first steps of a sequence are among its effects. -/
theorem andThen_mem_first {α : Type} (r : Run Unit) (next : DirectoryService → Run α)
    (e : Event) (he : e ∈ r.events) : e ∈ (r.andThen next).events := by
  unfold Run.andThen
  split
  · exact List.mem_append_left _ he
  · exact he

/-- The effects of the next steps of a sequence whose first steps return are
among its effects. -/
theorem andThen_mem_next {α : Type} (I : DirectoryService → Prop) (r : Run Unit)
    (next : DirectoryService → Run α) (e : Event) (hr : r.result = .ok ())
    (hI : I r.state) (hn : ∀ d, I d → e ∈ (next d).events) :
    e ∈ (r.andThen next).events := by
  rw [andThen_ok r next hr]
  exact List.mem_append_right _ (hn r.state hI)

/-- The loop over shard indices that are positions of shards with a leader
whose key has a shard id for which the message can be composed: the loop ends
without a fault, with one broadcast for each index, and the broadcast of the
message of a shard to its members is among them. -/
theorem sendDSBlockToShards_sent (ext : Externals) (ds : DirectoryService)
    (pending : DSBlock) (wp : Peer) (l : List Nat)
    (hwf : ∀ i ∈ l, ∃ shard leader shardID msg, ds.m_shards[i]? = some shard ∧
      shard.head? = some leader ∧
      mapAt ds.m_publicKeyToShardIdMap leader.1 = some shardID ∧
      ext.SetNodeDSBlock shardID pending wp = some msg) :
    (sendDSBlockToShards ext ds pending wp l).2 = none ∧
      (sendDSBlockToShards ext ds pending wp l).1.length = l.length ∧
      ∀ i ∈ l, ∀ shard leader shardID msg, ds.m_shards[i]? = some shard →
        shard.head? = some leader →
        mapAt ds.m_publicKeyToShardIdMap leader.1 = some shardID →
        ext.SetNodeDSBlock shardID pending wp = some msg →
        Event.SendBroadcastMessage (shard.map (fun kv => kv.2.1)) msg
          ∈ (sendDSBlockToShards ext ds pending wp l).1 := by
  induction l with
  | nil =>
    refine ⟨rfl, rfl, ?_⟩
    intro i hi
    cases hi
  | cons j rest ih =>
    obtain ⟨ih1, ih2, ih3⟩ := ih (fun i hi => hwf i (List.mem_cons_of_mem _ hi))
    obtain ⟨shard0, leader0, shardID0, msg0, h1, h2, h3, h4⟩ := hwf j (List.mem_cons_self _ _)
    have hstep : sendDSBlockToShards ext ds pending wp (j :: rest)
        = (Event.SendBroadcastMessage (shard0.map (fun kv => kv.2.1)) msg0
              :: (sendDSBlockToShards ext ds pending wp rest).1,
            (sendDSBlockToShards ext ds pending wp rest).2) := by
      rw [sendDSBlockToShards]
      simp only [h1, h2, h3, h4]
    rw [hstep]
    refine ⟨ih1, ?_, ?_⟩
    · simp only [List.length_cons, ih2]
    · intro i hi shard leader shardID msg g1 g2 g3 g4
      rcases List.mem_cons.mp hi with heq | hmem
      · subst heq
        rw [h1] at g1
        cases g1
        rw [h2] at g2
        cases g2
        rw [h3] at g3
        cases g3
        rw [h4] at g4
        cases g4
        exact List.mem_cons_self _ _
      · exact List.mem_cons_of_mem _ (ih3 i hmem shard leader shardID msg g1 g2 g3 g4)

/-- `SendDSBlockToShardNodes` on a DS node with a pending DS block and a range
`[lo, hi]` of positions of the shard table, every shard of which has a leader
whose key has a shard id for which the message can be composed: the function
returns, with one broadcast for each shard of the range, and the broadcast of
the message of a shard of the range to its members is among them. -/
theorem SendDSBlockToShardNodes_sent (cst : Constants) (ext : Externals) (wp : Peer)
    (lo hi : Nat) (ds : DirectoryService) (pending : DSBlock)
    (hL : cst.LOOKUP_NODE_MODE = false) (hp : ds.m_pendingDSBlock = some pending)
    (hlo : lo ≤ hi) (hhi : hi < ds.m_shards.length)
    (hwf : ∀ (i : Nat) (shard : Shard), ds.m_shards[i]? = some shard → ∃ leader shardID msg,
      shard.head? = some leader ∧
      mapAt ds.m_publicKeyToShardIdMap leader.1 = some shardID ∧
      ext.SetNodeDSBlock shardID pending wp = some msg) :
    (SendDSBlockToShardNodes cst ext wp lo hi ds).result = .ok () ∧
      (SendDSBlockToShardNodes cst ext wp lo hi ds).events.length = hi + 1 - lo ∧
      ∀ i shard leader shardID msg, lo ≤ i → i ≤ hi → ds.m_shards[i]? = some shard →
        shard.head? = some leader →
        mapAt ds.m_publicKeyToShardIdMap leader.1 = some shardID →
        ext.SetNodeDSBlock shardID pending wp = some msg →
        Event.SendBroadcastMessage (shard.map (fun kv => kv.2.1)) msg
          ∈ (SendDSBlockToShardNodes cst ext wp lo hi ds).events := by
  have hrange : ∀ i ∈ List.range' lo (hi + 1 - lo), ∃ shard leader shardID msg,
      ds.m_shards[i]? = some shard ∧ shard.head? = some leader ∧
      mapAt ds.m_publicKeyToShardIdMap leader.1 = some shardID ∧
      ext.SetNodeDSBlock shardID pending wp = some msg := by
    intro i hi1
    have hb := List.mem_range'_1.mp hi1
    have hlt : i < ds.m_shards.length := by omega
    obtain ⟨leader, shardID, msg, g⟩ := hwf i _ (List.getElem?_eq_getElem hlt)
    exact ⟨_, leader, shardID, msg, List.getElem?_eq_getElem hlt, g⟩
  obtain ⟨s1, s2, s3⟩ := sendDSBlockToShards_sent ext ds pending wp _ hrange
  have hnot : ¬ lo > ds.m_shards.length := by omega
  have hrun : SendDSBlockToShardNodes cst ext wp lo hi ds
      = ret ds (sendDSBlockToShards ext ds pending wp
          (List.range' lo (hi + 1 - lo))).1 := by
    unfold SendDSBlockToShardNodes
    simp only [hL, Bool.false_eq_true, if_false]
    rw [if_neg hnot, hp]
    simp only []
    split
    · next sent hsent => rw [hsent]
    · next sent e1 hsent =>
      rw [hsent] at s1
      cases s1
  rw [hrun]
  refine ⟨rfl, ?_, ?_⟩
  · show (sendDSBlockToShards ext ds pending wp (List.range' lo (hi + 1 - lo))).1.length = _
    rw [s2, List.length_range']
  · intro i shard leader shardID msg h1 h2 g1 g2 g3 g4
    exact s3 i (List.mem_range'_1.mpr ⟨h1, by omega⟩) shard leader shardID msg g1 g2 g3 g4

/-- The numbers `SetupMulticastConfigForDSBlock` computes depend on the
numbers of members and of shards and on the consensus id only. -/
theorem SetupMulticastConfigForDSBlock_congr (cst : Constants) (d1 d2 : DirectoryService)
    (outs : Nat × Nat × Nat)
    (hc : d1.m_mediator.m_DSCommittee.length = d2.m_mediator.m_DSCommittee.length)
    (hs : d1.m_shards.length = d2.m_shards.length)
    (hid : d1.m_consensusMyID = d2.m_consensusMyID) :
    SetupMulticastConfigForDSBlock cst d1 outs = SetupMulticastConfigForDSBlock cst d2 outs := by
  unfold SetupMulticastConfigForDSBlock
  simp only [hc, hs, hid]

/-- On a DS node with a pending DS block whose winner is among the PoW
connections, `ProcessDSBlockConsensusWhenDone` is the store of the block
followed by the steps after the lookup of the winner, which start from a
state with the same pending block, consensus id, mode, committee and shard
tables. -/
theorem ProcessDSBlockConsensusWhenDone_foundFrame (cst : Constants) (ext : Externals)
    (w : Nat) (orc : Oracle) (ds : DirectoryService) (pending : DSBlock) (wp : Peer)
    (hL : cst.LOOKUP_NODE_MODE = false) (hp : ds.m_pendingDSBlock = some pending)
    (hwp : mapAt ds.m_allPoWConns
      (GetLastBlock (AddBlock DSBlock.m_blockNum ds.m_mediator.m_dsBlockChain
        pending).1).m_minerPubKey = some wp) :
    ∃ ds4, ds4.m_pendingDSBlock = some pending ∧ ds4.m_consensusMyID = ds.m_consensusMyID ∧
      ds4.m_mode = ds.m_mode ∧
      ds4.m_mediator.m_DSCommittee = ds.m_mediator.m_DSCommittee ∧
      ds4.m_shards = ds.m_shards ∧ ds4.m_tempShards = ds.m_tempShards ∧
      ds4.m_publicKeyToShardIdMap = ds.m_publicKeyToShardIdMap ∧
      ds4.m_tempPublicKeyToShardIdMap = ds.m_tempPublicKeyToShardIdMap ∧
      (ProcessDSBlockConsensusWhenDone cst ext w orc ds).events
        = Event.SetCoSignatures :: Event.PutDSBlock pending.m_blockNum orc.PutDSBlock
          :: Event.PutMetadata MetaType.LATESTACTIVEDSBLOCKNUM orc.PutMetadata
          :: Event.UpdateDSBlockRand :: (afterWinnerLookup cst ext w orc wp ds4).events := by
  unfold ProcessDSBlockConsensusWhenDone StoreDSBlockToStorage
  simp only [hL, hp, Bool.false_eq_true, if_false, Run.andThen, ret, hwp]
  refine ⟨_, ?_, ?_, ?_, ?_, ?_, ?_, ?_, ?_, rfl⟩ <;> rfl

/-- The steps after the lookup of the winner, on a DS node with a pending DS
block whose cluster passes the send guard: the effects of
`SendDSBlockToShardNodes` on the shard table in force (the temporary table
on a backup) are among the effects. -/
theorem afterWinnerLookup_shardSend (cst : Constants) (ext : Externals) (w : Nat)
    (orc : Oracle) (wp : Peer) (ds4 : DirectoryService) (pending : DSBlock)
    (shards : List Shard) (keyToShard : List (PubKey × Nat)) (c lo hi : Nat) (e : Event)
    (hL : cst.LOOKUP_NODE_MODE = false) (hp : ds4.m_pendingDSBlock = some pending)
    (hshards : (if ds4.m_mode = Mode.BACKUP_DS then ds4.m_tempShards else ds4.m_shards)
      = shards)
    (hmap : (if ds4.m_mode = Mode.BACKUP_DS then ds4.m_tempPublicKeyToShardIdMap
      else ds4.m_publicKeyToShardIdMap) = keyToShard)
    (hsetup : ∀ d : DirectoryService, d.m_shards = shards →
      d.m_mediator.m_DSCommittee = ds4.m_mediator.m_DSCommittee →
      d.m_consensusMyID = ds4.m_consensusMyID →
      SetupMulticastConfigForDSBlock cst d (0, 0, 0) = .ok (c, lo, hi))
    (hguard : (c + 1) % 2 ^ 32 ≤ shards.length)
    (hsend : ∀ d : DirectoryService, d.m_shards = shards →
      d.m_publicKeyToShardIdMap = keyToShard → d.m_pendingDSBlock = some pending →
      e ∈ (SendDSBlockToShardNodes cst ext wp lo hi d).events) :
    e ∈ (afterWinnerLookup cst ext w orc wp ds4).events := by
  unfold afterWinnerLookup
  simp only []
  refine andThen_mem_next
    (fun d => d.m_shards = shards ∧ d.m_publicKeyToShardIdMap = keyToShard ∧
      d.m_mediator.m_DSCommittee = ds4.m_mediator.m_DSCommittee ∧
      d.m_consensusMyID = ds4.m_consensusMyID ∧ d.m_pendingDSBlock = some pending)
    _ _ e ?_ ?_ ?_
  · split <;> rfl
  · by_cases hm : ds4.m_mode = Mode.BACKUP_DS
    · rw [if_pos hm] at hshards hmap ⊢
      exact ⟨hshards, hmap, rfl, rfl, hp⟩
    · rw [if_neg hm] at hshards hmap ⊢
      exact ⟨hshards, hmap, rfl, rfl, hp⟩
  intro d5 h5
  refine andThen_mem_next
    (fun d => d.m_shards = shards ∧ d.m_publicKeyToShardIdMap = keyToShard ∧
      d.m_mediator.m_DSCommittee = ds4.m_mediator.m_DSCommittee ∧
      d.m_consensusMyID = ds4.m_consensusMyID ∧ d.m_pendingDSBlock = some pending)
    _ _ e ?_ ?_ ?_
  · split
    · exact (SendDSBlockToLookupNodes_events cst ext wp d5 pending hL h5.2.2.2.2).1
    · rfl
  · split
    · rw [SendDSBlockToLookupNodes_state]
      exact h5
    · exact h5
  intro d6 h6
  refine andThen_mem_next
    (fun d => d.m_shards = shards ∧ d.m_publicKeyToShardIdMap = keyToShard ∧
      d.m_mediator.m_DSCommittee = ds4.m_mediator.m_DSCommittee ∧
      d.m_consensusMyID = ds4.m_consensusMyID ∧ d.m_pendingDSBlock = some pending)
    _ _ e ?_ ?_ ?_
  · split
    · exact (SendDSBlockToNewDSLeader_events cst ext wp d6 pending hL h6.2.2.2.2).1
    · rfl
  · split
    · rw [SendDSBlockToNewDSLeader_state]
      exact h6
    · exact h6
  intro d7 h7
  have hg : (c + 1) % 2 ^ 32 ≤ d7.m_shards.length := by
    rw [h7.1]
    exact hguard
  rw [hsetup d7 h7.1 h7.2.2.1 h7.2.2.2.1]
  simp only []
  rw [if_pos hg]
  exact andThen_mem_first _ _ e (hsend d7 h7.1 h7.2.1 h7.2.2.2.2)

/-- Every shard of `dsThreeShards` has a leader whose key has a shard id, and
the message for it can be composed. -/
theorem dsThreeShards_leaders (i : Nat) (shard : Shard)
    (h : dsThreeShards.m_shards[i]? = some shard) :
    ∃ leader shardID msg, shard.head? = some leader ∧
      mapAt dsThreeShards.m_publicKeyToShardIdMap leader.1 = some shardID ∧
      extHead.SetNodeDSBlock shardID { m_blockNum := 2, m_minerPubKey := 9 } peerW
        = some msg := by
  match i, h with
  | 0, h => cases h; exact ⟨_, _, _, rfl, rfl, rfl⟩
  | 1, h => cases h; exact ⟨_, _, _, rfl, rfl, rfl⟩
  | 2, h => cases h; exact ⟨_, _, _, rfl, rfl, rfl⟩
  | _ + 3, h => cases h

/-- Every shard index lies in the range of a member of the committee whose
cluster passes the send guard; the range ends at a position of the shard
table. -/
theorem shard_range_cover (cst : Constants) (ds : DirectoryService)
    (hL : cst.LOOKUP_NODE_MODE = false)
    (hD : 0 < ds.m_mediator.m_DSCommittee.length)
    (hCS : 0 < cst.DS_MULTICAST_CLUSTER_SIZE)
    (hS : 0 < ds.m_shards.length)
    (hfit : ds.m_shards.length + ds.m_mediator.m_DSCommittee.length ≤ 2 ^ 32)
    (s : Nat) (hs : s < ds.m_shards.length) :
    ∃ my_id c lo hi,
      my_id < ds.m_mediator.m_DSCommittee.length ∧
      SetupMulticastConfigForDSBlock cst { ds with m_consensusMyID := my_id } (0, 0, 0)
        = .ok (c, lo, hi) ∧
      c = my_id / cst.DS_MULTICAST_CLUSTER_SIZE ∧ lo ≤ s ∧ s ≤ hi ∧
      c < ds.m_shards.length ∧ (c + 1) % 2 ^ 32 ≤ ds.m_shards.length ∧
      hi < ds.m_shards.length := by
  obtain ⟨nc, hnc⟩ : ∃ nc, nc = (ds.m_mediator.m_DSCommittee.length
      + cst.DS_MULTICAST_CLUSTER_SIZE - 1) / cst.DS_MULTICAST_CLUSTER_SIZE := ⟨_, rfl⟩
  obtain ⟨spc, hspc⟩ : ∃ spc, spc = (ds.m_shards.length + nc - 1) / nc := ⟨_, rfl⟩
  obtain ⟨hnc0, hncD, hDle, hDlt, hspc0, hSle, hSlt⟩ :=
    cluster_facts _ _ _ nc spc hD hCS hS hnc hspc
  have hc : s / spc < nc :=
    (Nat.div_lt_iff_lt_mul hspc0).mpr (by rw [Nat.mul_comm]; omega)
  have hmulCS := Nat.mul_le_mul_right cst.DS_MULTICAST_CLUSTER_SIZE (Nat.succ_le_of_lt hc)
  rw [Nat.succ_mul] at hmulCS
  have hid : s / spc * cst.DS_MULTICAST_CLUSTER_SIZE < ds.m_mediator.m_DSCommittee.length := by
    omega
  have hcancel : s / spc * cst.DS_MULTICAST_CLUSTER_SIZE / cst.DS_MULTICAST_CLUSTER_SIZE
      = s / spc := Nat.mul_div_cancel _ hCS
  have hmem := (SetupMulticastConfigForDSBlock_member cst ds nc spc
    (s / spc * cst.DS_MULTICAST_CLUSTER_SIZE) hL hD hCS hS hfit hnc hspc hid).2
  rw [hcancel] at hmem
  have hdm := Nat.div_add_mod s spc
  have hmod := Nat.mod_lt s hspc0
  rw [Nat.mul_comm] at hdm
  have hcS : s / spc < ds.m_shards.length :=
    Nat.lt_of_le_of_lt (Nat.div_le_self s spc) hs
  have hS32 : ds.m_shards.length < 2 ^ 32 := by omega
  refine ⟨_, _, _, _, hid, hmem, hcancel.symm, ?_, ?_, hcS, ?_, ?_⟩
  · omega
  · generalize s / spc * spc = x at *
    omega
  · rw [Nat.mod_eq_of_lt (Nat.lt_of_le_of_lt (Nat.succ_le_of_lt hcS) hS32)]
    exact Nat.succ_le_of_lt hcS
  · generalize s / spc * spc = x at *
    omega

/-- C25: on a DS node with `D > 0` members, cluster size `CLUSTER_SIZE > 0`
and `S > 0` shards (`S + D` within 32 bits), the shard ranges
`[shards_lo, shards_hi]` that `SetupMulticastConfigForDSBlock` computes for
the members of the committee are disjoint for members of different clusters
(two ranges that share a shard index belong to the same cluster), and every
shard index `s < S` lies in the range of a member `my_id < D`, whose cluster
`c = my_id div CLUSTER_SIZE` passes the send guard (`c < S`, and the guard as
the code evaluates it) with `shards_lo` a position of the shard table.
Every shard is sent the DS block by such a member: when the DS block is
pending and every shard has a leader whose key has a shard id for which the
message can be composed, `SendDSBlockToShardNodes` with the range of that
member returns and broadcasts the message of the shard `s` to the members of
the shard, and the broadcast is among the effects of
`ProcessDSBlockConsensusWhenDone` on every node with that consensus id, this
committee and this shard table in force (the temporary table on a backup)
that commits the block with its winner among the PoW connections. -/
theorem shard_ranges_partition (cst : Constants) (ds : DirectoryService)
    (hL : cst.LOOKUP_NODE_MODE = false)
    (hD : 0 < ds.m_mediator.m_DSCommittee.length)
    (hCS : 0 < cst.DS_MULTICAST_CLUSTER_SIZE)
    (hS : 0 < ds.m_shards.length)
    (hfit : ds.m_shards.length + ds.m_mediator.m_DSCommittee.length ≤ 2 ^ 32) :
    (∀ id1 id2 c1 lo1 hi1 c2 lo2 hi2 s,
      id1 < ds.m_mediator.m_DSCommittee.length → id2 < ds.m_mediator.m_DSCommittee.length →
      SetupMulticastConfigForDSBlock cst { ds with m_consensusMyID := id1 } (0, 0, 0)
        = .ok (c1, lo1, hi1) →
      SetupMulticastConfigForDSBlock cst { ds with m_consensusMyID := id2 } (0, 0, 0)
        = .ok (c2, lo2, hi2) →
      lo1 ≤ s → s ≤ hi1 → lo2 ≤ s → s ≤ hi2 → c1 = c2) ∧
    (∀ s, s < ds.m_shards.length → ∃ my_id c lo hi,
      my_id < ds.m_mediator.m_DSCommittee.length ∧
      SetupMulticastConfigForDSBlock cst { ds with m_consensusMyID := my_id } (0, 0, 0)
        = .ok (c, lo, hi) ∧
      c = my_id / cst.DS_MULTICAST_CLUSTER_SIZE ∧ lo ≤ s ∧ s ≤ hi ∧
      c < ds.m_shards.length ∧ (c + 1) % 2 ^ 32 ≤ ds.m_shards.length) ∧
    (∀ (ext : Externals) (wp : Peer) (pending : DSBlock),
      ds.m_pendingDSBlock = some pending →
      (∀ (i : Nat) (shard : Shard), ds.m_shards[i]? = some shard → ∃ leader shardID msg,
        shard.head? = some leader ∧
        mapAt ds.m_publicKeyToShardIdMap leader.1 = some shardID ∧
        ext.SetNodeDSBlock shardID pending wp = some msg) →
      ∀ (s : Nat) (shard : Shard) (leader : PubKey × Peer × Nat) (shardID : Nat)
          (msg : Message),
        ds.m_shards[s]? = some shard → shard.head? = some leader →
        mapAt ds.m_publicKeyToShardIdMap leader.1 = some shardID →
        ext.SetNodeDSBlock shardID pending wp = some msg →
        ∃ my_id c lo hi,
          my_id < ds.m_mediator.m_DSCommittee.length ∧
          SetupMulticastConfigForDSBlock cst { ds with m_consensusMyID := my_id } (0, 0, 0)
            = .ok (c, lo, hi) ∧
          lo ≤ s ∧ s ≤ hi ∧ (c + 1) % 2 ^ 32 ≤ ds.m_shards.length ∧
          (SendDSBlockToShardNodes cst ext wp lo hi
            { ds with m_consensusMyID := my_id }).result = .ok () ∧
          Event.SendBroadcastMessage (shard.map (fun kv => kv.2.1)) msg
            ∈ (SendDSBlockToShardNodes cst ext wp lo hi
                { ds with m_consensusMyID := my_id }).events ∧
          ∀ (w : Nat) (orc : Oracle) (node : DirectoryService),
            node.m_consensusMyID = my_id →
            node.m_mediator.m_DSCommittee = ds.m_mediator.m_DSCommittee →
            (if node.m_mode = Mode.BACKUP_DS then node.m_tempShards else node.m_shards)
              = ds.m_shards →
            (if node.m_mode = Mode.BACKUP_DS then node.m_tempPublicKeyToShardIdMap
              else node.m_publicKeyToShardIdMap) = ds.m_publicKeyToShardIdMap →
            node.m_pendingDSBlock = some pending →
            mapAt node.m_allPoWConns
              (GetLastBlock (AddBlock DSBlock.m_blockNum node.m_mediator.m_dsBlockChain
                pending).1).m_minerPubKey = some wp →
            Event.SendBroadcastMessage (shard.map (fun kv => kv.2.1)) msg
              ∈ (ProcessDSBlockConsensusWhenDone cst ext w orc node).events) := by
  refine ⟨?_, ?_, ?_⟩
  · obtain ⟨nc, hnc⟩ : ∃ nc, nc = (ds.m_mediator.m_DSCommittee.length
        + cst.DS_MULTICAST_CLUSTER_SIZE - 1) / cst.DS_MULTICAST_CLUSTER_SIZE := ⟨_, rfl⟩
    obtain ⟨spc, hspc⟩ : ∃ spc, spc = (ds.m_shards.length + nc - 1) / nc := ⟨_, rfl⟩
    obtain ⟨hnc0, hncD, hDle, hDlt, hspc0, hSle, hSlt⟩ :=
      cluster_facts _ _ _ nc spc hD hCS hS hnc hspc
    intro id1 id2 c1 lo1 hi1 c2 lo2 hi2 s hid1 hid2 h1 h2 hl1 hh1 hl2 hh2
    rw [(SetupMulticastConfigForDSBlock_member cst ds nc spc id1 hL hD hCS hS hfit hnc hspc
      hid1).2] at h1
    rw [(SetupMulticastConfigForDSBlock_member cst ds nc spc id2 hL hD hCS hS hfit hnc hspc
      hid2).2] at h2
    cases h1
    cases h2
    generalize id1 / cst.DS_MULTICAST_CLUSTER_SIZE = c1 at *
    generalize id2 / cst.DS_MULTICAST_CLUSTER_SIZE = c2 at *
    rcases Nat.lt_trichotomy c1 c2 with hlt | heq | hgt
    · have hmul := Nat.mul_le_mul_right spc (Nat.succ_le_of_lt hlt)
      rw [Nat.succ_mul] at hmul
      generalize c1 * spc = x1 at *
      generalize c2 * spc = x2 at *
      omega
    · exact heq
    · have hmul := Nat.mul_le_mul_right spc (Nat.succ_le_of_lt hgt)
      rw [Nat.succ_mul] at hmul
      generalize c1 * spc = x1 at *
      generalize c2 * spc = x2 at *
      omega
  · intro s hs
    obtain ⟨my_id, c, lo, hi, h1, h2, h3, h4, h5, h6, h7, _⟩ :=
      shard_range_cover cst ds hL hD hCS hS hfit s hs
    exact ⟨my_id, c, lo, hi, h1, h2, h3, h4, h5, h6, h7⟩
  · intro ext wp pending hp hwf s shard leader shardID msg g1 g2 g3 g4
    have hs : s < ds.m_shards.length := by
      by_contra hge
      rw [List.getElem?_eq_none (Nat.le_of_not_lt hge)] at g1
      cases g1
    obtain ⟨my_id, c, lo, hi, h1, h2, _, h4, h5, _, h7, h8⟩ :=
      shard_range_cover cst ds hL hD hCS hS hfit s hs
    have hsent := SendDSBlockToShardNodes_sent cst ext wp lo hi
      { ds with m_consensusMyID := my_id } pending hL hp (Nat.le_trans h4 h5) h8 hwf
    refine ⟨my_id, c, lo, hi, h1, h2, h4, h5, h7, hsent.1,
      hsent.2.2 s shard leader shardID msg h4 h5 g1 g2 g3 g4, ?_⟩
    intro w orc node hid hcomm hshards hmap hpn hwp
    obtain ⟨ds4, f1, f2, f3, f4, f5, f6, f7, f8, hev⟩ :=
      ProcessDSBlockConsensusWhenDone_foundFrame cst ext w orc node pending wp hL hpn hwp
    rw [hev]
    refine List.mem_cons_of_mem _ (List.mem_cons_of_mem _ (List.mem_cons_of_mem _
      (List.mem_cons_of_mem _ ?_)))
    refine afterWinnerLookup_shardSend cst ext w orc wp ds4 pending ds.m_shards
      ds.m_publicKeyToShardIdMap c lo hi _ hL f1 ?_ ?_ ?_ h7 ?_
    · rw [f3, f5, f6]
      exact hshards
    · rw [f3, f7, f8]
      exact hmap
    · intro d e1 e2 e3
      rw [← h2]
      refine SetupMulticastConfigForDSBlock_congr cst d _ (0, 0, 0) ?_ ?_ ?_
      · rw [e2, f4, hcomm]
      · rw [e1]
      · rw [e3, f2, hid]
    · intro d e1 e2 e3
      have hwfd : ∀ (i : Nat) (shard : Shard), d.m_shards[i]? = some shard →
          ∃ leader shardID msg, shard.head? = some leader ∧
            mapAt d.m_publicKeyToShardIdMap leader.1 = some shardID ∧
            ext.SetNodeDSBlock shardID pending wp = some msg := by
        rw [e1, e2]
        exact hwf
      have hsentd := SendDSBlockToShardNodes_sent cst ext wp lo hi d pending hL e3
        (Nat.le_trans h4 h5) (by rw [e1]; exact h8) hwfd
      refine hsentd.2.2 s shard leader shardID msg h4 h5 ?_ g2 ?_ g4
      · rw [e1]
        exact g1
      · rw [e2]
        exact g3

/-- C25, at `D = 10`, `CLUSTER_SIZE = 3`, `S = 7`: the ranges `[2, 3]` of
the member 4 (cluster 1) and `[6, 6]` of the member 9 (cluster 3) share no
shard index, and the shard of index 5 is in the range of some member. At the
committee of four with three shards: the oldest backup, of consensus id 3,
broadcasts the message of the shard of index 2 to the member of that shard
when it commits the pending DS block, and for that shard there is a member
of the committee whose commit has the broadcast among its effects. -/
theorem shard_ranges_partition_witness :
    SetupMulticastConfigForDSBlock {} { dsMulticast 0 with m_consensusMyID := 4 } (0, 0, 0)
        = .ok (1, 2, 3) ∧
      SetupMulticastConfigForDSBlock {} { dsMulticast 0 with m_consensusMyID := 9 } (0, 0, 0)
        = .ok (3, 6, 6) ∧
      ¬ (2 ≤ 6 ∧ 6 ≤ 3) ∧
      (∃ my_id c lo hi, my_id < (dsMulticast 0).m_mediator.m_DSCommittee.length ∧
        SetupMulticastConfigForDSBlock {} { dsMulticast 0 with m_consensusMyID := my_id } (0, 0, 0)
          = .ok (c, lo, hi) ∧
        c = my_id / 3 ∧ lo ≤ 5 ∧ 5 ≤ hi ∧ c < 7 ∧ (c + 1) % 2 ^ 32 ≤ 7) ∧
      (ProcessDSBlockConsensusWhenDone {} extHead 16 {} dsThreeShards).events.filter isShardMsg
        = [Event.SendBroadcastMessage [⟨123, 3⟩] [1, 6, 2, 2]] ∧
      (∃ my_id, my_id < 4 ∧
        Event.SendBroadcastMessage [⟨123, 3⟩] [1, 6, 2, 2]
          ∈ (ProcessDSBlockConsensusWhenDone {} extHead 16 {}
              { dsThreeShards with m_consensusMyID := my_id }).events) :=
  ⟨rfl, rfl,
    (fun h => absurd
      ((shard_ranges_partition {} (dsMulticast 0) rfl (by decide) (by decide) (by decide)
        (by decide)).1 4 9 1 2 3 3 6 6 6 (by decide) (by decide) rfl rfl h.1 h.2
          (Nat.le_refl 6) (Nat.le_refl 6))
      (by decide)),
    (shard_ranges_partition {} (dsMulticast 0) rfl (by decide) (by decide) (by decide)
      (by decide)).2.1 5 (by decide),
    rfl,
    (by
      obtain ⟨my_id, _, _, _, hid, _, _, _, _, _, _, hrun⟩ :=
        (shard_ranges_partition {} dsThreeShards rfl (by decide) (by decide) (by decide)
          (by decide)).2.2 extHead peerW _ rfl dsThreeShards_leaders 2 _ _ _ _ rfl rfl rfl rfl
      exact ⟨my_id, hid, hrun 16 {} { dsThreeShards with m_consensusMyID := my_id }
        rfl rfl rfl rfl rfl rfl⟩)⟩

/-- C26: with `D = 10` members, cluster size 3 and `S = 5` shards, the member
with consensus id 9 (cluster 3) passes the send guard, `3 + 1 ≤ 5`, with the
range `shards_lo = 6`, `shards_hi = 4`: `shards_lo` is neither at most
`shards_hi` nor a position of the shard table, `SendDSBlockToShardNodes`
advances its iterator past the end of the table, and
`ProcessDSBlockConsensusWhenDone` ends there without a message to a shard. -/
theorem shard_range_failing :
    dsFiveShards.m_consensusMyID < dsFiveShards.m_mediator.m_DSCommittee.length ∧
      SetupMulticastConfigForDSBlock {} dsFiveShards (0, 0, 0) = .ok (3, 6, 4) ∧
      (3 + 1) % 2 ^ 32 ≤ dsFiveShards.m_shards.length ∧
      dsFiveShards.m_shards.length < 6 ∧
      SendDSBlockToShardNodes {} {} peerW 6 4 dsFiveShards
        = fail dsFiveShards [] Fault.undefined ∧
      (ProcessDSBlockConsensusWhenDone {} {} 16 {} dsFiveShards).result
        = .error Fault.undefined ∧
      (ProcessDSBlockConsensusWhenDone {} {} 16 {} dsFiveShards).events.filter isShardMsg
        = [] :=
  ⟨by decide, rfl, by decide, by decide, rfl, rfl, rfl⟩

end Zilliqa
